import Mathlib

/-!
The pmseries report assembly engine.

A shallow embedding of `src/pmseries/pmseries.c`: the report state
(`series_data`), the series boundary tracker (`series_next`), the callback
handlers and the ordering helpers, followed by theorems about them.

Modelling conventions

* Text (`sds`, `char *`) is a `String` holding the characters before the
  terminating NUL; text never contains a NUL character.
* `series_flags` is a natural-number bit mask, as in the `enum`.
* The C arrays `(n, ptr)` are lists holding the first `n` entries.
* Standard output and standard error are strings that grow by appending;
  `exitsts` is the process-wide exit status.
* `realloc` succeeds.
-/

namespace Pmseries

/-! ## Text -/

/-- Dynamic strings of the sds library. -/
abbrev sds := String

/-- Series identifiers (`pmSID`) are sds strings. -/
abbrev pmSID := sds

/-- Length of an sds string. -/
def sdslen (s : sds) : Nat := s.length

/-- C `strncmp` on character sequences: compares at most `n` characters, the
end of a string counting as the terminating NUL, which is below every
character.  The C standard fixes only the sign of the result, so the result
is -1, 0 or 1. -/
def strncmpList : List Char → List Char → Nat → Int
  | _, _, 0 => 0
  | [], [], _ + 1 => 0
  | [], _ :: _, _ + 1 => -1
  | _ :: _, [], _ + 1 => 1
  | a :: as, b :: bs, n + 1 =>
    if a = b then strncmpList as bs n else if a < b then -1 else 1

/-- C `strncmp`. -/
def strncmp (a b : String) (n : Nat) : Int := strncmpList a.data b.data n

/-- C `strcmp` on character sequences (sign of the result only): the first
differing character decides, and a proper prefix is smaller. -/
def strcmpList : List Char → List Char → Int
  | [], [] => 0
  | [], _ :: _ => -1
  | _ :: _, [] => 1
  | a :: as, b :: bs => if a = b then strcmpList as bs else if a < b then -1 else 1

/-- C `strcmp`. -/
def strcmp (a b : String) : Int := strcmpList a.data b.data

/-- The sds `sdscmp`: `memcmp` over the common length, then the longer string
is the larger; on text this is the order of `strcmp`. -/
def sdscmp (a b : sds) : Int := strcmpList a.data b.data

/-- C `isspace` in the C locale. -/
def isspace (c : Char) : Bool :=
  c = ' ' || c = '\t' || c = '\n' || c = '\x0b' || c = '\x0c' || c = '\r'

/-- Value of the leading decimal digits of a character sequence. -/
def digitsVal : List Char → Nat → Nat
  | [], acc => acc
  | c :: cs, acc => if c.isDigit then digitsVal cs (acc * 10 + (c.toNat - 48)) else acc

def LLONG_MAX : Int := 2 ^ 63 - 1
def LLONG_MIN : Int := - 2 ^ 63

/-- Results of `strtoll` outside the range of `long long` are clamped. -/
def clampLL (x : Int) : Int := max LLONG_MIN (min LLONG_MAX x)

/-- C `atoll`: skip white space, an optional sign, then decimal digits. -/
def atollList (s : List Char) : Int :=
  match s.dropWhile isspace with
  | '-' :: r => clampLL (- (digitsVal r 0 : Int))
  | '+' :: r => clampLL (digitsVal r 0 : Int)
  | r => clampLL (digitsVal r 0 : Int)

/-- C `atoll`. -/
def atoll (s : String) : Int := atollList s.data

/-- Two's complement value of `x` in a signed integer of `bits` bits. -/
def wrapInt (bits : Nat) (x : Int) : Int :=
  (x + 2 ^ (bits - 1)) % 2 ^ bits - 2 ^ (bits - 1)

/-- C `strcasecmp` in the C locale: `strcmp` after folding the ASCII upper
case letters to lower case. -/
def strcasecmp (a b : String) : Int :=
  strcmpList (a.data.map Char.toLower) (b.data.map Char.toLower)

/-- One `%u` directive of `sscanf`: skip white space, accept an optional sign
and at least one decimal digit; the value is that of `strtoul` stored in an
`unsigned int`: digits beyond the range of `unsigned long` give `ULONG_MAX`
whatever the sign, digits within the range are negated in `unsigned long`
after a minus sign, and the result is cut to 32 bits.  Returns the value and
the rest of the input, or `none` on a matching failure. -/
def scanUnsigned (s : List Char) : Option (Nat × List Char) :=
  let s1 := s.dropWhile isspace
  let neg := s1.head? == some '-'
  let s2 := if s1.head? == some '-' || s1.head? == some '+' then s1.tail else s1
  let ds := s2.takeWhile Char.isDigit
  if ds = [] then none
  else
    let v := if digitsVal ds 0 > 2 ^ 64 - 1 then 2 ^ 64 - 1
      else if neg then (2 ^ 64 - digitsVal ds 0) % 2 ^ 64
      else digitsVal ds 0
    some (v % 2 ^ 32, s2.dropWhile Char.isDigit)

/-- A literal `.` in a `sscanf` format. -/
def scanDot : List Char → Option (List Char)
  | '.' :: r => some r
  | _ => none

/-- The call `sscanf(s, "%u.%u.%u", ...) == 3` with the three values. -/
def sscanf_u3 (s : String) : Option (Nat × Nat × Nat) :=
  match scanUnsigned s.data with
  | none => none
  | some (a, r1) =>
    match scanDot r1 with
    | none => none
    | some r1 =>
      match scanUnsigned r1 with
      | none => none
      | some (b, r2) =>
        match scanDot r2 with
        | none => none
        | some r2 =>
          match scanUnsigned r2 with
          | none => none
          | some (c, _) => some (a, b, c)

/-- The call `sscanf(s, "%u.%u", ...) == 2` with the two values. -/
def sscanf_u2 (s : String) : Option (Nat × Nat) :=
  match scanUnsigned s.data with
  | none => none
  | some (a, r1) =>
    match scanDot r1 with
    | none => none
    | some r1 =>
      match scanUnsigned r1 with
      | none => none
      | some (b, _) => some (a, b)

/-- The conversion `%u` of `printf`. -/
def fmt_u (n : Nat) : String := (Nat.toDigits 10 n).asString

/-- The conversion `%x` of `printf`. -/
def fmt_x (n : Nat) : String := (Nat.toDigits 16 n).asString

/-- What the handlers use of libpcp (`pmapi.h`, not part of this program's
own source): the null identifiers as values of the unsigned types `pmID`
and `pmInDom`, the identifier constructors, the program name and the error
text of a status code. -/
structure Pmapi where
  PM_ID_NULL : Nat
  PM_IN_NULL : Nat
  pmID_build : Nat → Nat → Nat → Nat
  pmInDom_build : Nat → Nat → Nat
  pmGetProgname : String
  pmErrStr : Int → String

/-- The libpcp values: null identifiers are all ones, a metric identifier
packs domain (9 bits), cluster (12 bits) and item (10 bits), an instance
domain packs domain (9 bits) and serial (22 bits). -/
def libpcp : Pmapi :=
  { PM_ID_NULL := 0xffffffff,
    PM_IN_NULL := 0xffffffff,
    pmID_build := fun d c i => ((d &&& 0x1ff) <<< 22) ||| ((c &&& 0xfff) <<< 10) ||| (i &&& 0x3ff),
    pmInDom_build := fun d s => ((d &&& 0x1ff) <<< 22) ||| (s &&& 0x3fffff),
    pmGetProgname := "pmseries",
    pmErrStr := fun sts => "error " ++ toString sts }

/-- The libc `qsort`, as a stable comparison sort driven by the comparator
(an element goes before the first element it does not compare greater than). -/
def qsort {α : Type} (cmp : α → α → Int) (xs : List α) : List α :=
  xs.insertionSort (fun a b => cmp a b ≤ 0)

/-! ## Flags -/

def PMSERIES_COLOUR : Nat := 1 <<< 0
def PMSERIES_FAST : Nat := 1 <<< 1
def PMSERIES_FULLINDOM : Nat := 1 <<< 2
def PMSERIES_FULLPMID : Nat := 1 <<< 3
def PMSERIES_SERIESID : Nat := 1 <<< 4
def PMSERIES_SOURCEID : Nat := 1 <<< 5
def PMSERIES_NEED_EOL : Nat := 1 <<< 6
def PMSERIES_NEED_COMMA : Nat := 1 <<< 7
def PMSERIES_INSTLABELS : Nat := 1 <<< 8
def PMSERIES_ONLY_NAMES : Nat := 1 <<< 9
def PMSERIES_NEED_DESCS : Nat := 1 <<< 10
def PMSERIES_NEED_INSTS : Nat := 1 <<< 11
def PMSERIES_OPT_ALL : Nat := 1 <<< 16
def PMSERIES_OPT_SOURCE : Nat := 1 <<< 17
def PMSERIES_OPT_DESC : Nat := 1 <<< 18
def PMSERIES_OPT_INSTS : Nat := 1 <<< 19
def PMSERIES_OPT_LABELS : Nat := 1 <<< 20
def PMSERIES_OPT_LOAD : Nat := 1 <<< 21
def PMSERIES_OPT_METRIC : Nat := 1 <<< 22
def PMSERIES_OPT_QUERY : Nat := 1 <<< 23

def PMSERIES_META_OPTS : Nat :=
  PMSERIES_OPT_DESC ||| PMSERIES_OPT_INSTS ||| PMSERIES_OPT_LABELS ||| PMSERIES_OPT_METRIC

/-- The C condition `f & m`: some bit of `m` is set in `f`. -/
def flagTest (f m : Nat) : Bool := (f &&& m) != 0

/-- The C expression `f & ~m`: the bits of `m` removed from `f`. -/
def flagClear (f m : Nat) : Nat := f ^^^ (f &&& m)

/-- The C expression `f | m`. -/
def flagSet (f m : Nat) : Nat := f ||| m

/-! ## Data model -/

structure series_label where
  name : sds
  value : sds
deriving DecidableEq, Repr

structure series_inst where
  /-- internal instance identifier -/
  instid : sds
  /-- external instance identifier -/
  name : sds
  /-- instance series back-pointer -/
  series : sds
  /-- series (instance) labels: the `nlabels` entries read through the kept
  pointer, `none` for an entry that lies beyond the allocated block -/
  labels : List (Option series_label)
deriving DecidableEq, Repr

/-- What the pointer `dp->insts` refers to: nothing (NULL, as `calloc` leaves
it), a block obtained from `realloc`, a block that has been freed while the
pointer was kept, or, once such a freed block has been passed to `free` or
`realloc` again, nothing defined: from then on the behaviour of the program
is undefined (the C library aborts it) and the other parts of the state say
nothing about it. -/
inductive block where
  | null
  | live
  | freed
  | undefined
deriving DecidableEq, Repr

/-- The statement `if (p) free(p)` on the block of `p`: NULL is left alone, a
block is freed, and freeing a freed block is undefined. -/
def block.free : block → block
  | block.null => block.null
  | block.live => block.freed
  | block.freed => block.undefined
  | block.undefined => block.undefined

/-- The call `realloc(p, bytes)` (succeeding) on the block of `p`: NULL gives a
new block, a block is resized, and a freed block is undefined. -/
def block.realloc : block → block
  | block.null => block.live
  | block.live => block.live
  | block.freed => block.undefined
  | block.undefined => block.undefined

structure series_data where
  /-- command exit status -/
  status : Int
  /-- flags affecting reporting -/
  flags : Nat
  /-- current time series -/
  series : pmSID
  /-- current time series source (`none` is the NULL pointer) -/
  source : Option pmSID
  /-- current time series (value) type (`none` is the NULL pointer) -/
  type : Option sds
  /-- series (metric) labels: the `nlabels` entries read through the kept
  pointer, `none` for an entry that lies beyond the allocated block -/
  labels : List (Option series_label)
  /-- instances for the current series: the `ninsts` entries -/
  insts : List series_inst
  /-- series identifiers for instances -/
  iseries : List pmSID
  /-- the block the pointer `insts` refers to -/
  insts_block : block
deriving DecidableEq, Repr

/-- The report state together with what the process has written so far and
the process-wide exit status. -/
structure World where
  dp : series_data
  stdout : String
  stderr : String
  exitsts : Int
deriving DecidableEq, Repr

/-- Append text to standard output. -/
def World.print (w : World) (s : String) : World :=
  { w with stdout := w.stdout ++ s }

/-- The operation `series_data_endtopic(dp)`. -/
def series_data_endtopic (dp : series_data) : series_data :=
  { dp with flags := flagClear dp.flags PMSERIES_NEED_COMMA }

/-- The operation `series_data_endline(dp)`. -/
def series_data_endline (dp : series_data) : series_data :=
  { dp with flags := flagClear dp.flags PMSERIES_NEED_EOL }

/-- The function `series_data_init`: a zeroed structure whose series and source are the
buffers made by `sdsnewlen("", 40)`, whose text is empty. -/
def series_data_init (flags : Nat) : series_data :=
  { status := 0, flags := flags, series := "", source := some "", type := none,
    labels := [], insts := [], iseries := [], insts_block := block.null }

/-- The process state before any callback: nothing written, exit status 0. -/
def World.start (dp : series_data) : World :=
  { dp := dp, stdout := "", stderr := "", exitsts := 0 }

/-- The function `series_add_inst`: append one instance (and its series
identifier).  The block of `dp->insts` is passed to `realloc`, which is
undefined for a block that has been freed. -/
def series_add_inst (dp : series_data) (series instid instname : sds) : series_data :=
  { dp with
    insts := dp.insts ++ [{ instid := instid, name := instname, series := series, labels := [] }],
    iseries := dp.iseries ++ [series],
    insts_block := dp.insts_block.realloc }

/-- The function `series_del_insts`: the instance count drops to zero and the
block of `dp->insts` is freed when the pointer is not NULL; the pointer
itself is kept, so a second call frees the same block again. -/
def series_del_insts (dp : series_data) : series_data :=
  { dp with insts := [], iseries := [], insts_block := dp.insts_block.free }

/-- The function `series_get_inst`: the first instance whose series equals `series`. -/
def series_get_inst (dp : series_data) (series : sds) : Option series_inst :=
  dp.insts.find? (fun ip => series == ip.series)

/-- The call `sdsclear` through a pointer that may be NULL. -/
def sdsclearOpt (s : Option sds) : Option sds := s.map (fun _ => "")

/-- The function `series_next`: the boundary tracker.  Returns whether a transition
occurred, and the new state. -/
def series_next (w : World) (sid : sds) : Bool × World :=
  if strncmp w.dp.series sid (sdslen sid) ≠ 0 then
    let f1 := flagClear w.dp.flags PMSERIES_NEED_COMMA
    let eol := flagTest f1 PMSERIES_NEED_EOL
    let f2 := if eol then flagClear f1 PMSERIES_NEED_EOL else f1
    let w1 := if eol then w.print "\n" else w
    let dp1 : series_data :=
      { w.dp with flags := f2, series := sid,
                  source := sdsclearOpt w.dp.source, type := sdsclearOpt w.dp.type }
    (true, { w1 with dp := series_del_insts dp1 })
  else
    (false, w)

/-- The handler `on_series_match`. -/
def on_series_match (sid : pmSID) (w : World) : World :=
  let r := series_next w sid
  if r.1 then r.2.print (sid ++ "\n") else r.2

/-- Deliver a sequence of match events, in order. -/
def deliver_matches (ids : List pmSID) (w : World) : World :=
  ids.foldl (fun acc sid => on_series_match sid acc) w

/-- The fields of `pmSeriesInst` read by `on_series_inst`. -/
structure pmSeriesInst where
  instid : sds
  name : sds
  series : sds
deriving DecidableEq, Repr

/-- The handler `on_series_inst`. -/
def on_series_inst (sid : pmSID) (inst : pmSeriesInst) (w : World) : World :=
  let r := series_next w sid
  let w1 := if r.1 && flagTest r.2.dp.flags PMSERIES_OPT_INSTS
    then r.2.print ("\n" ++ sid ++ "\n") else r.2
  if (series_get_inst w1.dp inst.series).isNone then
    { w1 with dp := series_add_inst w1.dp inst.series inst.instid inst.name }
  else w1

/-- Deliver a sequence of instance-identity events for one series. -/
def deliver_insts (sid : pmSID) (evs : List pmSeriesInst) (w : World) : World :=
  evs.foldl (fun acc inst => on_series_inst sid inst acc) w

/-- The comparator `series_instance_compare`: the 64-bit difference of the parsed ids cast to
`int` when the id strings differ, else the comparison of the names. -/
def series_instance_compare (ap bp : series_inst) : Int :=
  if sdscmp ap.instid bp.instid ≠ 0 then
    wrapInt 32 (wrapInt 64 (atoll ap.instid - atoll bp.instid))
  else strcmp ap.name bp.name

/-- The loop of `series_instance_names`: one line per instance when `-i` is
active. -/
def instance_names_loop (flags : Nat) : List series_inst → String
  | [] => ""
  | ip :: rest =>
    (if flagTest flags PMSERIES_OPT_INSTS then
      "    inst [" ++ ip.instid ++ " or \"" ++ ip.name ++ "\"] series " ++ ip.series ++ "\n"
     else "") ++ instance_names_loop flags rest

/-- The function `series_instance_names`: sort the instances in place, print them, and
refresh the array of instance series identifiers. -/
def series_instance_names (w : World) : World :=
  let sorted := qsort series_instance_compare w.dp.insts
  { w with
    dp := { w.dp with insts := sorted, iseries := sorted.map (fun ip => ip.series) },
    stdout := w.stdout ++ instance_names_loop w.dp.flags sorted }

/-- The order the instance report is documented to have: parsed numeric id
ascending, equal numeric ids by display name. -/
def inst_le (a b : series_inst) : Prop :=
  atoll a.instid < atoll b.instid ∨
    (atoll a.instid = atoll b.instid ∧ strcmp a.name b.name ≤ 0)

instance : DecidableRel inst_le := fun a b => by
  unfold inst_le
  exact inferInstance

/-- The instance set before the lookup of `on_series_inst`: emptied by a
transition, untouched otherwise. -/
def insts_after_next (sid : pmSID) (w : World) : List series_inst :=
  if strncmp w.dp.series sid (sdslen sid) ≠ 0 then [] else w.dp.insts

/-- The comparator `series_labels_compare`. -/
def series_labels_compare (ap bp : series_label) : Int := sdscmp ap.name bp.name

/-- The loop of `series_labels_sort`: each label appended as `"name":value`. -/
def labels_loop : sds → List series_label → sds
  | s, [] => s
  | s, lp :: rest => labels_loop (s ++ "\"" ++ lp.name ++ "\":" ++ lp.value) rest

/-- The function `series_labels_sort`: sorts the label array in place and returns the text
(the buffer `s` is overwritten from its start); the second component is the
array after sorting. -/
def series_labels_sort (_s : sds) (labels : List series_label) : sds × List series_label :=
  let sorted := qsort series_labels_compare labels
  (labels_loop "\x7b" sorted ++ "\x7d", sorted)

/-- The handler `on_series_label`; `none` is the NULL series of an enumeration event. -/
def on_series_label (series : Option pmSID) (label : sds) (w : World) : World :=
  match series with
  | none => w.print (label ++ "\n")
  | some series =>
    if !flagTest w.dp.flags PMSERIES_ONLY_NAMES then w
    else
      let r := series_next w series
      let w1 := if r.1 then r.2.print ("\n" ++ series) else r.2
      let w2 := if flagTest w1.dp.flags PMSERIES_NEED_COMMA
        then w1.print (", " ++ label) else w1.print ("    Labels: " ++ label)
      { w2 with dp := { w2.dp with
          flags := flagSet w2.dp.flags (PMSERIES_NEED_COMMA ||| PMSERIES_NEED_EOL) } }

/-- Deliver a sequence of label-definition events for one series. -/
def deliver_labels (series : pmSID) (labels : List sds) (w : World) : World :=
  labels.foldl (fun acc label => on_series_label (some series) label acc) w

/-- The handler `on_series_done`. -/
def on_series_done (api : Pmapi) (sts : Int) (w : World) : World :=
  let w1 := if flagTest w.dp.flags PMSERIES_NEED_EOL
    then { w with dp := { w.dp with flags := flagClear w.dp.flags PMSERIES_NEED_EOL },
                  stdout := w.stdout ++ "\n" }
    else w
  if sts < 0 then
    { w1 with stderr := w1.stderr ++ (api.pmGetProgname ++ ": " ++ api.pmErrStr sts ++ "\n"),
              exitsts := 1 }
  else w1

/-- Deliver a sequence of completion events. -/
def deliver_done (api : Pmapi) (stss : List Int) (w : World) : World :=
  stss.foldl (fun acc sts => on_series_done api sts acc) w

/-- Each name preceded by a comma and a blank. -/
def comma_tail : List sds → String
  | [] => ""
  | a :: rest => ", " ++ a ++ comma_tail rest

/-- Names joined by a comma and a blank. -/
def comma_join : List sds → String
  | [] => ""
  | [a] => a
  | a :: b :: rest => a ++ ", " ++ comma_join (b :: rest)

/-- The function `series_type_phrase`. -/
def series_type_phrase (type_word : String) : String :=
  if strcasecmp type_word "32" = 0 then "32-bit int"
  else if strcasecmp type_word "64" = 0 then "64-bit int"
  else if strcasecmp type_word "U32" = 0 then "32-bit unsigned int"
  else if strcasecmp type_word "U64" = 0 then "64-bit unsigned int"
  else if strcasecmp type_word "FLOAT" = 0 then "float"
  else if strcasecmp type_word "DOUBLE" = 0 then "double"
  else if strcasecmp type_word "STRING" = 0 then "string"
  else if strcasecmp type_word "AGGREGATE" = 0 then "aggregate"
  else if strcasecmp type_word "AGGREGATE_STATIC" = 0 then "aggregate static"
  else if strcasecmp type_word "EVENT" = 0 then "event record array"
  else if strcasecmp type_word "HIGHRES_EVENT" = 0 then "highres event record array"
  else if strcasecmp type_word "NO_SUPPORT" = 0 then "Not Supported"
  else "???"

/-- The fields of `pmSeriesDesc`. -/
structure pmSeriesDesc where
  indom : sds
  pmid : sds
  semantics : sds
  source : sds
  type : sds
  units : sds
deriving DecidableEq, Repr

/-- Print to standard output when a condition holds. -/
def World.printIf (w : World) (c : Bool) (s : String) : World :=
  if c then w.print s else w

/-- The handler `on_series_desc`. -/
def on_series_desc (api : Pmapi) (series : pmSID) (desc : pmSeriesDesc) (w : World) : World :=
  let unknown := "???"
  let r := series_next w series
  let w1 : World :=
    if r.1 then
      ({ r.2 with dp := { r.2.dp with type := some desc.type } } : World).print ("\n" ++ series)
    else r.2.print "   "
  let w2 : World := { w1 with dp := { w1.dp with source := some desc.source } }
  let pmid_value := match sscanf_u3 desc.pmid with
    | some (domain, cluster, item) => api.pmID_build domain cluster item
    | none => api.PM_ID_NULL
  let pmid := if (sscanf_u3 desc.pmid).isNone && strcmp desc.pmid "none" = 0
    then "PM_ID_NULL" else desc.pmid
  let indom_value := match sscanf_u2 desc.indom with
    | some (domain, serial) => api.pmInDom_build domain serial
    | none => api.PM_IN_NULL
  let indom := if (sscanf_u2 desc.indom).isNone && strcmp desc.indom "none" = 0
    then "PM_INDOM_NULL" else desc.indom
  let f := w2.dp.flags
  let w3 := w2.printIf (flagTest f (PMSERIES_FULLPMID ||| PMSERIES_OPT_DESC)) (" PMID: " ++ pmid)
  let w4 := w3.printIf (flagTest f PMSERIES_FULLPMID)
    (" = " ++ fmt_u pmid_value ++ " = 0x" ++ fmt_x pmid_value)
  let w5 := w4.printIf (flagTest f (PMSERIES_FULLPMID ||| PMSERIES_OPT_DESC)) "\n"
  let w6 := w5.printIf (flagTest f PMSERIES_OPT_DESC)
    ("    Data Type: " ++ series_type_phrase desc.type
      ++ (if strcmp desc.type unknown = 0 then " (" ++ desc.type ++ ")" else ""))
  let w7 := w6.printIf (flagTest f (PMSERIES_FULLINDOM ||| PMSERIES_OPT_DESC))
    ("  InDom: " ++ indom)
  let w8 := w7.printIf (flagTest f PMSERIES_FULLINDOM) (" = " ++ fmt_u indom_value ++ " =")
  let w9 := w8.printIf (flagTest f (PMSERIES_FULLINDOM ||| PMSERIES_OPT_DESC))
    (" 0x" ++ fmt_x indom_value ++ "\n")
  let w10 := w9.printIf (flagTest f PMSERIES_OPT_DESC)
    ("    Semantics: " ++ desc.semantics
      ++ (if strcmp desc.semantics unknown = 0 then " (" ++ desc.semantics ++ ")" else "")
      ++ "  Units: " ++ (if desc.units = "" then "none" else desc.units) ++ "\n")
  let w11 := w10.printIf (flagTest f PMSERIES_SOURCEID) ("    Source: " ++ desc.source ++ "\n")
  { w11 with dp := { w11.dp with flags := flagClear w11.dp.flags PMSERIES_NEED_EOL } }

/-- A character sequence occurs somewhere inside another. -/
def occursList (piece : List Char) : List Char → Bool
  | [] => piece.isPrefixOf []
  | c :: cs => piece.isPrefixOf (c :: cs) || occursList piece cs

/-- Text occurs inside an output text. -/
def occurs_in (piece out : String) : Bool := occursList piece.data out.data

/-- The ids that print a header according to the contract of the match
handler: every id that differs from the id of the immediately preceding
event (`prev`, absent for the first event). -/
def run_heads : Option pmSID → List pmSID → List pmSID
  | _, [] => []
  | prev, sid :: rest =>
    if prev = some sid then run_heads (some sid) rest else sid :: run_heads (some sid) rest

/-- The text of a sequence of header lines: each id followed by a newline. -/
def header_text : List pmSID → String
  | [] => ""
  | sid :: rest => sid ++ "\n" ++ header_text rest

/-- The events of each series arrive contiguously: an id that occurs again
later is also the id of the very next event. -/
def contiguous : List pmSID → Bool
  | [] => true
  | sid :: rest => (!rest.contains sid || rest.head? == some sid) && contiguous rest

/-- The complete lines of an output text, without their newline (a trailing
unterminated piece counts as a line when it is not empty). -/
def linesAux : List Char → List Char → List String
  | [], cur => if cur = [] then [] else [String.mk cur.reverse]
  | c :: cs, cur =>
    if c = '\n' then String.mk cur.reverse :: linesAux cs [] else linesAux cs (c :: cur)

/-- Lines of an output text. -/
def output_lines (out : String) : List String := linesAux out.data []

/-! ## Sampled values -/

/-- The fields of `pmSeriesValue`. -/
structure pmSeriesValue where
  timestamp : sds
  series : sds
  data : sds
deriving DecidableEq, Repr

/-- Two lower-case hexadecimal digits of a byte. -/
def hex2 (n : Nat) : List Char := [Nat.digitChar (n / 16 % 16), Nat.digitChar (n % 16)]

/-- The bytes of a character in the text of the program (UTF-8). -/
def utf8_bytes (c : Char) : List Nat :=
  if c.toNat < 128 then [c.toNat]
  else if c.toNat < 2048 then [192 + c.toNat / 64, 128 + c.toNat % 64]
  else if c.toNat < 65536 then
    [224 + c.toNat / 4096, 128 + c.toNat / 64 % 64, 128 + c.toNat % 64]
  else
    [240 + c.toNat / 262144, 128 + c.toNat / 4096 % 64, 128 + c.toNat / 64 % 64,
      128 + c.toNat % 64]

/-- What `sdscatrepr` of the sds library (not part of this program's own
source) writes for one byte: backslash and double quote are escaped with a
backslash, newline, carriage return, tab, bell and backspace become their C
escapes, other printable bytes (`isprint` in the C locale) stand for
themselves and every other byte is written as a hexadecimal escape. -/
def repr_byte (b : Nat) : List Char :=
  if b = 92 || b = 34 then [Char.ofNat 92, Char.ofNat b]
  else if b = 10 then [Char.ofNat 92, 'n']
  else if b = 13 then [Char.ofNat 92, 'r']
  else if b = 9 then [Char.ofNat 92, 't']
  else if b = 7 then [Char.ofNat 92, 'a']
  else if b = 8 then [Char.ofNat 92, 'b']
  else if 32 ≤ b && b ≤ 126 then [Char.ofNat b]
  else Char.ofNat 92 :: 'x' :: hex2 b

/-- The text made by `sdscatrepr(sdsempty(), data, sdslen(data))`: the data in
double quotes with its bytes escaped one by one. -/
def sds_repr (data : sds) : sds :=
  String.mk (Char.ofNat 34 ::
    (data.data.flatMap (fun c => (utf8_bytes c).flatMap repr_byte) ++ [Char.ofNat 34]))

/-- The value text chosen in `on_series_value` from the sticky value type:
`repr` (the quoted and escaped form of `sdscatrepr`) when the type begins
with "AGGREGATE", the data in double quotes when it begins with "STRING",
else the data as it is. -/
def value_data (repr : sds → sds) (type data : sds) : sds :=
  if strncmp type "AGGREGATE" 9 = 0 then repr data
  else if strncmp type "STRING" 6 = 0 then "\"" ++ data ++ "\""
  else data

/-- The text of the value type after `if (dp->type == NULL) dp->type =
sdsempty()`. -/
def type_text (type : Option sds) : sds :=
  match type with
  | none => ""
  | some t => t

/-- The handler `on_series_value`; `repr` stands for `sdscatrepr`. -/
def on_series_value (repr : sds → sds) (sid : pmSID) (value : pmSeriesValue) (w : World) :
    World :=
  let r := series_next w sid
  let w1 := if r.1 then r.2.print ("\n" ++ sid ++ "\n") else r.2
  let type := type_text w1.dp.type
  let w2 : World := { w1 with dp := { w1.dp with type := some type } }
  let data := value_data repr type value.data
  if sdscmp value.series sid = 0 then
    w2.print ("    [" ++ value.timestamp ++ "] " ++ data ++ "\n")
  else
    match series_get_inst w2.dp value.series with
    | none => w2.print ("    [" ++ value.timestamp ++ "] " ++ data ++ " " ++ value.series ++ "\n")
    | some ip =>
      w2.print ("    [" ++ value.timestamp ++ "] " ++ data ++ " \"" ++ ip.name ++ "\"\n")

/-- The rendering of a sampled value as the report documents it: in double
quotes for the string type, quoted and escaped for the aggregate types,
unchanged for every other value type and when no type is set. -/
def value_rendering (repr : sds → sds) (type : Option sds) (data : sds) : sds :=
  if type = some "STRING" then "\"" ++ data ++ "\""
  else if type = some "AGGREGATE" ∨ type = some "AGGREGATE_STATIC" then repr data
  else data

/-- A value type whose text agrees with the type words on the two tested
beginnings: only "STRING" begins with "STRING", only "AGGREGATE" and
"AGGREGATE_STATIC" begin with "AGGREGATE".  Every type word of
`series_type_phrase`, the empty text and an unset type are of this kind. -/
def type_word_like (type : Option sds) : Prop :=
  ∀ t, type = some t →
    ("STRING".data <+: t.data → t = "STRING") ∧
    ("AGGREGATE".data <+: t.data → t = "AGGREGATE" ∨ t = "AGGREGATE_STATIC")

/-! ## Context names -/

/-- The handler `on_series_context`; `none` is the NULL source of an
enumeration event.  The source is copied into the report state first and
compared with the event's source afterwards. -/
def on_series_context (source : Option pmSID) (name : sds) (w : World) : World :=
  match source with
  | none => w.print (name ++ "\n")
  | some source =>
    let cached : Option pmSID := some source
    let w1 : World := { w with dp := { w.dp with source := cached } }
    let header : Bool := match cached with
      | none => true
      | some c => sdscmp c source != 0
    let w2 := if header then w1.print ("\n" ++ source) else w1
    let w3 := if flagTest w2.dp.flags PMSERIES_NEED_COMMA
      then w2.print (", " ++ name) else w2.print ("    Context: " ++ name)
    { w3 with dp := { w3.dp with
        flags := flagSet w3.dp.flags (PMSERIES_NEED_COMMA ||| PMSERIES_NEED_EOL) } }

/-! ## Label maps -/

/-- The fields of `pmSeriesLabel`. -/
structure pmSeriesLabel where
  name : sds
  value : sds
deriving DecidableEq, Repr

/-- The function `series_add_labels` on a label array `(nlabels, labels)`.  The
block is reallocated to `nlabels + 1` entries and the new label written into
its last entry; the pointer that is stored back has already been advanced by
`nlabels`, so through it entry 0 is the new label and the other `nlabels`
entries of the new count lie beyond the block.  `none`: the kept pointer was
not the start of a block (some entry was beyond it), where `realloc` is
undefined. -/
def series_add_labels (name value : sds) (labels : List (Option series_label)) :
    Option (List (Option series_label)) :=
  if labels.all Option.isSome then
    some (some { name := name, value := value } :: List.replicate labels.length none)
  else none

/-- Apply `f` to the instance `series_get_inst` returns: the first one whose
series equals `series`. -/
def update_inst (series : sds) (f : series_inst → series_inst) :
    List series_inst → List series_inst
  | [] => []
  | ip :: rest =>
    if series == ip.series then f ip :: rest else ip :: update_inst series f rest

/-- The handler `on_series_labelmap`; `none` when `series_add_labels` is
undefined. -/
def on_series_labelmap (series : pmSID) (label : pmSeriesLabel) (w : World) : Option World :=
  if flagTest w.dp.flags PMSERIES_INSTLABELS then
    match series_get_inst w.dp series with
    | none => some w
    | some ip =>
      match series_add_labels label.name label.value ip.labels with
      | none => none
      | some la =>
        some { w with dp := { w.dp with
          insts := update_inst series (fun i => { i with labels := la }) w.dp.insts } }
  else
    let r := series_next w series
    let w1 := if r.1 && !flagTest r.2.dp.flags PMSERIES_SERIESID
      then r.2.print ("\n" ++ series ++ "\n") else r.2
    match series_add_labels label.name label.value w1.dp.labels with
    | none => none
    | some la => some { w1 with dp := { w1.dp with labels := la } }

/-- The entries of a label array when all of them lie inside the block;
`none` when reading the array would leave the block. -/
def valid_labels : List (Option series_label) → Option (List series_label)
  | [] => some []
  | none :: _ => none
  | some l :: rest =>
    match valid_labels rest with
    | none => none
    | some ls => some (l :: ls)

/-- The function `series_metric_labels`; `none` when the label array cannot be
read.  The array is left sorted. -/
def series_metric_labels (w : World) : Option World :=
  if !flagTest w.dp.flags PMSERIES_ONLY_NAMES then
    match valid_labels w.dp.labels with
    | none => none
    | some ls =>
      let r := series_labels_sort "" ls
      let w1 : World := { w with dp := { w.dp with labels := r.2.map some } }
      some (if sdslen r.1 > 2 then w1.print ("    labels " ++ r.1 ++ "\n") else w1)
  else some w

/-! ## Command line -/

/-- The body of the option loop of `main` for one option character: the
flags and the error count (`hostname`, `port` and the separator of the
positional arguments are not kept). -/
def main_option (c : Char) (st : Nat × Nat) : Nat × Nat :=
  if c = 'a' then
    (flagSet st.1 (PMSERIES_OPT_ALL ||| PMSERIES_SOURCEID ||| PMSERIES_SERIESID), st.2)
  else if c = 'c' then (flagSet st.1 PMSERIES_OPT_SOURCE, st.2)
  else if c = 'd' then (flagSet st.1 PMSERIES_OPT_DESC, st.2)
  else if c = 'F' then (flagSet st.1 PMSERIES_FAST, st.2)
  else if c = 'h' then st
  else if c = 'i' then (flagSet st.1 PMSERIES_OPT_INSTS, st.2)
  else if c = 'I' then (flagSet st.1 PMSERIES_FULLINDOM, st.2)
  else if c = 'l' then (flagSet st.1 PMSERIES_OPT_LABELS, st.2)
  else if c = 'L' then (flagSet st.1 PMSERIES_OPT_LOAD, st.2)
  else if c = 'm' then (flagSet st.1 PMSERIES_OPT_METRIC, st.2)
  else if c = 'M' then (flagSet st.1 PMSERIES_FULLPMID, st.2)
  else if c = 'n' then (flagSet st.1 PMSERIES_ONLY_NAMES, st.2)
  else if c = 'p' then st
  else if c = 'q' then (flagSet st.1 PMSERIES_OPT_QUERY, st.2)
  else if c = 'S' then (flagSet st.1 PMSERIES_SOURCEID, st.2)
  else if c = 's' then (flagSet st.1 PMSERIES_SERIESID, st.2)
  else (st.1, st.2 + 1)

/-- The option loop of `main` over the option characters `pmGetOptions`
returns, from flags 0 and the errors `pmGetOptions` counted itself. -/
def main_options (optchars : List Char) (errors : Nat) : Nat × Nat :=
  optchars.foldl (fun st c => main_option c st) (0, errors)

/-- The flag normalisation and validation of `main` after the option loop;
`noargs` is `opts.optind == argc`.  Returns the flags and the error count. -/
def main_validate (st : Nat × Nat) (noargs : Bool) : Nat × Nat :=
  let f1 := if flagTest st.1 PMSERIES_OPT_ALL then flagSet st.1 PMSERIES_META_OPTS else st.1
  let e1 := if flagTest f1 PMSERIES_OPT_LOAD
      && flagTest f1 (PMSERIES_META_OPTS ||| PMSERIES_OPT_SOURCE) then st.2 + 1 else st.2
  let e2 := if flagTest f1 PMSERIES_OPT_LOAD && flagTest f1 PMSERIES_OPT_QUERY
    then e1 + 1 else e1
  let e3 := if flagTest f1 PMSERIES_OPT_QUERY
      && flagTest f1 (PMSERIES_META_OPTS ||| PMSERIES_OPT_SOURCE) then e2 + 1 else e2
  let f2 := if flagTest f1 (PMSERIES_FULLPMID ||| PMSERIES_FULLINDOM)
    then flagSet f1 PMSERIES_NEED_DESCS else f1
  let f3 := if flagTest f2 (PMSERIES_SOURCEID ||| PMSERIES_SERIESID)
    then flagSet f2 PMSERIES_NEED_DESCS else f2
  let f4 := if flagTest f3 PMSERIES_OPT_LABELS then flagSet f3 PMSERIES_NEED_INSTS else f3
  let f5 :=
    if !flagTest f4 (PMSERIES_META_OPTS ||| PMSERIES_OPT_LOAD ||| PMSERIES_OPT_SOURCE) then
      if !flagTest f4 (PMSERIES_NEED_DESCS ||| PMSERIES_NEED_INSTS)
      then flagSet f4 PMSERIES_OPT_QUERY else f4
    else f4
  let e4 := if noargs && flagTest f5 PMSERIES_OPT_QUERY then e3 + 1 else e3
  (f5, e4)

/-- The four requests `pmseries_request` can dispatch. -/
inductive request where
  | load
  | query
  | source
  | report
deriving DecidableEq, Repr

/-- The function `pmseries_request`: which of `series_load`, `series_query`,
`series_source` and `series_report` is called. -/
def pmseries_request (flags : Nat) : request :=
  if flagTest flags PMSERIES_OPT_LOAD then request.load
  else if flagTest flags PMSERIES_OPT_QUERY then request.query
  else if flagTest flags PMSERIES_OPT_SOURCE && !flagTest flags PMSERIES_META_OPTS
    then request.source
  else request.report

/-- The path of `main` from the option characters to the request: `none` when
it leaves through the usage message (an error was counted or
`PM_OPTFLAG_EXIT` is set), else the request dispatched with the final flags
(`tty`: the result of `pmLogLevelIsTTY`). -/
def main_dispatch (optchars : List Char) (errors : Nat) (noargs exitflag tty : Bool) :
    Option request :=
  let st := main_validate (main_options optchars errors) noargs
  if st.2 ≠ 0 || exitflag then none
  else some (pmseries_request (if tty then flagSet st.1 PMSERIES_COLOUR else st.1))

/-- The first normalisation of `main`: `-a` enables the whole metadata group. -/
def main_flags_all (f : Nat) : Nat :=
  if flagTest f PMSERIES_OPT_ALL then flagSet f PMSERIES_META_OPTS else f

/-- The lookups `main` derives from the reporting options: descriptors for
`-M`, `-I`, `-S`, `-s`, instances for `-l`. -/
def main_flags_need (f1 : Nat) : Nat :=
  let f2 := if flagTest f1 (PMSERIES_FULLPMID ||| PMSERIES_FULLINDOM)
    then flagSet f1 PMSERIES_NEED_DESCS else f1
  let f3 := if flagTest f2 (PMSERIES_SOURCEID ||| PMSERIES_SERIESID)
    then flagSet f2 PMSERIES_NEED_DESCS else f2
  if flagTest f3 PMSERIES_OPT_LABELS then flagSet f3 PMSERIES_NEED_INSTS else f3

/-- The default of `main`: query mode when no mode option and no lookup is
set. -/
def main_flags_default (f4 : Nat) : Nat :=
  if !flagTest f4 (PMSERIES_META_OPTS ||| PMSERIES_OPT_LOAD ||| PMSERIES_OPT_SOURCE) then
    if !flagTest f4 (PMSERIES_NEED_DESCS ||| PMSERIES_NEED_INSTS)
    then flagSet f4 PMSERIES_OPT_QUERY else f4
  else f4

/-- The flags `pmseries_request` sees: those of the validation, with the
colour bit when standard output is a terminal. -/
def main_final_flags (optchars : List Char) (errors : Nat) (noargs tty : Bool) : Nat :=
  if tty then flagSet (main_validate (main_options optchars errors) noargs).1 PMSERIES_COLOUR
  else (main_validate (main_options optchars errors) noargs).1

/-- All bits set in `f` have their position in `A`. -/
def only_bits (A : List Nat) (f : Nat) : Prop := ∀ i, f.testBit i = true → i ∈ A

/-! ## Metric and instance names -/

/-- The handler `on_series_metric`; `none` is the NULL series of an enumeration
event. -/
def on_series_metric (series : Option pmSID) (name : sds) (w : World) : World :=
  match series with
  | none => w.print (name ++ "\n")
  | some series =>
    let r := series_next w series
    let w1 := if r.1 then r.2.print ("\n" ++ series) else r.2
    let w2 := if flagTest w1.dp.flags PMSERIES_NEED_COMMA
      then w1.print (", " ++ name) else w1.print ("    Metric: " ++ name)
    { w2 with dp := { w2.dp with
        flags := flagSet w2.dp.flags (PMSERIES_NEED_COMMA ||| PMSERIES_NEED_EOL) } }

/-- The handler `on_series_instance`; `none` is the NULL series of an
enumeration event.  The test of the `-i` flag comes first. -/
def on_series_instance (series : Option pmSID) (name : sds) (w : World) : World :=
  if !flagTest w.dp.flags PMSERIES_OPT_INSTS then w
  else
    match series with
    | none => w.print (name ++ "\n")
    | some series =>
      let r := series_next w series
      let w1 := if r.1 then r.2.print ("\n" ++ series) else r.2
      let w2 := if flagTest w1.dp.flags PMSERIES_NEED_COMMA
        then w1.print (", " ++ name) else w1.print ("    Instances: " ++ name)
      { w2 with dp := { w2.dp with
          flags := flagSet w2.dp.flags (PMSERIES_NEED_EOL ||| PMSERIES_NEED_COMMA) } }

/-- Deliver a sequence of label-value events for one series; `none` as soon
as one of them is undefined. -/
def deliver_labelmaps (series : pmSID) (labels : List pmSeriesLabel) (w : World) :
    Option World :=
  labels.foldl (fun acc label => acc.bind (on_series_labelmap series label)) (some w)

/-- The twelve type words the report documents, each with its phrase. -/
def type_phrase_table : List (String × String) :=
  [("32", "32-bit int"), ("64", "64-bit int"), ("U32", "32-bit unsigned int"),
   ("U64", "64-bit unsigned int"), ("FLOAT", "float"), ("DOUBLE", "double"),
   ("STRING", "string"), ("AGGREGATE", "aggregate"),
   ("AGGREGATE_STATIC", "aggregate static"), ("EVENT", "event record array"),
   ("HIGHRES_EVENT", "highres event record array"), ("NO_SUPPORT", "Not Supported")]

/-! ## Metric sources of the client library (`qmc_source.cpp`) -/

/-- The constants and calls of libpcp that `QmcSource` uses: the context
types of `pmapi.h`, the result of `gethostname`, the status `pmNewContext`
returns for a source, and for an archive the host name of its label (or the
negative status of `pmGetArchiveLabel`) and the status of
`pmGetArchiveEnd`. -/
structure Pmcontext where
  PM_CONTEXT_HOST : Int
  PM_CONTEXT_ARCHIVE : Int
  PM_CONTEXT_LOCAL : Int
  localHost : String
  pmNewContext : Int → String → Int
  pmGetArchiveLabel : String → Except Int String
  pmGetArchiveEnd : String → Int

/-- The values of `pmapi.h`, with a context layer that opens every source as
context 0 and labels every archive with the host "unknown-host". -/
def libpcp_context : Pmcontext :=
  { PM_CONTEXT_HOST := 1, PM_CONTEXT_ARCHIVE := 2, PM_CONTEXT_LOCAL := 3,
    localHost := "localhost",
    pmNewContext := fun _ _ => 0,
    pmGetArchiveLabel := fun _ => Except.ok "unknown-host",
    pmGetArchiveEnd := fun _ => 0 }

/-- The members of `QmcSource` that `getSource` reads. -/
structure QmcSource where
  status : Int
  type : Int
  source : String
  host : String
deriving DecidableEq, Repr

/-- The members `QmcSource::retryConnect` leaves in the object (its timezone,
time bounds, description and context handles are not kept).  The object is
also appended to the source list, which `getSource` below does at the call. -/
def QmcSource.retryConnect (api : Pmcontext) (type : Int) (source : String)
    (self : QmcSource) : QmcSource :=
  let s1 : QmcSource :=
    if type = api.PM_CONTEXT_LOCAL then
      { self with host := api.localHost, source := api.localHost }
    else if type = api.PM_CONTEXT_HOST then { self with host := source, source := source }
    else if type = api.PM_CONTEXT_ARCHIVE then { self with source := source }
    else self
  let s2 : QmcSource := { s1 with status := api.pmNewContext type source }
  if s2.status ≥ 0 ∧ s2.type = api.PM_CONTEXT_ARCHIVE then
    match api.pmGetArchiveLabel source with
    | Except.error sts => { s2 with host := "unknown?", status := sts }
    | Except.ok hostname =>
      let s3 : QmcSource := { s2 with host := hostname }
      if api.pmGetArchiveEnd source < 0 then { s3 with status := api.pmGetArchiveEnd source }
      else s3
  else s2

/-- The search loop of `QmcSource::getSource` from index `i` over the rest of
the source list: the index at which the loop stops (the size of the list
when it runs to the end) and the pointer `src` at that moment, a source being
named by its index in the list (`none` is NULL).  `src` is assigned at the
top of every pass. -/
def getSource_loop (api : Pmcontext) (type : Int) (source : String) (matchHosts : Bool) :
    List QmcSource → Nat → Option Nat → Nat × Option Nat
  | [], i, src => (i, src)
  | s :: rest, i, _ =>
    if matchHosts && type == api.PM_CONTEXT_HOST then
      if s.type == api.PM_CONTEXT_ARCHIVE && s.host == source then (i, some i)
      else getSource_loop api type source matchHosts rest (i + 1) (some i)
    else if s.type == type && s.source == source then (i, some i)
    else getSource_loop api type source matchHosts rest (i + 1) (some i)

/-- The function `QmcSource::getSource` on a source list: the pointer
returned, as the index of the source in the list afterwards (`none` is
NULL), and the source list afterwards.  A matched source with a negative
status is reconnected, which also appends it to the list once more; a new
source is made by the constructor, which connects it and appends it. -/
def getSource (api : Pmcontext) (sourceList : List QmcSource) (type : Int) (source : String)
    (matchHosts : Bool) : Option Nat × List QmcSource :=
  let r := getSource_loop api type source matchHosts sourceList 0 none
  let hostMode : Bool := matchHosts && type == api.PM_CONTEXT_HOST
  let list1 : List QmcSource :=
    if r.1 < sourceList.length ∧ hostMode = false then
      match sourceList.get? r.1 with
      | some s =>
        if s.status < 0 then
          sourceList.set r.1 (s.retryConnect api type source)
            ++ [s.retryConnect api type source]
        else sourceList
      | none => sourceList
    else sourceList
  if r.1 = sourceList.length ∧ hostMode = false then
    (some list1.length,
      list1 ++ [QmcSource.retryConnect api type source
        { status := -1, type := type, source := "", host := "" }])
  else (r.2, list1)

/-- The result the host-matching mode of `getSource` is documented to have:
the first archive source whose host is the requested name, else NULL. -/
def first_archive_of_host (api : Pmcontext) (source : String) :
    List QmcSource → Nat → Option Nat
  | [], _ => none
  | s :: rest, i =>
    if s.type = api.PM_CONTEXT_ARCHIVE ∧ s.host = source then some i
    else first_archive_of_host api source rest (i + 1)

/-! ## Lemmas on text and flags -/

theorem strncmpList_eq_zero_iff (a b : List Char) (n : Nat) :
    strncmpList a b n = 0 ↔ a.take n = b.take n := by
  induction n generalizing a b with
  | zero => simp [strncmpList]
  | succ n ih =>
    cases a with
    | nil => cases b <;> simp [strncmpList]
    | cons x xs =>
      cases b with
      | nil => simp [strncmpList]
      | cons y ys =>
        by_cases hxy : x = y
        · simp [strncmpList, hxy, ih]
        · have : (if x < y then (-1 : Int) else 1) ≠ 0 := by split <;> decide
          simp [strncmpList, hxy, this]

theorem strncmp_eq_zero_iff_leading (cur sid : String) :
    strncmp cur sid (sdslen sid) = 0 ↔ sid.data <+: cur.data := by
  unfold strncmp sdslen
  rw [strncmpList_eq_zero_iff, String.length, List.take_length, List.prefix_iff_eq_take,
    eq_comm]

theorem strncmp_self (sid : String) : strncmp sid sid (sdslen sid) = 0 :=
  (strncmp_eq_zero_iff_leading sid sid).2 (List.prefix_refl _)

theorem strncmp_eq_zero_iff_eq (cur sid : String) (h : cur.length = sid.length) :
    strncmp cur sid (sdslen sid) = 0 ↔ cur = sid := by
  rw [strncmp_eq_zero_iff_leading]
  constructor
  · intro hp
    exact String.ext (hp.eq_of_length (show sid.data.length = cur.data.length from h.symm)).symm
  · rintro rfl
    exact List.prefix_refl _

theorem testBit_flagClear (f m i : Nat) :
    (flagClear f m).testBit i = (f.testBit i && !m.testBit i) := by
  simp only [flagClear, Nat.testBit_xor, Nat.testBit_and]
  cases f.testBit i <;> cases m.testBit i <;> rfl

theorem flagClear_and_self (f m : Nat) : flagClear f m &&& m = 0 := by
  apply Nat.eq_of_testBit_eq
  intro i
  simp only [Nat.testBit_and, testBit_flagClear, Nat.zero_testBit]
  cases f.testBit i <;> cases m.testBit i <;> rfl

theorem flagTest_flagClear_self (f m : Nat) : flagTest (flagClear f m) m = false := by
  simp [flagTest, flagClear_and_self]

theorem flagClear_flagClear_and (f a b : Nat) : flagClear (flagClear f a) b &&& a = 0 := by
  apply Nat.eq_of_testBit_eq
  intro i
  simp only [Nat.testBit_and, testBit_flagClear, Nat.zero_testBit]
  cases f.testBit i <;> cases a.testBit i <;> cases b.testBit i <;> rfl

theorem flagTest_flagClear_comm (f a b : Nat) :
    flagTest (flagClear f a) b = flagTest f (flagClear b a) := by
  have : flagClear f a &&& b = f &&& flagClear b a := by
    apply Nat.eq_of_testBit_eq
    intro i
    simp only [Nat.testBit_and, testBit_flagClear]
    cases f.testBit i <;> cases a.testBit i <;> cases b.testBit i <;> rfl
  simp [flagTest, this]

theorem testBit_NEED_EOL (i : Nat) : PMSERIES_NEED_EOL.testBit i = decide (6 = i) := by
  have : PMSERIES_NEED_EOL = 2 ^ 6 := by decide
  rw [this, Nat.testBit_two_pow]

theorem testBit_NEED_COMMA (i : Nat) : PMSERIES_NEED_COMMA.testBit i = decide (7 = i) := by
  have : PMSERIES_NEED_COMMA = 2 ^ 7 := by decide
  rw [this, Nat.testBit_two_pow]

/-- Clearing the continuation bit does not affect the line-open test. -/
theorem flagTest_clear_COMMA_EOL (f : Nat) :
    flagTest (flagClear f PMSERIES_NEED_COMMA) PMSERIES_NEED_EOL
      = flagTest f PMSERIES_NEED_EOL := by
  rw [flagTest_flagClear_comm]
  have : flagClear PMSERIES_NEED_EOL PMSERIES_NEED_COMMA = PMSERIES_NEED_EOL := by decide
  rw [this]

/-! ## The boundary tracker -/

theorem series_next_fst (w : World) (sid : sds) :
    (series_next w sid).1 = decide (strncmp w.dp.series sid (sdslen sid) ≠ 0) := by
  unfold series_next
  split <;> simp_all

theorem series_next_false (w : World) (sid : sds)
    (h : strncmp w.dp.series sid (sdslen sid) = 0) : series_next w sid = (false, w) := by
  simp [series_next, h]

theorem flagClear_of_flagTest_false (f m : Nat) (h : flagTest f m = false) :
    flagClear f m = f := by
  have : f &&& m = 0 := by simpa [flagTest] using h
  simp [flagClear, this]

/-- Normal form of a transition: both punctuation bits cleared, a newline
written when a line was open, series replaced, source and type cleared,
instances discarded. -/
theorem series_next_true (w : World) (sid : sds)
    (h : strncmp w.dp.series sid (sdslen sid) ≠ 0) :
    series_next w sid =
      (true,
        { dp := { w.dp with
                  flags := flagClear (flagClear w.dp.flags PMSERIES_NEED_COMMA) PMSERIES_NEED_EOL,
                  series := sid,
                  source := w.dp.source.map (fun _ => ""),
                  type := w.dp.type.map (fun _ => ""),
                  insts := [], iseries := [], insts_block := w.dp.insts_block.free },
          stdout := w.stdout ++ (if flagTest w.dp.flags PMSERIES_NEED_EOL then "\n" else ""),
          stderr := w.stderr,
          exitsts := w.exitsts }) := by
  unfold series_next
  rw [if_pos h]
  simp only [flagTest_clear_COMMA_EOL, series_del_insts, sdsclearOpt, World.print]
  cases he : flagTest w.dp.flags PMSERIES_NEED_EOL
  · have h2 : flagTest (flagClear w.dp.flags PMSERIES_NEED_COMMA) PMSERIES_NEED_EOL = false := by
      rw [flagTest_clear_COMMA_EOL]; exact he
    simp [flagClear_of_flagTest_false _ _ h2]
  · simp

/-- The comparison runs over the length of the incoming id: no transition is
reported exactly when the incoming id is a leading part of the current
series id. -/
theorem series_next_false_iff_leading (w : World) (sid : sds) :
    (series_next w sid).1 = false ↔ sid.data <+: w.dp.series.data := by
  rw [series_next_fst]
  simp [strncmp_eq_zero_iff_leading]

/-- Ids of unequal length, which the store does not deliver: with current
series "S12" and incoming id "S1" no transition is reported. -/
theorem series_next_unequal_length :
    (series_next (on_series_match "S12" (World.start (series_data_init 0))) "S1").1 = false := by
  decide

/-- The effects of a transition on the Report State and the output:
continuation-pending and line-open are clear, exactly one newline was
written if line-open was set before and nothing otherwise, the current
series is the incoming id, source and value type are empty (a NULL pointer
stays NULL), the instance count is zero, every flag bit other than those two
is unchanged, and the block of `dp->insts` has been passed to `free` unless
the pointer was NULL. -/
theorem series_next_transition (w : World) (sid : sds)
    (h : (series_next w sid).1 = true) :
    flagTest (series_next w sid).2.dp.flags PMSERIES_NEED_COMMA = false ∧
    flagTest (series_next w sid).2.dp.flags PMSERIES_NEED_EOL = false ∧
    (series_next w sid).2.stdout
      = w.stdout ++ (if flagTest w.dp.flags PMSERIES_NEED_EOL then "\n" else "") ∧
    (series_next w sid).2.stderr = w.stderr ∧
    (series_next w sid).2.dp.series = sid ∧
    (series_next w sid).2.dp.source = w.dp.source.map (fun _ => "") ∧
    (series_next w sid).2.dp.type = w.dp.type.map (fun _ => "") ∧
    (series_next w sid).2.dp.insts = [] ∧
    (series_next w sid).2.dp.iseries = [] ∧
    (series_next w sid).2.dp.insts_block = w.dp.insts_block.free ∧
    (∀ i, i ≠ 6 → i ≠ 7 →
      (series_next w sid).2.dp.flags.testBit i = w.dp.flags.testBit i) := by
  rw [series_next_fst] at h
  have hne : strncmp w.dp.series sid (sdslen sid) ≠ 0 := by simpa using h
  rw [series_next_true w sid hne]
  refine ⟨?_, flagTest_flagClear_self _ _, rfl, rfl, rfl, rfl, rfl, rfl, rfl, rfl, ?_⟩
  · simp [flagTest, flagClear_flagClear_and]
  · intro i h6 h7
    simp [testBit_flagClear, testBit_NEED_EOL, testBit_NEED_COMMA, Ne.symm h6, Ne.symm h7]

/-- C2 (the code at the failing input): a Report State takes the instance
"I1" of series "S1", so that `dp->insts` is a block; the transition to "S2"
frees the block and keeps the pointer, with the effects the transition is
documented to have; the next transition, to "S3", passes the freed block to
`free` a second time, which is undefined (the C library aborts the process),
so there is no state afterwards. -/
theorem series_next_double_free :
    (deliver_insts "S1" [⟨"0", "cpu0", "I1"⟩]
      (World.start (series_data_init 0))).dp.insts_block = block.live ∧
    (series_next (deliver_insts "S1" [⟨"0", "cpu0", "I1"⟩]
      (World.start (series_data_init 0))) "S2").1 = true ∧
    (series_next (deliver_insts "S1" [⟨"0", "cpu0", "I1"⟩]
      (World.start (series_data_init 0))) "S2").2.dp.insts = [] ∧
    (series_next (deliver_insts "S1" [⟨"0", "cpu0", "I1"⟩]
      (World.start (series_data_init 0))) "S2").2.dp.insts_block = block.freed ∧
    (series_next (series_next (deliver_insts "S1" [⟨"0", "cpu0", "I1"⟩]
      (World.start (series_data_init 0))) "S2").2 "S3").1 = true ∧
    (series_next (series_next (deliver_insts "S1" [⟨"0", "cpu0", "I1"⟩]
      (World.start (series_data_init 0))) "S2").2 "S3").2.dp.insts_block = block.undefined := by
  decide

/-- A state with an open line and a pending comma, current series "S1",
receives "S2". -/
theorem series_next_transition_witness :
    flagTest (series_next
      { dp := { series_data_init 0xC0 with series := "S1" },
        stdout := "    Labels: x", stderr := "", exitsts := 0 } "S2").2.dp.flags
        PMSERIES_NEED_COMMA = false ∧
    (series_next
      { dp := { series_data_init 0xC0 with series := "S1" },
        stdout := "    Labels: x", stderr := "", exitsts := 0 } "S2").2.stdout
      = "    Labels: x\n" :=
  ⟨(series_next_transition
      { dp := { series_data_init 0xC0 with series := "S1" },
        stdout := "    Labels: x", stderr := "", exitsts := 0 } "S2" (by decide)).1,
   (series_next_transition
      { dp := { series_data_init 0xC0 with series := "S1" },
        stdout := "    Labels: x", stderr := "", exitsts := 0 } "S2" (by decide)).2.2.1⟩

/-! ## Match events -/

theorem on_series_match_false (w : World) (sid : sds)
    (h : strncmp w.dp.series sid (sdslen sid) = 0) : on_series_match sid w = w := by
  simp [on_series_match, series_next_false w sid h]

theorem on_series_match_true (w : World) (sid : sds)
    (h : strncmp w.dp.series sid (sdslen sid) ≠ 0) :
    (on_series_match sid w).dp.series = sid ∧
    (on_series_match sid w).dp.flags
      = flagClear (flagClear w.dp.flags PMSERIES_NEED_COMMA) PMSERIES_NEED_EOL ∧
    (on_series_match sid w).stdout
      = w.stdout ++ (if flagTest w.dp.flags PMSERIES_NEED_EOL then "\n" else "")
          ++ (sid ++ "\n") := by
  simp [on_series_match, series_next_true w sid h, World.print]

theorem deliver_matches_cons (sid : pmSID) (ids : List pmSID) (w : World) :
    deliver_matches (sid :: ids) w = deliver_matches ids (on_series_match sid w) := rfl

/-- Headers written by a run of match events over non-empty ids of one common
length `n`, from any state whose current series is either still empty
(`prev = none`) or the id of the preceding event. -/
theorem deliver_matches_stdout (n : Nat) (hn : 0 < n) (ids : List pmSID)
    (hlen : ∀ sid ∈ ids, sid.length = n) (w : World) (prev : Option pmSID)
    (hprev : (prev = none ∧ w.dp.series = "") ∨
             (prev = some w.dp.series ∧ w.dp.series.length = n))
    (heol : flagTest w.dp.flags PMSERIES_NEED_EOL = false) :
    (deliver_matches ids w).stdout = w.stdout ++ header_text (run_heads prev ids) := by
  induction ids generalizing w prev with
  | nil => simp [deliver_matches, run_heads, header_text]
  | cons sid rest ih =>
    have hsid : sid.length = n := hlen sid (List.mem_cons_self _ _)
    have hrest : ∀ x ∈ rest, x.length = n := fun x hx => hlen x (List.mem_cons_of_mem _ hx)
    rw [deliver_matches_cons]
    by_cases hsame : prev = some sid
    · -- same id as the current series: nothing is printed
      have hcur : w.dp.series = sid := by
        rcases hprev with ⟨h1, _⟩ | ⟨h1, _⟩
        · rw [h1] at hsame; cases hsame
        · rw [h1] at hsame; exact Option.some.inj hsame
      have hz : strncmp w.dp.series sid (sdslen sid) = 0 := by
        rw [hcur]; exact strncmp_self sid
      rw [on_series_match_false w sid hz, run_heads, if_pos hsame]
      exact ih hrest w (some sid) (Or.inr ⟨by rw [hcur], by rw [hcur]; exact hsid⟩) heol
    · -- a different id: transition and header
      have hnz : strncmp w.dp.series sid (sdslen sid) ≠ 0 := by
        rcases hprev with ⟨_, h2⟩ | ⟨h1, h2⟩
        · rw [Ne, strncmp_eq_zero_iff_leading, h2]
          intro hp
          have hnil : sid.data = [] := List.prefix_nil.1 hp
          have hlen0 : sid.length = 0 := by
            show sid.data.length = 0
            rw [hnil]; rfl
          omega
        · rw [Ne, strncmp_eq_zero_iff_eq _ _ (h2.trans hsid.symm)]
          intro hcur
          exact hsame (by rw [h1, hcur])
      obtain ⟨hs, hf, ho⟩ := on_series_match_true w sid hnz
      have heol2 : flagTest (on_series_match sid w).dp.flags PMSERIES_NEED_EOL = false := by
        rw [hf]; exact flagTest_flagClear_self _ _
      rw [run_heads, if_neg hsame,
        ih hrest (on_series_match sid w) (some sid) (Or.inr ⟨by rw [hs], by rw [hs]; exact hsid⟩) heol2,
        ho, heol, header_text]
      simp [String.append_assoc]

theorem mem_run_heads_of_mem (x : pmSID) (ids : List pmSID) (prev : Option pmSID)
    (hx : x ∈ ids) : x ∈ run_heads prev ids ∨ prev = some x := by
  induction ids generalizing prev with
  | nil => cases hx
  | cons sid rest ih =>
    rw [run_heads]
    rcases List.mem_cons.1 hx with rfl | hmem
    · by_cases h : prev = some x
      · exact Or.inr h
      · rw [if_neg h]; exact Or.inl (List.mem_cons_self _ _)
    · rcases ih (some sid) hmem with h1 | h1
      · left
        split
        · exact h1
        · exact List.mem_cons_of_mem _ h1
      · have hxs : sid = x := Option.some.inj h1
        subst hxs
        by_cases h : prev = some sid
        · exact Or.inr h
        · rw [if_neg h]; exact Or.inl (List.mem_cons_self _ _)

theorem run_heads_subset (ids : List pmSID) (prev : Option pmSID) :
    ∀ x ∈ run_heads prev ids, x ∈ ids := by
  induction ids generalizing prev with
  | nil => intro x hx; simp [run_heads] at hx
  | cons sid rest ih =>
    intro x hx
    rw [run_heads] at hx
    split at hx
    · exact List.mem_cons_of_mem _ (ih _ x hx)
    · rcases List.mem_cons.1 hx with rfl | h
      · exact List.mem_cons_self _ _
      · exact List.mem_cons_of_mem _ (ih _ x h)

theorem run_heads_nodup (ids : List pmSID) (prev : Option pmSID)
    (hc : contiguous ids = true)
    (hp : ∀ p, prev = some p → p ∈ ids → ids.head? = some p) :
    (run_heads prev ids).Nodup ∧ ∀ p, prev = some p → p ∉ run_heads prev ids := by
  induction ids generalizing prev with
  | nil => simp [run_heads]
  | cons sid rest ih =>
    simp only [contiguous, Bool.and_eq_true, Bool.or_eq_true, Bool.not_eq_true',
      beq_iff_eq] at hc
    obtain ⟨hhead, hrest⟩ := hc
    have hp2 : ∀ p, some sid = some p → p ∈ rest → rest.head? = some p := by
      intro p hsp hmem
      have : sid = p := Option.some.inj hsp
      subst this
      rcases hhead with h | h
      · exfalso
        have : rest.contains sid = true := List.elem_iff.2 hmem
        rw [h] at this; cases this
      · exact h
    obtain ⟨hnd, hnot⟩ := ih (some sid) hrest hp2
    rw [run_heads]
    by_cases hsame : prev = some sid
    · rw [if_pos hsame]
      refine ⟨hnd, ?_⟩
      intro p hpp
      have : sid = p := Option.some.inj (hsame.symm.trans hpp)
      subst this
      exact hnot sid rfl
    · rw [if_neg hsame]
      refine ⟨List.nodup_cons.2 ⟨hnot sid rfl, hnd⟩, ?_⟩
      intro p hpp hmem
      rcases List.mem_cons.1 hmem with rfl | hin
      · exact hsame hpp
      · have hpr : p ∈ rest := run_heads_subset rest (some sid) p hin
        have := hp p hpp (List.mem_cons_of_mem _ hpr)
        simp only [List.head?_cons, Option.some.injEq] at this
        exact hsame (by rw [hpp, this])

theorem linesAux_append_newline (h rest cur : List Char) (hnl : '\n' ∉ h) :
    linesAux (h ++ '\n' :: rest) cur = String.mk (cur.reverse ++ h) :: linesAux rest [] := by
  induction h generalizing cur with
  | nil => simp [linesAux]
  | cons c cs ih =>
    have hc : c ≠ '\n' := fun e => hnl (by rw [e]; exact List.mem_cons_self _ _)
    have hcs : '\n' ∉ cs := fun e => hnl (List.mem_cons_of_mem _ e)
    rw [List.cons_append, linesAux, if_neg hc, ih _ hcs]
    simp

theorem output_lines_header_text (hs : List pmSID) (hnl : ∀ sid ∈ hs, '\n' ∉ sid.data) :
    output_lines (header_text hs) = hs := by
  induction hs with
  | nil => rfl
  | cons sid rest ih =>
    have h1 : '\n' ∉ sid.data := hnl sid (List.mem_cons_self _ _)
    have h2 : output_lines (header_text rest) = rest :=
      ih (fun x hx => hnl x (List.mem_cons_of_mem _ hx))
    unfold output_lines at h2 ⊢
    have hd : (header_text (sid :: rest)).data = sid.data ++ '\n' :: (header_text rest).data := by
      simp [header_text, String.data_append]
    rw [hd, linesAux_append_newline _ _ _ h1, h2]
    simp

/-- Ids of unequal length, which the store does not deliver: after "S12" the
id "S1" prints no header. -/
theorem match_unequal_length :
    (deliver_matches ["S12", "S1"] (World.start (series_data_init 0))).stdout = "S12\n" := by
  decide

/-- C3: series ids are fixed-form strings, all of one length.  For every
finite sequence of match events with non-empty series ids delivered to a
freshly initialised Report State (line-open is no option bit and is clear in
the initial flags), the output of `on_series_match` is the concatenation of
id followed by a newline for exactly those events whose id differs from the
id of the immediately preceding event, the first event always printing: a
repeated id prints no second header until a different id has been seen. -/
theorem deliver_matches_headers (flags n : Nat) (ids : List pmSID) (hn : 0 < n)
    (hlen : ∀ sid ∈ ids, sid.length = n)
    (heol : flagTest flags PMSERIES_NEED_EOL = false) :
    (deliver_matches ids (World.start (series_data_init flags))).stdout
      = header_text (run_heads none ids) := by
  have h := deliver_matches_stdout n hn ids hlen (World.start (series_data_init flags)) none
    (Or.inl ⟨rfl, rfl⟩) heol
  rw [h]
  show "" ++ header_text (run_heads none ids) = header_text (run_heads none ids)
  exact String.empty_append _

/-- The ids S1, S1, S2 give the output "S1\nS2\n". -/
theorem deliver_matches_headers_witness :
    (deliver_matches ["S1", "S1", "S2"] (World.start (series_data_init 0))).stdout
      = "S1\nS2\n" :=
  (deliver_matches_headers 0 2 ["S1", "S1", "S2"] (by decide) (by decide) (by decide)).trans
    (by decide)

/-- Counterexample to C4 as stated: the interleaving S1, S2, S1 prints the
header of S1 twice, in two disjoint blocks. -/
theorem match_interleaving_counterexample :
    (deliver_matches ["S1", "S2", "S1"] (World.start (series_data_init 0))).stdout
      = "S1\nS2\nS1\n" ∧
    ¬ ((output_lines
        (deliver_matches ["S1", "S2", "S1"] (World.start (series_data_init 0))).stdout).count
          "S1" = 1) := by
  decide

/-- C4 (amended): for every sequence of match events over non-empty ids of one
length (free of newlines) in which the events of each series arrive
contiguously, delivered to a fresh Report State, the lines of the output are
the headers of the maximal runs, no header occurs twice, and the header of
every series of the sequence occurs exactly once. -/
theorem match_headers_once (flags n : Nat) (ids : List pmSID) (hn : 0 < n)
    (hlen : ∀ sid ∈ ids, sid.length = n)
    (hnl : ∀ sid ∈ ids, '\n' ∉ sid.data)
    (heol : flagTest flags PMSERIES_NEED_EOL = false)
    (hc : contiguous ids = true) :
    output_lines (deliver_matches ids (World.start (series_data_init flags))).stdout
      = run_heads none ids ∧
    (output_lines (deliver_matches ids (World.start (series_data_init flags))).stdout).Nodup ∧
    ∀ sid ∈ ids,
      (output_lines (deliver_matches ids (World.start (series_data_init flags))).stdout).count
        sid = 1 := by
  have hout := deliver_matches_stdout n hn ids hlen (World.start (series_data_init flags)) none
    (Or.inl ⟨rfl, rfl⟩) heol
  have hstart : (World.start (series_data_init flags)).stdout = "" := rfl
  rw [hstart, String.empty_append] at hout
  have hlines : output_lines (deliver_matches ids (World.start (series_data_init flags))).stdout
      = run_heads none ids := by
    rw [hout]
    exact output_lines_header_text _ (fun x hx => hnl x (run_heads_subset ids none x hx))
  have hnd : (run_heads none ids).Nodup :=
    (run_heads_nodup ids none hc (fun p hp => by cases hp)).1
  refine ⟨hlines, by rw [hlines]; exact hnd, ?_⟩
  intro sid hsid
  rw [hlines]
  rcases mem_run_heads_of_mem sid ids none hsid with hmem | hnone
  · exact List.count_eq_one_of_mem hnd hmem
  · cases hnone

/-- The grouped arrival S1, S1, S2, S3, S3 prints each header once. -/
theorem match_headers_once_witness :
    output_lines
      (deliver_matches ["S1", "S1", "S2", "S3", "S3"] (World.start (series_data_init 0))).stdout
      = ["S1", "S2", "S3"] :=
  (match_headers_once 0 2 ["S1", "S1", "S2", "S3", "S3"] (by decide) (by decide) (by decide)
    (by decide) (by decide)).1.trans (by decide)

/-! ## Instance identities -/

theorem series_get_inst_isNone (dp : series_data) (series : sds) :
    (series_get_inst dp series).isNone = true
      ↔ series ∉ dp.insts.map (fun ip => ip.series) := by
  unfold series_get_inst
  rw [Option.isNone_iff_eq_none, List.find?_eq_none]
  simp only [List.mem_map, not_exists, not_and, beq_iff_eq]
  constructor
  · intro h ip hip heq
    exact h ip hip heq.symm
  · intro h ip hip heq
    exact h ip hip heq.symm

theorem on_series_inst_insts (sid : pmSID) (e : pmSeriesInst) (w : World) :
    (on_series_inst sid e w).dp.insts
      = if e.series ∈ (insts_after_next sid w).map (fun ip => ip.series)
        then insts_after_next sid w
        else insts_after_next sid w
          ++ [{ instid := e.instid, name := e.name, series := e.series, labels := [] }] := by
  have key : ∀ w1 : World,
      (if (series_get_inst w1.dp e.series).isNone = true then
          ({ w1 with dp := series_add_inst w1.dp e.series e.instid e.name } : World)
        else w1).dp.insts
        = if e.series ∈ w1.dp.insts.map (fun ip => ip.series) then w1.dp.insts
          else w1.dp.insts
            ++ [{ instid := e.instid, name := e.name, series := e.series, labels := [] }] := by
    intro w1
    by_cases hm : e.series ∈ w1.dp.insts.map (fun ip => ip.series)
    · have hn : ¬ (series_get_inst w1.dp e.series).isNone = true := by
        rw [series_get_inst_isNone]; exact fun h => h hm
      rw [if_neg hn, if_pos hm]
    · have hn : (series_get_inst w1.dp e.series).isNone = true := by
        rw [series_get_inst_isNone]; exact hm
      rw [if_pos hn, if_neg hm]
      rfl
  unfold on_series_inst insts_after_next
  by_cases h : strncmp w.dp.series sid (sdslen sid) ≠ 0
  · rw [series_next_true w sid h, if_pos h]
    simp only [Bool.true_and]
    split <;> exact key _
  · have h0 : strncmp w.dp.series sid (sdslen sid) = 0 := not_not.1 h
    rw [series_next_false w sid h0, if_neg h]
    simp only [Bool.false_and]
    exact key w

theorem on_series_inst_series (sid : pmSID) (e : pmSeriesInst) (w : World) :
    strncmp (on_series_inst sid e w).dp.series sid (sdslen sid) = 0 := by
  have key : ∀ w1 : World,
      (if (series_get_inst w1.dp e.series).isNone = true then
          ({ w1 with dp := series_add_inst w1.dp e.series e.instid e.name } : World)
        else w1).dp.series = w1.dp.series := by
    intro w1; split <;> rfl
  unfold on_series_inst
  by_cases h : strncmp w.dp.series sid (sdslen sid) ≠ 0
  · rw [series_next_true w sid h]
    simp only [Bool.true_and]
    split
    · rw [key]; exact strncmp_self sid
    · rw [key]; exact strncmp_self sid
  · have h0 : strncmp w.dp.series sid (sdslen sid) = 0 := not_not.1 h
    rw [series_next_false w sid h0]
    simp only [Bool.false_and]
    rw [key]; exact h0

theorem insts_after_next_nodup (sid : pmSID) (w : World)
    (h : (w.dp.insts.map (fun ip => ip.series)).Nodup) :
    ((insts_after_next sid w).map (fun ip => ip.series)).Nodup := by
  unfold insts_after_next
  split
  · simp
  · exact h

theorem on_series_inst_nodup (sid : pmSID) (e : pmSeriesInst) (w : World)
    (h : (w.dp.insts.map (fun ip => ip.series)).Nodup) :
    ((on_series_inst sid e w).dp.insts.map (fun ip => ip.series)).Nodup := by
  rw [on_series_inst_insts]
  have hb := insts_after_next_nodup sid w h
  split
  · exact hb
  · rename_i hnot
    rw [List.map_append, List.map_cons, List.map_nil]
    exact List.Nodup.append hb (List.nodup_singleton _)
      (List.disjoint_singleton.2 hnot)

theorem on_series_inst_mem (sid : pmSID) (e : pmSeriesInst) (w : World) :
    e.series ∈ (on_series_inst sid e w).dp.insts.map (fun ip => ip.series) := by
  rw [on_series_inst_insts]
  split
  · assumption
  · simp

theorem deliver_insts_cons (sid : pmSID) (e : pmSeriesInst) (evs : List pmSeriesInst)
    (w : World) :
    deliver_insts sid (e :: evs) w = deliver_insts sid evs (on_series_inst sid e w) := rfl

theorem deliver_insts_append (sid : pmSID) (evs evs2 : List pmSeriesInst) (w : World) :
    deliver_insts sid (evs ++ evs2) w = deliver_insts sid evs2 (deliver_insts sid evs w) := by
  simp [deliver_insts, List.foldl_append]

theorem deliver_insts_nodup (sid : pmSID) (evs : List pmSeriesInst) (w : World)
    (h : (w.dp.insts.map (fun ip => ip.series)).Nodup) :
    ((deliver_insts sid evs w).dp.insts.map (fun ip => ip.series)).Nodup := by
  induction evs generalizing w with
  | nil => exact h
  | cons e rest ih =>
    rw [deliver_insts_cons]
    exact ih _ (on_series_inst_nodup sid e w h)

theorem deliver_insts_series (sid : pmSID) (evs : List pmSeriesInst) (w : World)
    (h : strncmp w.dp.series sid (sdslen sid) = 0) :
    strncmp (deliver_insts sid evs w).dp.series sid (sdslen sid) = 0 := by
  induction evs generalizing w with
  | nil => exact h
  | cons e rest ih =>
    rw [deliver_insts_cons]
    exact ih _ (on_series_inst_series sid e w)

theorem deliver_insts_series_of_ne_nil (sid : pmSID) (evs : List pmSeriesInst) (w : World)
    (h : evs ≠ []) :
    strncmp (deliver_insts sid evs w).dp.series sid (sdslen sid) = 0 := by
  cases evs with
  | nil => exact absurd rfl h
  | cons e rest =>
    rw [deliver_insts_cons]
    exact deliver_insts_series sid rest _ (on_series_inst_series sid e w)

/-- An event whose instance series is present, arriving when the boundary
tracker sees no transition, leaves the instance set as it is. -/
theorem on_series_inst_present (sid : pmSID) (e : pmSeriesInst) (w : World)
    (h0 : strncmp w.dp.series sid (sdslen sid) = 0)
    (hm : e.series ∈ w.dp.insts.map (fun ip => ip.series)) :
    (on_series_inst sid e w).dp.insts = w.dp.insts := by
  rw [on_series_inst_insts]
  have hb : insts_after_next sid w = w.dp.insts := by
    unfold insts_after_next
    rw [if_neg (not_not.2 h0)]
  rw [hb, if_pos hm]

theorem qsort_perm {α : Type} (cmp : α → α → Int) (xs : List α) :
    (qsort cmp xs).Perm xs :=
  List.perm_insertionSort _ xs

theorem series_instance_names_insts (w : World) :
    (series_instance_names w).dp.insts = qsort series_instance_compare w.dp.insts := rfl

/-- The lookup before the insertion, on the list of instances (which says
something about the program as long as the block of `dp->insts` is defined):
over a sequence of instance-identity events for one series, starting from a
list without duplicates, the list never holds two instances with the same
instance series id; an event of the sequence (one that follows another, or
arrives when the state is already on that series) whose instance series id
is already present leaves the list unchanged; and after inserting the same
instance twice, the list that `series_instance_names` sorts holds exactly
one instance with that series id. -/
theorem on_series_inst_dedup (w0 : World) (sid : pmSID) (evs : List pmSeriesInst)
    (e : pmSeriesInst) (h0 : (w0.dp.insts.map (fun ip => ip.series)).Nodup) :
    ((deliver_insts sid evs w0).dp.insts.map (fun ip => ip.series)).Nodup ∧
    (evs ≠ [] ∨ strncmp w0.dp.series sid (sdslen sid) = 0 →
      e.series ∈ (deliver_insts sid evs w0).dp.insts.map (fun ip => ip.series) →
      (on_series_inst sid e (deliver_insts sid evs w0)).dp.insts
        = (deliver_insts sid evs w0).dp.insts) ∧
    ((series_instance_names (deliver_insts sid (evs ++ [e, e]) w0)).dp.insts.countP
      (fun ip => ip.series = e.series)) = 1 := by
  have hnd := deliver_insts_nodup sid evs w0 h0
  refine ⟨hnd, ?_, ?_⟩
  · intro hne hm
    rcases hne with hne | hcur
    · exact on_series_inst_present sid e _ (deliver_insts_series_of_ne_nil sid evs w0 hne) hm
    · exact on_series_inst_present sid e _ (deliver_insts_series sid evs w0 hcur) hm
  · rw [deliver_insts_append, series_instance_names_insts,
      (qsort_perm series_instance_compare _).countP_eq]
    have h1 : deliver_insts sid [e, e] (deliver_insts sid evs w0)
        = on_series_inst sid e (on_series_inst sid e (deliver_insts sid evs w0)) := rfl
    rw [h1, on_series_inst_present sid e _ (on_series_inst_series sid e _)
      (on_series_inst_mem sid e _)]
    have hnd1 := on_series_inst_nodup sid e _ hnd
    have hmem := on_series_inst_mem sid e (deliver_insts sid evs w0)
    have hc := List.count_eq_one_of_mem hnd1 hmem
    rw [List.count, List.countP_map] at hc
    rw [← hc]
    apply List.countP_congr
    intro ip _
    simp only [Function.comp_apply, decide_eq_true_eq, beq_iff_eq]

/-- One instance delivered, then delivered again: the set is unchanged. -/
theorem on_series_inst_dedup_witness :
    (on_series_inst "S" ⟨"0", "cpu0", "I0"⟩
        (deliver_insts "S" [⟨"0", "cpu0", "I0"⟩]
          (World.start (series_data_init PMSERIES_OPT_INSTS)))).dp.insts
      = [{ instid := "0", name := "cpu0", series := "I0", labels := [] }] :=
  ((on_series_inst_dedup (World.start (series_data_init PMSERIES_OPT_INSTS)) "S"
      [⟨"0", "cpu0", "I0"⟩] ⟨"0", "cpu0", "I0"⟩ (by decide)).2.1
    (Or.inl (by decide)) (by decide)).trans (by decide)

theorem strcmpList_eq_zero_iff (a b : List Char) : strcmpList a b = 0 ↔ a = b := by
  induction a generalizing b with
  | nil => cases b <;> simp [strcmpList]
  | cons x xs ih =>
    cases b with
    | nil => simp [strcmpList]
    | cons y ys =>
      by_cases hxy : x = y
      · simp [strcmpList, hxy, ih]
      · have : (if x < y then (-1 : Int) else 1) ≠ 0 := by split <;> decide
        simp [strcmpList, hxy, this]

theorem strcmpList_nil_le (b : List Char) : strcmpList [] b ≤ 0 := by
  cases b <;> simp [strcmpList]

theorem strcmpList_cons_le (x y : Char) (xs ys : List Char) :
    strcmpList (x :: xs) (y :: ys) ≤ 0 ↔ x < y ∨ (x = y ∧ strcmpList xs ys ≤ 0) := by
  by_cases hxy : x = y
  · subst hxy
    simp [strcmpList]
  · by_cases hlt : x < y
    · simp [strcmpList, hxy, hlt]
    · simp [strcmpList, hxy, hlt]

theorem strcmpList_total (a b : List Char) : strcmpList a b ≤ 0 ∨ strcmpList b a ≤ 0 := by
  induction a generalizing b with
  | nil => exact Or.inl (strcmpList_nil_le b)
  | cons x xs ih =>
    cases b with
    | nil => exact Or.inr (strcmpList_nil_le _)
    | cons y ys =>
      rw [strcmpList_cons_le, strcmpList_cons_le]
      rcases lt_trichotomy x y with h | h | h
      · exact Or.inl (Or.inl h)
      · subst h
        rcases ih ys with h1 | h1
        · exact Or.inl (Or.inr ⟨rfl, h1⟩)
        · exact Or.inr (Or.inr ⟨rfl, h1⟩)
      · exact Or.inr (Or.inl h)

theorem strcmpList_trans (a b c : List Char) (h1 : strcmpList a b ≤ 0)
    (h2 : strcmpList b c ≤ 0) : strcmpList a c ≤ 0 := by
  induction a generalizing b c with
  | nil => exact strcmpList_nil_le c
  | cons x xs ih =>
    cases b with
    | nil => simp [strcmpList] at h1
    | cons y ys =>
      cases c with
      | nil => simp [strcmpList] at h2
      | cons z zs =>
        rw [strcmpList_cons_le] at h1 h2 ⊢
        rcases h1 with h1 | ⟨rfl, h1⟩
        · rcases h2 with h2 | ⟨rfl, _⟩
          · exact Or.inl (lt_trans h1 h2)
          · exact Or.inl h1
        · rcases h2 with h2 | ⟨rfl, h2⟩
          · exact Or.inl h2
          · exact Or.inr ⟨rfl, ih ys zs h1 h2⟩

theorem sdscmp_eq_zero_iff (a b : sds) : sdscmp a b = 0 ↔ a = b := by
  unfold sdscmp
  rw [strcmpList_eq_zero_iff]
  constructor
  · exact String.ext
  · rintro rfl; rfl

theorem wrapInt_of_fits (x : Int) (h1 : -2 ^ 31 ≤ x) (h2 : x < 2 ^ 31) :
    wrapInt 32 (wrapInt 64 x) = x := by
  unfold wrapInt
  norm_num at h1 h2 ⊢
  omega

theorem inst_le_total (a b : series_inst) : inst_le a b ∨ inst_le b a := by
  unfold inst_le
  rcases lt_trichotomy (atoll a.instid) (atoll b.instid) with h | h | h
  · exact Or.inl (Or.inl h)
  · rcases strcmpList_total a.name.data b.name.data with h1 | h1
    · exact Or.inl (Or.inr ⟨h, h1⟩)
    · exact Or.inr (Or.inr ⟨h.symm, h1⟩)
  · exact Or.inr (Or.inl h)

theorem inst_le_trans (a b c : series_inst) (h1 : inst_le a b) (h2 : inst_le b c) :
    inst_le a c := by
  unfold inst_le at *
  rcases h1 with h1 | ⟨e1, n1⟩
  · rcases h2 with h2 | ⟨e2, _⟩
    · exact Or.inl (lt_trans h1 h2)
    · exact Or.inl (e2 ▸ h1)
  · rcases h2 with h2 | ⟨e2, n2⟩
    · exact Or.inl (e1 ▸ h2)
    · exact Or.inr ⟨e1.trans e2, strcmpList_trans _ _ _ n1 n2⟩

/-- Where distinct id strings parse to distinct numbers and the difference
fits an `int`, the comparator decides the documented order. -/
theorem series_instance_compare_le_iff (a b : series_inst)
    (hinj : a.instid ≠ b.instid → atoll a.instid ≠ atoll b.instid)
    (hlo : -2 ^ 31 ≤ atoll a.instid - atoll b.instid)
    (hhi : atoll a.instid - atoll b.instid < 2 ^ 31) :
    series_instance_compare a b ≤ 0 ↔ inst_le a b := by
  unfold series_instance_compare inst_le
  by_cases hid : a.instid = b.instid
  · have h0 : sdscmp a.instid b.instid = 0 := (sdscmp_eq_zero_iff _ _).2 hid
    rw [if_neg (not_not.2 h0), hid]
    simp
  · have h0 : sdscmp a.instid b.instid ≠ 0 := fun h => hid ((sdscmp_eq_zero_iff _ _).1 h)
    rw [if_pos h0, wrapInt_of_fits _ hlo hhi]
    have hne := hinj hid
    constructor
    · intro h
      left
      omega
    · rintro (h | ⟨h, _⟩)
      · omega
      · exact absurd h hne

theorem orderedInsert_congr {α : Type} (r s : α → α → Prop) [DecidableRel r] [DecidableRel s]
    (a : α) (l : List α) (h : ∀ b ∈ l, (r a b ↔ s a b)) :
    l.orderedInsert r a = l.orderedInsert s a := by
  induction l with
  | nil => rfl
  | cons b t ih =>
    have hb : r a b ↔ s a b := h b (List.mem_cons_self _ _)
    have ht := ih (fun c hc => h c (List.mem_cons_of_mem _ hc))
    by_cases hr : r a b
    · rw [List.orderedInsert, List.orderedInsert, if_pos hr, if_pos (hb.1 hr)]
    · rw [List.orderedInsert, List.orderedInsert, if_neg hr, if_neg (fun hs => hr (hb.2 hs)), ht]

theorem insertionSort_congr {α : Type} (r s : α → α → Prop) [DecidableRel r] [DecidableRel s]
    (l : List α) (h : ∀ a ∈ l, ∀ b ∈ l, (r a b ↔ s a b)) :
    l.insertionSort r = l.insertionSort s := by
  induction l with
  | nil => rfl
  | cons a t ih =>
    have ht := ih (fun x hx y hy => h x (List.mem_cons_of_mem _ hx) y (List.mem_cons_of_mem _ hy))
    rw [List.insertionSort, List.insertionSort, ht]
    apply orderedInsert_congr
    intro b hb
    have hbt : b ∈ t := (List.perm_insertionSort s t).mem_iff.1 hb
    exact h a (List.mem_cons_self _ _) b (List.mem_cons_of_mem _ hbt)

theorem qsort_instances_eq (l : List series_inst)
    (hinj : ∀ a ∈ l, ∀ b ∈ l, a.instid ≠ b.instid → atoll a.instid ≠ atoll b.instid)
    (hfit : ∀ a ∈ l, ∀ b ∈ l,
      -2 ^ 31 ≤ atoll a.instid - atoll b.instid ∧ atoll a.instid - atoll b.instid < 2 ^ 31) :
    qsort series_instance_compare l = l.insertionSort inst_le := by
  unfold qsort
  apply insertionSort_congr
  intro a ha b hb
  exact series_instance_compare_le_iff a b (hinj a ha b hb) (hfit a ha b hb).1 (hfit a ha b hb).2

/-- Counterexample to C6 as stated: the ids "01" and "1" have the same numeric
value, so the names should decide, but the comparator returns 0 for them in
both argument orders without looking at the names, and the instance named
"b" stays before the one named "a". -/
theorem instance_order_counterexample :
    series_instance_compare ⟨"01", "b", "I1", []⟩ ⟨"1", "a", "I2", []⟩ = 0 ∧
    series_instance_compare ⟨"1", "a", "I2", []⟩ ⟨"01", "b", "I1", []⟩ = 0 ∧
    (series_instance_names
      (deliver_insts "S" [⟨"01", "b", "I1"⟩, ⟨"1", "a", "I2"⟩]
        (World.start (series_data_init PMSERIES_OPT_INSTS)))).dp.insts
      = [⟨"01", "b", "I1", []⟩, ⟨"1", "a", "I2", []⟩] ∧
    ¬ List.Sorted inst_le
      (series_instance_names
        (deliver_insts "S" [⟨"01", "b", "I1"⟩, ⟨"1", "a", "I2"⟩]
          (World.start (series_data_init PMSERIES_OPT_INSTS)))).dp.insts := by
  set_option maxRecDepth 100000 in decide

/-- C6 (amended): for every instance set in which distinct instance-id strings
parse to distinct numbers and the differences of the parsed ids fit a 32-bit
`int`, `series_instance_names` leaves the instances (the same instances,
rearranged) ordered by parsed numeric id ascending, instances of equal
numeric id ordered by display name, and prints them in that order. -/
theorem series_instance_names_sorted (w : World)
    (hinj : ∀ a ∈ w.dp.insts, ∀ b ∈ w.dp.insts,
      a.instid ≠ b.instid → atoll a.instid ≠ atoll b.instid)
    (hfit : ∀ a ∈ w.dp.insts, ∀ b ∈ w.dp.insts,
      -2 ^ 31 ≤ atoll a.instid - atoll b.instid ∧ atoll a.instid - atoll b.instid < 2 ^ 31) :
    List.Sorted inst_le (series_instance_names w).dp.insts ∧
    (series_instance_names w).dp.insts.Perm w.dp.insts ∧
    (series_instance_names w).stdout
      = w.stdout ++ instance_names_loop w.dp.flags (series_instance_names w).dp.insts := by
  have heq := qsort_instances_eq w.dp.insts hinj hfit
  refine ⟨?_, ?_, rfl⟩
  · rw [series_instance_names_insts, heq]
    exact @List.sorted_insertionSort _ inst_le _ ⟨inst_le_total⟩ ⟨inst_le_trans⟩ _
  · rw [series_instance_names_insts]
    exact qsort_perm _ _

/-- The ids "10", "2", "1" with equal names come out in the order 1, 2, 10. -/
theorem series_instance_names_sorted_witness :
    (series_instance_names
      (deliver_insts "S" [⟨"10", "a", "I10"⟩, ⟨"2", "a", "I2"⟩, ⟨"1", "a", "I1"⟩]
        (World.start (series_data_init PMSERIES_OPT_INSTS)))).stdout
      = "\nS\n    inst [1 or \"a\"] series I1\n    inst [2 or \"a\"] series I2\n"
        ++ "    inst [10 or \"a\"] series I10\n" ∧
    List.Sorted inst_le
      (series_instance_names
        (deliver_insts "S" [⟨"10", "a", "I10"⟩, ⟨"2", "a", "I2"⟩, ⟨"1", "a", "I1"⟩]
          (World.start (series_data_init PMSERIES_OPT_INSTS)))).dp.insts :=
  ⟨by set_option maxRecDepth 100000 in decide,
   (series_instance_names_sorted
      (deliver_insts "S" [⟨"10", "a", "I10"⟩, ⟨"2", "a", "I2"⟩, ⟨"1", "a", "I1"⟩]
        (World.start (series_data_init PMSERIES_OPT_INSTS)))
      (by set_option maxRecDepth 100000 in decide)
      (by set_option maxRecDepth 100000 in decide)).1⟩

/-! ## Labels -/

/-- C7 (the code at the failing input): the labels b=1, a=2 are sorted by name
but rendered without a separating comma, as `{"a":2"b":1}`, not as
`{"a":2,"b":1}`. -/
theorem series_labels_sort_no_comma (s : sds) :
    (series_labels_sort s [⟨"b", "1"⟩, ⟨"a", "2"⟩]).1 = "\x7b\"a\":2\"b\":1\x7d" ∧
    (series_labels_sort s [⟨"b", "1"⟩, ⟨"a", "2"⟩]).1 ≠ "\x7b\"a\":2,\"b\":1\x7d" ∧
    (series_labels_sort s [⟨"b", "1"⟩, ⟨"a", "2"⟩]).2 = [⟨"a", "2"⟩, ⟨"b", "1"⟩] := by
  have h : series_labels_sort s [⟨"b", "1"⟩, ⟨"a", "2"⟩]
      = series_labels_sort "" [⟨"b", "1"⟩, ⟨"a", "2"⟩] := rfl
  rw [h]
  refine ⟨?_, ?_, ?_⟩
  · decide
  · decide
  · decide

/-! ## Flag arithmetic -/

theorem flagTest_shift (f k : Nat) : flagTest f (1 <<< k) = f.testBit k := by
  unfold flagTest
  rw [Nat.one_shiftLeft, Nat.and_two_pow]
  have hp : 2 ^ k ≠ 0 := by positivity
  cases f.testBit k <;> simp [hp]

theorem testBit_shift (k i : Nat) : (1 <<< k).testBit i = decide (k = i) := by
  rw [Nat.one_shiftLeft, Nat.testBit_two_pow]

theorem testBit_flagSet (f m i : Nat) :
    (flagSet f m).testBit i = (f.testBit i || m.testBit i) := by
  unfold flagSet
  exact Nat.testBit_or f m i

theorem flagTest_eq_true_iff (f m : Nat) :
    flagTest f m = true ↔ ∃ i, f.testBit i = true ∧ m.testBit i = true := by
  unfold flagTest
  constructor
  · intro h
    have hne : f &&& m ≠ 0 := by simpa using h
    obtain ⟨i, hi⟩ := Nat.ne_zero_implies_bit_true hne
    rw [Nat.testBit_and, Bool.and_eq_true] at hi
    exact ⟨i, hi⟩
  · rintro ⟨i, h1, h2⟩
    have hne : f &&& m ≠ 0 := by
      intro h0
      have : (f &&& m).testBit i = true := by rw [Nat.testBit_and, h1, h2]; rfl
      rw [h0, Nat.zero_testBit] at this
      cases this
    simpa using hne

theorem flagTest_or (f a b : Nat) :
    flagTest f (a ||| b) = (flagTest f a || flagTest f b) := by
  rw [Bool.eq_iff_iff, Bool.or_eq_true, flagTest_eq_true_iff, flagTest_eq_true_iff,
    flagTest_eq_true_iff]
  constructor
  · rintro ⟨i, h1, h2⟩
    rw [Nat.testBit_or, Bool.or_eq_true] at h2
    rcases h2 with h2 | h2
    · exact Or.inl ⟨i, h1, h2⟩
    · exact Or.inr ⟨i, h1, h2⟩
  · rintro (⟨i, h1, h2⟩ | ⟨i, h1, h2⟩)
    · exact ⟨i, h1, by rw [Nat.testBit_or, h2]; rfl⟩
    · exact ⟨i, h1, by rw [Nat.testBit_or, h2, Bool.or_true]⟩

/-! ## Label definitions and completion -/

theorem comma_join_cons (a : sds) (rest : List sds) :
    comma_join (a :: rest) = a ++ comma_tail rest := by
  induction rest generalizing a with
  | nil => simp [comma_join, comma_tail]
  | cons b t ih =>
    rw [comma_join, ih b, comma_tail]
    simp [String.append_assoc]

/-- One label-definition event for the current series in names-only mode. -/
theorem on_series_label_same (series : pmSID) (label : sds) (w : World)
    (hn : flagTest w.dp.flags PMSERIES_ONLY_NAMES = true)
    (hs : strncmp w.dp.series series (sdslen series) = 0) :
    on_series_label (some series) label w =
      { w with
        dp := { w.dp with
          flags := flagSet w.dp.flags (PMSERIES_NEED_COMMA ||| PMSERIES_NEED_EOL) },
        stdout := w.stdout ++
          (if flagTest w.dp.flags PMSERIES_NEED_COMMA then ", " ++ label
           else "    Labels: " ++ label) } := by
  unfold on_series_label
  simp only [hn, Bool.not_true, Bool.false_eq_true, if_false, series_next_false w series hs]
  cases flagTest w.dp.flags PMSERIES_NEED_COMMA <;> simp [World.print]

theorem flagTest_set_punct_COMMA (f : Nat) :
    flagTest (flagSet f (PMSERIES_NEED_COMMA ||| PMSERIES_NEED_EOL)) PMSERIES_NEED_COMMA
      = true := by
  have h : (PMSERIES_NEED_COMMA ||| PMSERIES_NEED_EOL).testBit 7 = true := by decide
  show flagTest _ (1 <<< 7) = true
  rw [flagTest_shift, testBit_flagSet, h, Bool.or_true]

theorem flagTest_set_punct_EOL (f : Nat) :
    flagTest (flagSet f (PMSERIES_NEED_COMMA ||| PMSERIES_NEED_EOL)) PMSERIES_NEED_EOL
      = true := by
  have h : (PMSERIES_NEED_COMMA ||| PMSERIES_NEED_EOL).testBit 6 = true := by decide
  show flagTest _ (1 <<< 6) = true
  rw [flagTest_shift, testBit_flagSet, h, Bool.or_true]

theorem flagTest_set_punct_NAMES (f : Nat) :
    flagTest (flagSet f (PMSERIES_NEED_COMMA ||| PMSERIES_NEED_EOL)) PMSERIES_ONLY_NAMES
      = flagTest f PMSERIES_ONLY_NAMES := by
  have h : (PMSERIES_NEED_COMMA ||| PMSERIES_NEED_EOL).testBit 9 = false := by decide
  show flagTest _ (1 <<< 9) = flagTest f (1 <<< 9)
  rw [flagTest_shift, flagTest_shift, testBit_flagSet, h, Bool.or_false]

theorem deliver_labels_cons (series : pmSID) (label : sds) (labels : List sds) (w : World) :
    deliver_labels series (label :: labels) w
      = deliver_labels series labels (on_series_label (some series) label w) := rfl

/-- Further label definitions on an open "Labels:" line are comma continuations. -/
theorem deliver_labels_tail (series : pmSID) (labels : List sds) (w : World)
    (hn : flagTest w.dp.flags PMSERIES_ONLY_NAMES = true)
    (hc : flagTest w.dp.flags PMSERIES_NEED_COMMA = true)
    (he : flagTest w.dp.flags PMSERIES_NEED_EOL = true)
    (hs : strncmp w.dp.series series (sdslen series) = 0) :
    (deliver_labels series labels w).stdout = w.stdout ++ comma_tail labels ∧
    flagTest (deliver_labels series labels w).dp.flags PMSERIES_NEED_EOL = true ∧
    (deliver_labels series labels w).stderr = w.stderr ∧
    (deliver_labels series labels w).exitsts = w.exitsts := by
  induction labels generalizing w with
  | nil => exact ⟨(String.append_empty _).symm, he, rfl, rfl⟩
  | cons a rest ih =>
    rw [deliver_labels_cons]
    have hstep := on_series_label_same series a w hn hs
    have hf : (on_series_label (some series) a w).dp.flags
        = flagSet w.dp.flags (PMSERIES_NEED_COMMA ||| PMSERIES_NEED_EOL) := by rw [hstep]
    have hser : (on_series_label (some series) a w).dp.series = w.dp.series := by rw [hstep]
    have hout : (on_series_label (some series) a w).stdout = w.stdout ++ (", " ++ a) := by
      rw [hstep]; simp [hc]
    have herr : (on_series_label (some series) a w).stderr = w.stderr := by rw [hstep]
    have hex : (on_series_label (some series) a w).exitsts = w.exitsts := by rw [hstep]
    obtain ⟨h1, h2, h3, h4⟩ := ih (on_series_label (some series) a w)
      (by rw [hf, flagTest_set_punct_NAMES]; exact hn)
      (by rw [hf]; exact flagTest_set_punct_COMMA _)
      (by rw [hf]; exact flagTest_set_punct_EOL _)
      (by rw [hser]; exact hs)
    refine ⟨?_, h2, h3.trans herr, h4.trans hex⟩
    rw [h1, hout, comma_tail]
    simp [String.append_assoc]

theorem on_series_done_exitsts (api : Pmapi) (sts : Int) (w : World) :
    (on_series_done api sts w).exitsts = if sts < 0 then 1 else w.exitsts := by
  unfold on_series_done
  by_cases h : sts < 0
  · simp [h]
  · simp only [h, if_false]
    split <;> rfl

theorem deliver_done_exitsts (api : Pmapi) (stss : List Int) (w : World) :
    (deliver_done api stss w).exitsts = if ∃ sts ∈ stss, sts < 0 then 1 else w.exitsts := by
  induction stss generalizing w with
  | nil => simp [deliver_done]
  | cons sts rest ih =>
    have hc : deliver_done api (sts :: rest) w = deliver_done api rest (on_series_done api sts w) :=
      rfl
    rw [hc, ih, on_series_done_exitsts]
    by_cases h1 : ∃ s ∈ rest, s < 0
    · have h2 : ∃ s ∈ sts :: rest, s < 0 := by
        obtain ⟨s, hs, hlt⟩ := h1
        exact ⟨s, List.mem_cons_of_mem _ hs, hlt⟩
      rw [if_pos h1, if_pos h2]
    · rw [if_neg h1]
      by_cases h3 : sts < 0
      · rw [if_pos h3, if_pos ⟨sts, List.mem_cons_self _ _, h3⟩]
      · have h2 : ¬ ∃ s ∈ sts :: rest, s < 0 := by
          rintro ⟨s, hs, hlt⟩
          rcases List.mem_cons.1 hs with rfl | hs
          · exact h3 hlt
          · exact h1 ⟨s, hs, hlt⟩
        rw [if_neg h3, if_neg h2]

/-- C8: in names-only mode, from a state whose current series is `S` with
continuation-pending clear (line-open may be clear or not), a non-empty sequence of
label-definition events for `S` followed by a completion with non-negative
status emits exactly "    Labels: " followed by the names joined by ", " and
one newline, writes nothing to standard error, and leaves line-open clear. -/
theorem labels_line (api : Pmapi) (w : World) (S : pmSID) (names : List sds) (sts : Int)
    (hne : names ≠ [])
    (hn : flagTest w.dp.flags PMSERIES_ONLY_NAMES = true)
    (hc : flagTest w.dp.flags PMSERIES_NEED_COMMA = false)
    (hS : w.dp.series = S) (hsts : 0 ≤ sts) :
    (on_series_done api sts (deliver_labels S names w)).stdout
      = w.stdout ++ ("    Labels: " ++ comma_join names ++ "\n") ∧
    flagTest (on_series_done api sts (deliver_labels S names w)).dp.flags PMSERIES_NEED_EOL
      = false ∧
    (on_series_done api sts (deliver_labels S names w)).stderr = w.stderr ∧
    (on_series_done api sts (deliver_labels S names w)).exitsts = w.exitsts := by
  cases names with
  | nil => exact absurd rfl hne
  | cons n1 rest =>
    have hs : strncmp w.dp.series S (sdslen S) = 0 := by rw [hS]; exact strncmp_self S
    have hstep := on_series_label_same S n1 w hn hs
    have hf : (on_series_label (some S) n1 w).dp.flags
        = flagSet w.dp.flags (PMSERIES_NEED_COMMA ||| PMSERIES_NEED_EOL) := by rw [hstep]
    have hser : (on_series_label (some S) n1 w).dp.series = w.dp.series := by rw [hstep]
    have hout : (on_series_label (some S) n1 w).stdout
        = w.stdout ++ ("    Labels: " ++ n1) := by
      rw [hstep]; simp [hc]
    have herr : (on_series_label (some S) n1 w).stderr = w.stderr := by rw [hstep]
    have hex : (on_series_label (some S) n1 w).exitsts = w.exitsts := by rw [hstep]
    obtain ⟨t1, t2, t3, t4⟩ := deliver_labels_tail S rest (on_series_label (some S) n1 w)
      (by rw [hf, flagTest_set_punct_NAMES]; exact hn)
      (by rw [hf]; exact flagTest_set_punct_COMMA _)
      (by rw [hf]; exact flagTest_set_punct_EOL _)
      (by rw [hser]; exact hs)
    rw [deliver_labels_cons]
    have hnot : ¬ sts < 0 := not_lt.2 hsts
    unfold on_series_done
    simp only [t2, if_true, hnot, if_false]
    refine ⟨?_, flagTest_flagClear_self _ _, ?_, ?_⟩
    · rw [t1, hout, comma_join_cons]
      simp [String.append_assoc]
    · rw [t3, herr]
    · rw [t4, hex]

/-- The names x, y, z give the single line "    Labels: x, y, z\n". -/
theorem labels_line_witness :
    (on_series_done libpcp 0
      (deliver_labels "S" ["x", "y", "z"]
        (on_series_match "S" (World.start (series_data_init PMSERIES_ONLY_NAMES))))).stdout
      = "S\n    Labels: x, y, z\n" :=
  (labels_line libpcp
    (on_series_match "S" (World.start (series_data_init PMSERIES_ONLY_NAMES)))
    "S" ["x", "y", "z"] 0 (by decide) (by decide) (by decide) (by decide)
    (by decide)).1.trans (by decide)

/-- C9: over any sequence of completion events starting from exit status 0,
the final exit status is 1 if some event carried a negative status and 0
otherwise; a single completion sets it to 1 when its status is negative and
otherwise leaves it as it was, so a recorded failure is never reset. -/
theorem exit_status (api : Pmapi) (stss : List Int) (w : World) (sts : Int) :
    (deliver_done api stss { w with exitsts := 0 }).exitsts
      = (if ∃ s ∈ stss, s < 0 then 1 else 0) ∧
    (on_series_done api sts w).exitsts = (if sts < 0 then 1 else w.exitsts) ∧
    (deliver_done api (stss ++ [sts]) { w with exitsts := 0 }).exitsts
      = (if sts < 0 then 1 else (deliver_done api stss { w with exitsts := 0 }).exitsts) := by
  refine ⟨?_, on_series_done_exitsts api sts w, ?_⟩
  · rw [deliver_done_exitsts]
  · have happ : deliver_done api (stss ++ [sts]) { w with exitsts := 0 }
        = on_series_done api sts (deliver_done api stss { w with exitsts := 0 }) := by
      simp [deliver_done, List.foldl_append]
    rw [happ, on_series_done_exitsts]

/-! ## Descriptors -/

theorem flagTest_flagClear_disjoint (f m k : Nat) (h : k &&& m = 0) :
    flagTest (flagClear f m) k = flagTest f k := by
  rw [flagTest_flagClear_comm]
  have : flagClear k m = k := by simp [flagClear, h]
  rw [this]

/-- The option and format bits are not affected by a transition. -/
theorem flagTest_after_transition (f k : Nat) (h1 : k &&& PMSERIES_NEED_COMMA = 0)
    (h2 : k &&& PMSERIES_NEED_EOL = 0) :
    flagTest (flagClear (flagClear f PMSERIES_NEED_COMMA) PMSERIES_NEED_EOL) k
      = flagTest f k := by
  rw [flagTest_flagClear_disjoint _ _ _ h2, flagTest_flagClear_disjoint _ _ _ h1]

/-- Counterexample to C10 as stated: with only `-d`, type "STRING", pmid
"60.0.1" and indom "none" on a new series, the output shows the instance
domain as "InDom: PM_INDOM_NULL 0xffffffff"; the segment "InDom: none" does
not occur in it. -/
theorem on_series_desc_indom_counterexample :
    (on_series_desc libpcp "S1" ⟨"none", "60.0.1", "instant", "src", "STRING", "count"⟩
      (World.start (series_data_init PMSERIES_OPT_DESC))).stdout
      = "\nS1 PMID: 60.0.1\n    Data Type: string  InDom: PM_INDOM_NULL 0xffffffff\n"
        ++ "    Semantics: instant  Units: count\n" ∧
    occurs_in "InDom: none"
      (on_series_desc libpcp "S1" ⟨"none", "60.0.1", "instant", "src", "STRING", "count"⟩
        (World.start (series_data_init PMSERIES_OPT_DESC))).stdout = false := by
  set_option maxRecDepth 100000 in decide

/-- C10 (amended): for a descriptor event on a new series handled by
`on_series_desc` with `-d` active and `-I`, `-M`, `-S` inactive, with type
"STRING", pmid "60.0.1" and indom "none", the output is the header (a
newline and the series id), the segment " PMID: 60.0.1", the segment
"    Data Type: string", and the segment "  InDom: PM_INDOM_NULL" followed
by the hexadecimal form of the null instance domain, then the semantics and
units line. -/
theorem on_series_desc_report (api : Pmapi) (w : World) (series semantics source units : sds)
    (hnew : (series_next w series).1 = true)
    (hd : flagTest w.dp.flags PMSERIES_OPT_DESC = true)
    (hM : flagTest w.dp.flags PMSERIES_FULLPMID = false)
    (hI : flagTest w.dp.flags PMSERIES_FULLINDOM = false)
    (hS : flagTest w.dp.flags PMSERIES_SOURCEID = false)
    (hE : flagTest w.dp.flags PMSERIES_NEED_EOL = false) :
    (on_series_desc api series ⟨"none", "60.0.1", semantics, source, "STRING", units⟩ w).stdout
      = w.stdout ++ ("\n" ++ series ++ " PMID: " ++ "60.0.1" ++ "\n"
          ++ "    Data Type: " ++ "string" ++ "  InDom: " ++ "PM_INDOM_NULL"
          ++ " 0x" ++ fmt_x api.PM_IN_NULL ++ "\n"
          ++ "    Semantics: " ++ semantics
          ++ (if strcmp semantics "???" = 0 then " (" ++ semantics ++ ")" else "")
          ++ "  Units: " ++ (if units = "" then "none" else units) ++ "\n") := by
  rw [series_next_fst] at hnew
  have hne : strncmp w.dp.series series (sdslen series) ≠ 0 := by simpa using hnew
  have fD := flagTest_after_transition w.dp.flags PMSERIES_OPT_DESC (by decide) (by decide)
  have fM := flagTest_after_transition w.dp.flags PMSERIES_FULLPMID (by decide) (by decide)
  have fI := flagTest_after_transition w.dp.flags PMSERIES_FULLINDOM (by decide) (by decide)
  have fS := flagTest_after_transition w.dp.flags PMSERIES_SOURCEID (by decide) (by decide)
  rw [hd] at fD
  rw [hM] at fM
  rw [hI] at fI
  rw [hS] at fS
  have p3 : sscanf_u3 "60.0.1" = some (60, 0, 1) := by decide
  have p2 : sscanf_u2 "none" = none := by decide
  have pn : strcmp "none" "none" = 0 := by decide
  have pt : series_type_phrase "STRING" = "string" := by decide
  have pu : ¬ strcmp "STRING" "???" = 0 := by decide
  unfold on_series_desc
  simp only [series_next_true w series hne, World.print, World.printIf, flagTest_or, fD, fM, fI,
    fS, hE, p3, p2, pn, pt, pu, Bool.or_true, Bool.false_or, if_true, if_false,
    Bool.false_eq_true, Option.isNone_none, Option.isNone_some, Bool.and_self, Bool.false_and,
    decide_True, Bool.true_and]
  simp only [String.append_assoc, String.append_empty, String.empty_append]

/-- A fresh state with only `-d` receives the descriptor of series "S1". -/
theorem on_series_desc_report_witness :
    (on_series_desc libpcp "S1" ⟨"none", "60.0.1", "instant", "src", "STRING", ""⟩
      (World.start (series_data_init PMSERIES_OPT_DESC))).stdout
      = "\nS1 PMID: 60.0.1\n    Data Type: string  InDom: PM_INDOM_NULL 0xffffffff\n"
        ++ "    Semantics: instant  Units: none\n" :=
  (on_series_desc_report libpcp (World.start (series_data_init PMSERIES_OPT_DESC))
    "S1" "instant" "src" "" (by decide) (by decide) (by decide) (by decide) (by decide)
    (by decide)).trans (by decide)

/-! ## Sampled values -/

theorem strncmp_AGGREGATE_iff (t : sds) :
    strncmp t "AGGREGATE" 9 = 0 ↔ "AGGREGATE".data <+: t.data :=
  strncmp_eq_zero_iff_leading t "AGGREGATE"

theorem strncmp_STRING_iff (t : sds) :
    strncmp t "STRING" 6 = 0 ↔ "STRING".data <+: t.data :=
  strncmp_eq_zero_iff_leading t "STRING"

/-- For a value type that agrees with the type words, the text the handler
chooses is the documented rendering. -/
theorem value_data_eq_rendering (repr : sds → sds) (type : Option sds) (data : sds)
    (hty : type_word_like type) :
    value_data repr (type_text type) data
      = value_rendering repr type data := by
  cases type with
  | none =>
    have h1 : ¬ strncmp "" "AGGREGATE" 9 = 0 := by decide
    have h2 : ¬ strncmp "" "STRING" 6 = 0 := by decide
    simp [value_data, value_rendering, type_text, h1, h2]
  | some t =>
    obtain ⟨hs, ha⟩ := hty t rfl
    unfold value_data value_rendering type_text
    by_cases hA : strncmp t "AGGREGATE" 9 = 0
    · rcases ha ((strncmp_AGGREGATE_iff t).1 hA) with rfl | rfl
      · rw [if_pos hA, if_neg (by decide), if_pos (Or.inl rfl)]
      · rw [if_pos hA, if_neg (by decide), if_pos (Or.inr rfl)]
    · have hnA : ¬ (some t = some "AGGREGATE" ∨ some t = some "AGGREGATE_STATIC") := by
        rintro (h | h)
        · exact hA (by rw [Option.some.inj h]; decide)
        · exact hA (by rw [Option.some.inj h]; decide)
      by_cases hS : strncmp t "STRING" 6 = 0
      · have ht : t = "STRING" := hs ((strncmp_STRING_iff t).1 hS)
        subst ht
        rw [if_neg hA, if_pos hS, if_pos rfl]
      · have hnS : ¬ some t = some "STRING" := by
          intro h
          exact hS (by rw [Option.some.inj h]; decide)
        rw [if_neg hA, if_neg hS, if_neg hnS, if_neg hnA]

theorem series_next_eq_of_false (w : World) (sid : sds) (h : (series_next w sid).1 = false) :
    series_next w sid = (false, w) := by
  apply series_next_false
  rw [series_next_fst] at h
  simpa using h

/-- A sampled value on the current series: what is printed and what is kept. -/
theorem on_series_value_same (repr : sds → sds) (w : World) (sid : pmSID)
    (value : pmSeriesValue) (hcur : (series_next w sid).1 = false) :
    on_series_value repr sid value w =
      (if sdscmp value.series sid = 0 then
        ({ w with dp := { w.dp with type := some (type_text w.dp.type) } }
          : World).print
          ("    [" ++ value.timestamp ++ "] "
            ++ value_data repr (type_text w.dp.type) value.data
            ++ "\n")
      else
        match series_get_inst w.dp value.series with
        | none =>
          ({ w with dp := { w.dp with type := some (type_text w.dp.type) } }
            : World).print
            ("    [" ++ value.timestamp ++ "] "
              ++ value_data repr (type_text w.dp.type) value.data
              ++ " " ++ value.series ++ "\n")
        | some ip =>
          ({ w with dp := { w.dp with type := some (type_text w.dp.type) } }
            : World).print
            ("    [" ++ value.timestamp ++ "] "
              ++ value_data repr (type_text w.dp.type) value.data
              ++ " \"" ++ ip.name ++ "\"\n")) := by
  unfold on_series_value
  rw [series_next_eq_of_false w sid hcur]
  rfl

/-- Counterexample to C11 as stated: the value type "STRINGS" (taken from a
descriptor of series "S1") is not the string type, so the data should be
printed unchanged, but it is printed in double quotes; the value type
"AGGREGATES" is no aggregate type, but the data is printed quoted and
escaped. -/
theorem on_series_value_strings_counterexample :
    (on_series_desc libpcp "S1" ⟨"none", "60.0.1", "instant", "src", "STRINGS", ""⟩
      (World.start (series_data_init 0))).dp.type = some "STRINGS" ∧
    (series_next (on_series_desc libpcp "S1"
      ⟨"none", "60.0.1", "instant", "src", "STRINGS", ""⟩
      (World.start (series_data_init 0))) "S1").1 = false ∧
    value_rendering sds_repr (some "STRINGS") "abc" = "abc" ∧
    (on_series_value sds_repr "S1" ⟨"12:00", "S1", "abc"⟩
      (on_series_desc libpcp "S1" ⟨"none", "60.0.1", "instant", "src", "STRINGS", ""⟩
        (World.start (series_data_init 0)))).stdout
      = "\nS1" ++ "    [12:00] \"abc\"\n" ∧
    value_rendering sds_repr (some "AGGREGATES") "a\tb" = "a\tb" ∧
    (on_series_value sds_repr "S1" ⟨"12:00", "S1", "a\tb"⟩
      (on_series_desc libpcp "S1" ⟨"none", "60.0.1", "instant", "src", "AGGREGATES", ""⟩
        (World.start (series_data_init 0)))).stdout
      = "\nS1" ++ "    [12:00] \"a" ++ String.mk [Char.ofNat 92, 't'] ++ "b\"\n" := by
  set_option maxRecDepth 100000 in decide

/-- C11 (amended): for every sampled-value event on the current series (no
boundary transition) whose value carries the same series id as the event,
`on_series_value` emits exactly the line "    [timestamp] rendered\n" and
nothing on standard error, where the rendered data is the quoted and escaped
representation when the sticky value type begins with "AGGREGATE", the data
in double quotes when it begins with "STRING", and the data unchanged for
every other value type and when no value type has been set; for a value
type that is one of the type words this is the rendering by type: quoted
for STRING, quoted and escaped for AGGREGATE and AGGREGATE_STATIC, unchanged
otherwise. -/
theorem on_series_value_line (repr : sds → sds) (w : World) (sid : pmSID)
    (value : pmSeriesValue) (hcur : (series_next w sid).1 = false)
    (hsame : value.series = sid) :
    (on_series_value repr sid value w).stdout
      = w.stdout ++ ("    [" ++ value.timestamp ++ "] "
          ++ (if "AGGREGATE".data <+: (type_text w.dp.type).data then repr value.data
              else if "STRING".data <+: (type_text w.dp.type).data
                then "\"" ++ value.data ++ "\""
              else value.data) ++ "\n") ∧
    (on_series_value repr sid value w).stderr = w.stderr ∧
    (w.dp.type = none →
      (on_series_value repr sid value w).stdout
        = w.stdout ++ ("    [" ++ value.timestamp ++ "] " ++ value.data ++ "\n")) ∧
    (type_word_like w.dp.type →
      (on_series_value repr sid value w).stdout
        = w.stdout ++ ("    [" ++ value.timestamp ++ "] "
            ++ value_rendering repr w.dp.type value.data ++ "\n")) := by
  have h0 : sdscmp value.series sid = 0 := (sdscmp_eq_zero_iff _ _).2 hsame
  have hE : on_series_value repr sid value w
      = ({ w with dp := { w.dp with type := some (type_text w.dp.type) } } : World).print
          ("    [" ++ value.timestamp ++ "] "
            ++ value_data repr (type_text w.dp.type) value.data ++ "\n") := by
    rw [on_series_value_same repr w sid value hcur, if_pos h0]
  have hV : value_data repr (type_text w.dp.type) value.data
      = (if "AGGREGATE".data <+: (type_text w.dp.type).data then repr value.data
         else if "STRING".data <+: (type_text w.dp.type).data
           then "\"" ++ value.data ++ "\""
         else value.data) := by
    unfold value_data
    simp only [strncmp_AGGREGATE_iff, strncmp_STRING_iff]
  refine ⟨?_, ?_, ?_, ?_⟩
  · rw [hE, ← hV]
    rfl
  · rw [hE]
    rfl
  · intro hnone
    rw [hE, hnone]
    have h1 : ¬ strncmp "" "AGGREGATE" 9 = 0 := by decide
    have h2 : ¬ strncmp "" "STRING" 6 = 0 := by decide
    simp only [type_text, value_data, h1, h2, if_false, World.print]
  · intro hty
    rw [hE, value_data_eq_rendering repr w.dp.type value.data hty]
    rfl

/-- On the current series "S1": a value of type STRING is printed in double
quotes, a value of type AGGREGATE quoted with its tab escaped, a value of
type U64 and a value without a type unchanged. -/
theorem on_series_value_line_witness :
    (on_series_value sds_repr "S1" ⟨"12:00", "S1", "abc"⟩
      { dp := { series_data_init 0 with series := "S1", type := some "STRING" },
        stdout := "", stderr := "", exitsts := 0 }).stdout
      = "    [12:00] \"abc\"\n" ∧
    (on_series_value sds_repr "S1" ⟨"12:00", "S1", "a\tb"⟩
      { dp := { series_data_init 0 with series := "S1", type := some "AGGREGATE" },
        stdout := "", stderr := "", exitsts := 0 }).stdout
      = "    [12:00] \"a" ++ String.mk [Char.ofNat 92, 't'] ++ "b\"\n" ∧
    (on_series_value sds_repr "S1" ⟨"12:00", "S1", "42"⟩
      { dp := { series_data_init 0 with series := "S1", type := some "U64" },
        stdout := "", stderr := "", exitsts := 0 }).stdout
      = "    [12:00] 42\n" ∧
    (on_series_value sds_repr "S1" ⟨"12:00", "S1", "42"⟩
      { dp := { series_data_init 0 with series := "S1" },
        stdout := "", stderr := "", exitsts := 0 }).stdout
      = "    [12:00] 42\n" :=
  ⟨(on_series_value_line sds_repr
      { dp := { series_data_init 0 with series := "S1", type := some "STRING" },
        stdout := "", stderr := "", exitsts := 0 }
      "S1" ⟨"12:00", "S1", "abc"⟩ (by decide) rfl).1.trans
      (by set_option maxRecDepth 100000 in decide),
   (on_series_value_line sds_repr
      { dp := { series_data_init 0 with series := "S1", type := some "AGGREGATE" },
        stdout := "", stderr := "", exitsts := 0 }
      "S1" ⟨"12:00", "S1", "a\tb"⟩ (by decide) rfl).1.trans
      (by set_option maxRecDepth 100000 in decide),
   (on_series_value_line sds_repr
      { dp := { series_data_init 0 with series := "S1", type := some "U64" },
        stdout := "", stderr := "", exitsts := 0 }
      "S1" ⟨"12:00", "S1", "42"⟩ (by decide) rfl).1.trans
      (by set_option maxRecDepth 100000 in decide),
   (on_series_value_line sds_repr
      { dp := { series_data_init 0 with series := "S1" },
        stdout := "", stderr := "", exitsts := 0 }
      "S1" ⟨"12:00", "S1", "42"⟩ (by decide) rfl).2.2.1 rfl⟩

theorem series_get_inst_some (dp : series_data) (series : sds) (ip : series_inst)
    (h : series_get_inst dp series = some ip) : ip ∈ dp.insts ∧ ip.series = series := by
  unfold series_get_inst at h
  refine ⟨List.mem_of_find?_eq_some h, ?_⟩
  have h2 := List.find?_some h
  exact (beq_iff_eq.1 h2).symm

/-- Counterexample to C12 as stated: the state is on series "S1" and holds
the instance "I1" (name "cpu0"); a value event for series "S2" whose value
series is "I1" makes the boundary tracker empty the instance set first, so
the line ends with the raw id "I1" although the instance was in the set, and
the instance set is modified. -/
theorem on_series_value_transition_counterexample :
    (on_series_inst "S1" ⟨"0", "cpu0", "I1"⟩ (World.start (series_data_init 0))).dp.insts
      = [⟨"0", "cpu0", "I1", []⟩] ∧
    (on_series_value sds_repr "S2" ⟨"12:00", "I1", "42"⟩
      (on_series_inst "S1" ⟨"0", "cpu0", "I1"⟩ (World.start (series_data_init 0)))).stdout
      = "\nS2\n    [12:00] 42 I1\n" ∧
    (on_series_value sds_repr "S2" ⟨"12:00", "I1", "42"⟩
      (on_series_inst "S1" ⟨"0", "cpu0", "I1"⟩ (World.start (series_data_init 0)))).dp.insts
      ≠ (on_series_inst "S1" ⟨"0", "cpu0", "I1"⟩ (World.start (series_data_init 0))).dp.insts := by
  decide

/-- C12 (amended): for every sampled-value event that causes no boundary
transition and whose value's own series id differs from the event's series
id, `on_series_value` looks the instance up by the value's series id: if
an instance with that series id is in the instance set, the line ends with
that instance's display name in double quotes; if none is, the line ends with
the raw value series id; and the instance set is not modified. -/
theorem on_series_value_instance (repr : sds → sds) (w : World) (sid : pmSID)
    (value : pmSeriesValue) (hcur : (series_next w sid).1 = false)
    (hdiff : value.series ≠ sid) :
    (value.series ∈ w.dp.insts.map (fun ip => ip.series) →
      ∃ ip ∈ w.dp.insts, ip.series = value.series ∧
        series_get_inst w.dp value.series = some ip ∧
        (on_series_value repr sid value w).stdout
          = w.stdout ++ ("    [" ++ value.timestamp ++ "] "
              ++ value_data repr (type_text w.dp.type) value.data
              ++ " \"" ++ ip.name ++ "\"\n")) ∧
    (value.series ∉ w.dp.insts.map (fun ip => ip.series) →
      (on_series_value repr sid value w).stdout
        = w.stdout ++ ("    [" ++ value.timestamp ++ "] "
            ++ value_data repr (type_text w.dp.type) value.data
            ++ " " ++ value.series ++ "\n")) ∧
    (on_series_value repr sid value w).dp.insts = w.dp.insts ∧
    (on_series_value repr sid value w).dp.iseries = w.dp.iseries := by
  have h0 : ¬ sdscmp value.series sid = 0 := fun h => hdiff ((sdscmp_eq_zero_iff _ _).1 h)
  rw [on_series_value_same repr w sid value hcur, if_neg h0]
  cases hg : series_get_inst w.dp value.series with
  | none =>
    have hnot : value.series ∉ w.dp.insts.map (fun ip => ip.series) :=
      (series_get_inst_isNone w.dp value.series).1 (by rw [hg]; rfl)
    exact ⟨fun hm => absurd hm hnot, fun _ => rfl, rfl, rfl⟩
  | some ip =>
    obtain ⟨hmem, hser⟩ := series_get_inst_some w.dp value.series ip hg
    refine ⟨fun _ => ⟨ip, hmem, hser, rfl, rfl⟩, ?_, rfl, rfl⟩
    intro hnot
    exact absurd (List.mem_map.2 ⟨ip, hmem, hser⟩) hnot

/-- On series "S1" with the instance "I1" named "cpu0": a value of "I1" ends
with "cpu0" in double quotes. -/
theorem on_series_value_instance_witness :
    (on_series_value sds_repr "S1" ⟨"12:00", "I1", "42"⟩
      (on_series_inst "S1" ⟨"0", "cpu0", "I1"⟩ (World.start (series_data_init 0)))).dp.insts
      = [⟨"0", "cpu0", "I1", []⟩] ∧
    (on_series_value sds_repr "S1" ⟨"12:00", "I2", "42"⟩
      (on_series_inst "S1" ⟨"0", "cpu0", "I1"⟩ (World.start (series_data_init 0)))).stdout
      = "    [12:00] 42 I2\n" :=
  ⟨(on_series_value_instance sds_repr
      (on_series_inst "S1" ⟨"0", "cpu0", "I1"⟩ (World.start (series_data_init 0)))
      "S1" ⟨"12:00", "I1", "42"⟩ (by decide) (by decide)).2.2.1.trans (by decide),
   ((on_series_value_instance sds_repr
      (on_series_inst "S1" ⟨"0", "cpu0", "I1"⟩ (World.start (series_data_init 0)))
      "S1" ⟨"12:00", "I2", "42"⟩ (by decide) (by decide)).2.1 (by decide)).trans (by decide)⟩

/-! ## Context names -/

/-- C13 (the code): `on_series_context` copies the event's source id into the
report state before it compares the two, so the comparison never sees a
difference and no header is printed, whatever source id was cached before.
At the failing input (cached source empty, event source "SRC1") the output
is only "    Context: host".  The other effects are as claimed: afterwards
the cached source is the event's, series and instances are untouched. -/
theorem on_series_context_no_header (w : World) (source : pmSID) (name : sds) :
    (on_series_context (some source) name w).stdout
      = w.stdout ++ (if flagTest w.dp.flags PMSERIES_NEED_COMMA then ", " ++ name
          else "    Context: " ++ name) ∧
    (on_series_context (some source) name w).dp.source = some source ∧
    (on_series_context (some source) name w).dp.series = w.dp.series ∧
    (on_series_context (some source) name w).dp.insts = w.dp.insts ∧
    ((World.start (series_data_init 0)).dp.source = some "" ∧
      (on_series_context (some "SRC1") "host" (World.start (series_data_init 0))).stdout
        = "    Context: host") := by
  have h0 : sdscmp source source = 0 := (sdscmp_eq_zero_iff _ _).2 rfl
  unfold on_series_context
  simp only [h0, bne_self_eq_false, Bool.false_eq_true, if_false]
  refine ⟨?_, ?_, ?_, ?_, rfl, by decide⟩
  · cases flagTest w.dp.flags PMSERIES_NEED_COMMA <;> simp [World.print]
  · split <;> rfl
  · split <;> rfl
  · split <;> rfl

/-! ## Label maps -/

theorem update_inst_series (series : sds) (la : List (Option series_label))
    (l : List series_inst) :
    (update_inst series (fun i => { i with labels := la }) l).map (fun ip => ip.series)
      = l.map (fun ip => ip.series) := by
  induction l with
  | nil => rfl
  | cons ip rest ih =>
    unfold update_inst
    split
    · rfl
    · simp only [List.map_cons, ih]

theorem update_inst_others (series : sds) (la : List (Option series_label))
    (l : List series_inst) (x : series_inst) (hx : x ∈ l) (hne : x.series ≠ series) :
    x ∈ update_inst series (fun i => { i with labels := la }) l := by
  induction l with
  | nil => cases hx
  | cons ip rest ih =>
    unfold update_inst
    rcases List.mem_cons.1 hx with rfl | hmem
    · have hb : ¬ (series == x.series) = true := by
        intro hb
        exact hne (beq_iff_eq.1 hb).symm
      rw [if_neg hb]
      exact List.mem_cons_self _ _
    · split
      · exact List.mem_cons_of_mem _ hmem
      · exact List.mem_cons_of_mem _ (ih hmem)

/-- In instance-scoped mode a label-value event touches only the label array
of the instance `series_get_inst` finds by the event's series id: the event
is dropped on a miss, and on a hit the output, the metric-level labels, the
current series and every instance with another series id stay as they are. -/
theorem on_series_labelmap_inst_frame (series : pmSID) (label : pmSeriesLabel) (w : World)
    (hmode : flagTest w.dp.flags PMSERIES_INSTLABELS = true) :
    (series ∉ w.dp.insts.map (fun ip => ip.series) →
      on_series_labelmap series label w = some w) ∧
    (∀ w2, on_series_labelmap series label w = some w2 →
      w2.stdout = w.stdout ∧ w2.stderr = w.stderr ∧ w2.dp.labels = w.dp.labels ∧
      w2.dp.series = w.dp.series ∧
      w2.dp.insts.map (fun ip => ip.series) = w.dp.insts.map (fun ip => ip.series) ∧
      ∀ x ∈ w.dp.insts, x.series ≠ series → x ∈ w2.dp.insts) := by
  unfold on_series_labelmap
  rw [if_pos hmode]
  cases hg : series_get_inst w.dp series with
  | none =>
    refine ⟨fun _ => rfl, ?_⟩
    intro w2 h2
    have : w = w2 := Option.some.inj h2
    subst this
    exact ⟨rfl, rfl, rfl, rfl, rfl, fun x hx _ => hx⟩
  | some ip =>
    refine ⟨?_, ?_⟩
    · intro hnot
      have hn := (series_get_inst_isNone w.dp series).2 hnot
      rw [hg] at hn
      cases hn
    · intro w2 h2
      cases ha : series_add_labels label.name label.value ip.labels with
      | none => simp only [ha] at h2; cases h2
      | some la =>
        simp only [ha] at h2
        have hw : w2 = { w with dp := { w.dp with
            insts := update_inst series (fun i => { i with labels := la }) w.dp.insts } } :=
          (Option.some.inj h2).symm
        subst hw
        exact ⟨rfl, rfl, rfl, rfl, update_inst_series series la w.dp.insts,
          fun x hx hne => update_inst_others series la w.dp.insts x hx hne⟩

/-- C14 (the code at the failing input): in instance-scoped mode, with the
instances "I1" and "I2" in the set, the first label a=1 for "I1" lands in
the label array of "I1" and nowhere else; the second label b=2 for "I1"
again touches only "I1", but its label array is then the new label followed
by an entry beyond the block, not a=1 followed by b=2; a third label for
"I1" is undefined; a label for the unknown "I3" is dropped without
output. -/
theorem on_series_labelmap_second_label :
    (on_series_labelmap "I1" ⟨"a", "1"⟩
      (deliver_insts "S1" [⟨"0", "cpu0", "I1"⟩, ⟨"1", "cpu1", "I2"⟩]
        (World.start (series_data_init PMSERIES_INSTLABELS)))).map (fun w => w.dp.insts)
      = some [⟨"0", "cpu0", "I1", [some ⟨"a", "1"⟩]⟩, ⟨"1", "cpu1", "I2", []⟩] ∧
    ((on_series_labelmap "I1" ⟨"a", "1"⟩
      (deliver_insts "S1" [⟨"0", "cpu0", "I1"⟩, ⟨"1", "cpu1", "I2"⟩]
        (World.start (series_data_init PMSERIES_INSTLABELS)))).bind
        (on_series_labelmap "I1" ⟨"b", "2"⟩)).map (fun w => w.dp.insts)
      = some [⟨"0", "cpu0", "I1", [some ⟨"b", "2"⟩, none]⟩, ⟨"1", "cpu1", "I2", []⟩] ∧
    (((on_series_labelmap "I1" ⟨"a", "1"⟩
      (deliver_insts "S1" [⟨"0", "cpu0", "I1"⟩, ⟨"1", "cpu1", "I2"⟩]
        (World.start (series_data_init PMSERIES_INSTLABELS)))).bind
        (on_series_labelmap "I1" ⟨"b", "2"⟩)).bind
        (on_series_labelmap "I1" ⟨"c", "3"⟩)) = none ∧
    on_series_labelmap "I3" ⟨"a", "1"⟩
      (deliver_insts "S1" [⟨"0", "cpu0", "I1"⟩, ⟨"1", "cpu1", "I2"⟩]
        (World.start (series_data_init PMSERIES_INSTLABELS)))
      = some (deliver_insts "S1" [⟨"0", "cpu0", "I1"⟩, ⟨"1", "cpu1", "I2"⟩]
        (World.start (series_data_init PMSERIES_INSTLABELS))) := by
  decide

/-! ## Metric labels -/

theorem labels_loop_length (s : sds) (l : List series_label) :
    s.length + 3 * l.length ≤ (labels_loop s l).length := by
  induction l generalizing s with
  | nil => simp [labels_loop]
  | cons lp rest ih =>
    rw [labels_loop]
    have h := ih (s ++ "\"" ++ lp.name ++ "\":" ++ lp.value)
    have hl : (s ++ "\"" ++ lp.name ++ "\":" ++ lp.value).length
        = s.length + 1 + lp.name.length + 2 + lp.value.length := by
      simp only [String.length_append]
      rfl
    rw [hl] at h
    simp only [List.length_cons]
    omega

theorem series_labels_sort_nil (s : sds) : (series_labels_sort s []).1 = "\x7b\x7d" := by
  have h : series_labels_sort s [] = series_labels_sort "" [] := rfl
  rw [h]
  decide

theorem series_labels_sort_length (s : sds) (l : List series_label) (hne : l ≠ []) :
    2 < sdslen (series_labels_sort s l).1 := by
  unfold series_labels_sort sdslen
  have hperm := qsort_perm series_labels_compare l
  have hlen : (qsort series_labels_compare l).length = l.length := hperm.length_eq
  have hpos : 0 < l.length := List.length_pos.2 hne
  have h := labels_loop_length "\x7b" (qsort series_labels_compare l)
  have h1 : ("\x7b" : String).length = 1 := by decide
  have h2 : ("\x7d" : String).length = 1 := by decide
  simp only [String.length_append, h2]
  rw [h1, hlen] at h
  omega

/-- What `series_metric_labels` prints for a readable label array. -/
theorem series_metric_labels_stdout (w : World) (ls : List series_label)
    (hv : valid_labels w.dp.labels = some ls)
    (hn : flagTest w.dp.flags PMSERIES_ONLY_NAMES = false) :
    ∃ w2, series_metric_labels w = some w2 ∧ w2.stderr = w.stderr ∧
      w2.stdout = w.stdout ++
        (if ls = [] then ""
         else "    labels " ++ (series_labels_sort "" ls).1 ++ "\n") := by
  unfold series_metric_labels
  simp only [hn, Bool.not_false, if_true, hv]
  by_cases hl : ls = []
  · subst hl
    have h2 : ¬ sdslen (series_labels_sort "" []).1 > 2 := by decide
    rw [if_neg h2, if_pos rfl]
    exact ⟨_, rfl, rfl, (String.append_empty _).symm⟩
  · have h2 : sdslen (series_labels_sort "" ls).1 > 2 := series_labels_sort_length "" ls hl
    rw [if_pos h2, if_neg hl]
    exact ⟨_, rfl, rfl, rfl⟩

/-- C17 (the code): in names-only mode `series_metric_labels` prints nothing;
otherwise, on a label array whose entries all lie inside the block, it
prints nothing for the empty set and the one line "    labels " with the
brace-delimited rendering and a newline for a set of at least one label
(leaving the array sorted); on an array with an entry beyond the block the
sort and the loop read outside the block, which is undefined.  The handlers
build a readable array only for at most one label: after the label-value
events a=1 and b=2 for "S1" the array is the label b=2 followed by an entry
beyond the block, and `series_metric_labels` is undefined instead of printing
the one line with both labels. -/
theorem series_metric_labels_line (w : World) :
    series_metric_labels w
      = (if flagTest w.dp.flags PMSERIES_ONLY_NAMES = true then some w
         else
          match valid_labels w.dp.labels with
          | none => none
          | some ls =>
            some { w with
              dp := { w.dp with labels := (series_labels_sort "" ls).2.map some },
              stdout := w.stdout ++
                (if ls = [] then ""
                 else "    labels " ++ (series_labels_sort "" ls).1 ++ "\n") }) ∧
    (deliver_labelmaps "S1" [⟨"a", "1"⟩, ⟨"b", "2"⟩]
        (World.start (series_data_init 0))).map (fun w => valid_labels w.dp.labels)
      = some none ∧
    (deliver_labelmaps "S1" [⟨"a", "1"⟩, ⟨"b", "2"⟩]
        (World.start (series_data_init 0))).bind series_metric_labels = none ∧
    ((deliver_labelmaps "S1" [⟨"a", "1"⟩] (World.start (series_data_init 0))).bind
        series_metric_labels).map (fun w => w.stdout)
      = some "\nS1\n    labels \x7b\"a\":1\x7d\n" ∧
    (series_metric_labels (World.start (series_data_init 0))).map (fun w => w.stdout)
      = some "" ∧
    ((deliver_labelmaps "S1" [⟨"a", "1"⟩]
        (World.start (series_data_init PMSERIES_ONLY_NAMES))).bind
        series_metric_labels).map (fun w => w.stdout)
      = some "\nS1\n" := by
  refine ⟨?_, by decide, by decide, by decide, by decide, by decide⟩
  unfold series_metric_labels
  cases hn : flagTest w.dp.flags PMSERIES_ONLY_NAMES
  · simp only [Bool.not_false, if_true, Bool.false_eq_true, if_false]
    cases hv : valid_labels w.dp.labels with
    | none => rfl
    | some ls =>
      by_cases hl : ls = []
      · subst hl
        have h2 : ¬ sdslen (series_labels_sort "" []).1 > 2 := by decide
        simp only [h2, if_false, if_true, String.append_empty]
      · have h2 : sdslen (series_labels_sort "" ls).1 > 2 := series_labels_sort_length "" ls hl
        simp only [h2, if_true, hl, if_false, World.print]
  · simp only [Bool.not_true, Bool.false_eq_true, if_false, if_true]

/-! ## Labels across a transition -/

theorem series_next_labels_eq (w : World) (sid : sds) :
    (series_next w sid).2.dp.labels = w.dp.labels := by
  by_cases h : strncmp w.dp.series sid (sdslen sid) ≠ 0
  · rw [series_next_true w sid h]
  · rw [series_next_false w sid (not_not.1 h)]

theorem series_next_flagTest_other (w : World) (sid : sds) (k : Nat)
    (h1 : k &&& PMSERIES_NEED_COMMA = 0) (h2 : k &&& PMSERIES_NEED_EOL = 0) :
    flagTest (series_next w sid).2.dp.flags k = flagTest w.dp.flags k := by
  by_cases h : strncmp w.dp.series sid (sdslen sid) ≠ 0
  · rw [series_next_true w sid h]
    exact flagTest_after_transition w.dp.flags k h1 h2
  · rw [series_next_false w sid (not_not.1 h)]

/-- Counterexample to C15 as stated: one label a=1 is accumulated for series
"SA" in metric-level mode; the boundary tracker then detects the transition
to "SB", and the label set still holds a=1, which `series_metric_labels`
prints after the transition. -/
theorem labels_survive_transition_counterexample :
    (on_series_labelmap "SA" ⟨"a", "1"⟩ (World.start (series_data_init 0))).map
        (fun w => ((series_next w "SB").1, (series_next w "SB").2.dp.series,
          (series_next w "SB").2.dp.labels))
      = some (true, "SB", [some ⟨"a", "1"⟩]) ∧
    ((on_series_labelmap "SA" ⟨"a", "1"⟩ (World.start (series_data_init 0))).bind
        (fun w => series_metric_labels (series_next w "SB").2)).map (fun w => w.stdout)
      = some "\nSA\n    labels \x7b\"a\":1\x7d\n" := by
  decide

/-- C15 (amended): the boundary tracker leaves the metric-level label set as
it is, with or without a transition: the labels accumulated for a series A
are still in the Report State after the transition to B, and
`series_metric_labels` then prints them; the label set is empty in a freshly
initialised Report State. -/
theorem series_next_keeps_labels (w : World) (sid : sds) (flags : Nat)
    (ls : List series_label) :
    (series_next w sid).2.dp.labels = w.dp.labels ∧
    (series_data_init flags).labels = [] ∧
    (valid_labels w.dp.labels = some ls →
      flagTest w.dp.flags PMSERIES_ONLY_NAMES = false →
      ∃ w2, series_metric_labels (series_next w sid).2 = some w2 ∧
        w2.stdout = (series_next w sid).2.stdout ++
          (if ls = [] then ""
           else "    labels " ++ (series_labels_sort "" ls).1 ++ "\n")) := by
  refine ⟨series_next_labels_eq w sid, rfl, ?_⟩
  intro hv hn
  have hv2 : valid_labels (series_next w sid).2.dp.labels = some ls := by
    rw [series_next_labels_eq]; exact hv
  have hn2 : flagTest (series_next w sid).2.dp.flags PMSERIES_ONLY_NAMES = false := by
    rw [series_next_flagTest_other w sid PMSERIES_ONLY_NAMES (by decide) (by decide)]
    exact hn
  obtain ⟨w2, h1, _, h3⟩ := series_metric_labels_stdout (series_next w sid).2 ls hv2 hn2
  exact ⟨w2, h1, h3⟩

/-- The label a=1 held for series "SA" is printed after the transition to
"SB". -/
theorem series_next_keeps_labels_witness :
    ∃ w2, series_metric_labels
        (series_next
          { dp := { series_data_init 0 with series := "SA", labels := [some ⟨"a", "1"⟩] },
            stdout := "", stderr := "", exitsts := 0 } "SB").2 = some w2 ∧
      w2.stdout = "    labels \x7b\"a\":1\x7d\n" := by
  obtain ⟨w2, h1, h2⟩ := (series_next_keeps_labels
    { dp := { series_data_init 0 with series := "SA", labels := [some ⟨"a", "1"⟩] },
      stdout := "", stderr := "", exitsts := 0 } "SB" 0 [⟨"a", "1"⟩]).2.2
    (by decide) (by decide)
  exact ⟨w2, h1, h2.trans (by decide)⟩

/-! ## Completion -/

theorem printIf_dp (w : World) (c : Bool) (t : String) : (w.printIf c t).dp = w.dp := by
  unfold World.printIf
  split <;> rfl

theorem on_series_desc_type (api : Pmapi) (series : pmSID) (desc : pmSeriesDesc) (w : World) :
    (on_series_desc api series desc w).dp.type
      = if (series_next w series).1 then some desc.type else (series_next w series).2.dp.type := by
  unfold on_series_desc
  simp only [printIf_dp]
  split <;> rfl

theorem on_series_value_type (repr : sds → sds) (sid : pmSID) (value : pmSeriesValue)
    (w : World) :
    (on_series_value repr sid value w).dp.type
      = some (type_text (series_next w sid).2.dp.type) := by
  have hp : ∀ (c : Bool) (v : World) (t : String),
      (if c then v.print t else v).dp.type = v.dp.type := by
    intro c v t
    split <;> rfl
  unfold on_series_value
  simp only
  split
  · exact congrArg (fun x => some (type_text x)) (hp _ _ _)
  · split
    · exact congrArg (fun x => some (type_text x)) (hp _ _ _)
    · exact congrArg (fun x => some (type_text x)) (hp _ _ _)

/-- Counterexample to C20 as stated: the state is on series "S1" with no value
type yet (as `series_data_report` leaves it after its own boundary check); the
descriptor event for "S1" with type "STRING" causes no transition and the
value type stays unset. -/
theorem on_series_desc_type_counterexample :
    (series_next (World.start (series_data_init PMSERIES_OPT_DESC)) "S1").2.dp.type = none ∧
    (on_series_desc libpcp "S1" ⟨"none", "60.0.1", "instant", "src", "STRING", "count"⟩
      (series_next (World.start (series_data_init PMSERIES_OPT_DESC)) "S1").2).dp.type = none ∧
    (on_series_desc libpcp "S1" ⟨"none", "60.0.1", "instant", "src", "STRING", "count"⟩
      (series_next (World.start (series_data_init PMSERIES_OPT_DESC)) "S1").2).dp.type
      ≠ some "STRING" := by
  decide

/-- C20 (amended): after a descriptor event that caused a boundary transition
the Report State's value type equals the descriptor's type string; a
descriptor event for the current series (no transition) leaves the value type
as it was; `on_series_value` leaves a value type that is already set
unchanged when its event causes no transition (an unset type becomes the
empty text), and after a transition the boundary tracker has cleared it. -/
theorem sticky_value_type (api : Pmapi) (repr : sds → sds) (series : pmSID)
    (desc : pmSeriesDesc) (value : pmSeriesValue) (w : World) :
    ((series_next w series).1 = true →
      (on_series_desc api series desc w).dp.type = some desc.type) ∧
    ((series_next w series).1 = false →
      (on_series_desc api series desc w).dp.type = w.dp.type) ∧
    ((series_next w series).1 = false → ∀ t, w.dp.type = some t →
      (on_series_value repr series value w).dp.type = some t) ∧
    ((series_next w series).1 = false → w.dp.type = none →
      (on_series_value repr series value w).dp.type = some "") ∧
    ((series_next w series).1 = true →
      (on_series_value repr series value w).dp.type = some "") := by
  refine ⟨?_, ?_, ?_, ?_, ?_⟩
  · intro h
    rw [on_series_desc_type, h, if_pos rfl]
  · intro h
    rw [on_series_desc_type, h, series_next_eq_of_false w series h]
    rfl
  · intro h t ht
    rw [on_series_value_type, series_next_eq_of_false w series h]
    show some (type_text w.dp.type) = some t
    rw [ht]
    rfl
  · intro h ht
    rw [on_series_value_type, series_next_eq_of_false w series h]
    show some (type_text w.dp.type) = some ""
    rw [ht]
    rfl
  · intro h
    rw [series_next_fst] at h
    have hne : strncmp w.dp.series series (sdslen series) ≠ 0 := by simpa using h
    rw [on_series_value_type, series_next_true w series hne]
    show some (type_text (w.dp.type.map (fun _ => ""))) = some ""
    cases w.dp.type <;> rfl

/-- A descriptor of type "STRING" on a new series sets the value type; a value
event for that series then leaves it as it is. -/
theorem sticky_value_type_witness :
    (on_series_desc libpcp "S1" ⟨"none", "60.0.1", "instant", "src", "STRING", "count"⟩
      (World.start (series_data_init PMSERIES_OPT_DESC))).dp.type = some "STRING" ∧
    (on_series_value sds_repr "S1" ⟨"12:00", "S1", "abc"⟩
      (on_series_desc libpcp "S1" ⟨"none", "60.0.1", "instant", "src", "STRING", "count"⟩
        (World.start (series_data_init PMSERIES_OPT_DESC)))).dp.type = some "STRING" :=
  ⟨(sticky_value_type libpcp sds_repr "S1"
      ⟨"none", "60.0.1", "instant", "src", "STRING", "count"⟩ ⟨"12:00", "S1", "abc"⟩
      (World.start (series_data_init PMSERIES_OPT_DESC))).1 (by decide),
   (sticky_value_type libpcp sds_repr "S1"
      ⟨"none", "60.0.1", "instant", "src", "STRING", "count"⟩ ⟨"12:00", "S1", "abc"⟩
      (on_series_desc libpcp "S1" ⟨"none", "60.0.1", "instant", "src", "STRING", "count"⟩
        (World.start (series_data_init PMSERIES_OPT_DESC)))).2.2.1 (by decide) "STRING"
      (by decide)⟩

/-! ## Command line -/

theorem flagTest_flagSet (f m k : Nat) :
    flagTest (flagSet f m) k = (flagTest f k || flagTest m k) := by
  rw [Bool.eq_iff_iff, Bool.or_eq_true, flagTest_eq_true_iff, flagTest_eq_true_iff,
    flagTest_eq_true_iff]
  constructor
  · rintro ⟨i, h1, h2⟩
    rw [testBit_flagSet, Bool.or_eq_true] at h1
    rcases h1 with h1 | h1
    · exact Or.inl ⟨i, h1, h2⟩
    · exact Or.inr ⟨i, h1, h2⟩
  · rintro (⟨i, h1, h2⟩ | ⟨i, h1, h2⟩)
    · exact ⟨i, by rw [testBit_flagSet, h1]; rfl, h2⟩
    · exact ⟨i, by rw [testBit_flagSet, h1, Bool.or_true], h2⟩

theorem flagTest_flagSet_of_true (f m k : Nat) (h : flagTest f k = true) :
    flagTest (flagSet f m) k = true := by
  rw [flagTest_flagSet, h, Bool.true_or]

theorem flagTest_ite_flagSet_of_true (c : Prop) [Decidable c] (f m k : Nat)
    (h : flagTest f k = true) :
    flagTest (if c then flagSet f m else f) k = true := by
  split
  · exact flagTest_flagSet_of_true f m k h
  · exact h

/-- An option never clears a flag. -/
theorem main_option_mono (c : Char) (st : Nat × Nat) (k : Nat)
    (h : flagTest st.1 k = true) : flagTest (main_option c st).1 k = true := by
  have key : ∀ (p : Prop) [Decidable p] (a b : Nat × Nat),
      flagTest a.1 k = true → flagTest b.1 k = true →
      flagTest (if p then a else b).1 k = true := by
    intro p _ a b ha hb
    split <;> assumption
  unfold main_option
  repeat' (first
    | exact h
    | exact flagTest_flagSet_of_true _ _ _ h
    | apply key)

theorem main_options_foldl_mono (l : List Char) (st : Nat × Nat) (k : Nat)
    (h : flagTest st.1 k = true) :
    flagTest (l.foldl (fun st c => main_option c st) st).1 k = true := by
  induction l generalizing st with
  | nil => exact h
  | cons c rest ih => exact ih _ (main_option_mono c st k h)

/-- A flag that an option character sets is set after the whole loop. -/
theorem main_options_foldl_mem (l : List Char) (st : Nat × Nat) (c : Char) (k : Nat)
    (hc : c ∈ l) (hset : ∀ st0 : Nat × Nat, flagTest (main_option c st0).1 k = true) :
    flagTest (l.foldl (fun st c => main_option c st) st).1 k = true := by
  induction l generalizing st with
  | nil => cases hc
  | cons d rest ih =>
    rcases List.mem_cons.1 hc with rfl | hmem
    · exact main_options_foldl_mono rest _ k (hset st)
    · exact ih _ hmem

theorem main_options_mem (optchars : List Char) (errors : Nat) (c : Char) (k : Nat)
    (hc : c ∈ optchars) (hset : ∀ st0 : Nat × Nat, flagTest (main_option c st0).1 k = true) :
    flagTest (main_options optchars errors).1 k = true :=
  main_options_foldl_mem optchars (0, errors) c k hc hset

theorem main_option_L (st : Nat × Nat) :
    flagTest (main_option 'L' st).1 PMSERIES_OPT_LOAD = true := by
  have h : (main_option 'L' st).1 = flagSet st.1 PMSERIES_OPT_LOAD := by
    simp [main_option]
  rw [h, flagTest_flagSet]
  have : flagTest PMSERIES_OPT_LOAD PMSERIES_OPT_LOAD = true := by decide
  rw [this, Bool.or_true]

theorem main_option_d (st : Nat × Nat) :
    flagTest (main_option 'd' st).1 PMSERIES_OPT_DESC = true := by
  have h : (main_option 'd' st).1 = flagSet st.1 PMSERIES_OPT_DESC := by
    simp [main_option]
  rw [h, flagTest_flagSet]
  have : flagTest PMSERIES_OPT_DESC PMSERIES_OPT_DESC = true := by decide
  rw [this, Bool.or_true]

theorem main_option_i (st : Nat × Nat) :
    flagTest (main_option 'i' st).1 PMSERIES_OPT_INSTS = true := by
  have h : (main_option 'i' st).1 = flagSet st.1 PMSERIES_OPT_INSTS := by
    simp [main_option]
  rw [h, flagTest_flagSet]
  have : flagTest PMSERIES_OPT_INSTS PMSERIES_OPT_INSTS = true := by decide
  rw [this, Bool.or_true]

theorem main_option_l (st : Nat × Nat) :
    flagTest (main_option 'l' st).1 PMSERIES_OPT_LABELS = true := by
  have h : (main_option 'l' st).1 = flagSet st.1 PMSERIES_OPT_LABELS := by
    simp [main_option]
  rw [h, flagTest_flagSet]
  have : flagTest PMSERIES_OPT_LABELS PMSERIES_OPT_LABELS = true := by decide
  rw [this, Bool.or_true]

theorem main_option_m (st : Nat × Nat) :
    flagTest (main_option 'm' st).1 PMSERIES_OPT_METRIC = true := by
  have h : (main_option 'm' st).1 = flagSet st.1 PMSERIES_OPT_METRIC := by
    simp [main_option]
  rw [h, flagTest_flagSet]
  have : flagTest PMSERIES_OPT_METRIC PMSERIES_OPT_METRIC = true := by decide
  rw [this, Bool.or_true]

theorem main_option_a (st : Nat × Nat) :
    flagTest (main_option 'a' st).1 PMSERIES_OPT_ALL = true := by
  have h : (main_option 'a' st).1
      = flagSet st.1 (PMSERIES_OPT_ALL ||| PMSERIES_SOURCEID ||| PMSERIES_SERIESID) := by
    simp [main_option]
  rw [h, flagTest_flagSet]
  have : flagTest (PMSERIES_OPT_ALL ||| PMSERIES_SOURCEID ||| PMSERIES_SERIESID)
      PMSERIES_OPT_ALL = true := by decide
  rw [this, Bool.or_true]

theorem flagTest_META_OPTS (f : Nat) :
    flagTest f PMSERIES_META_OPTS
      = (flagTest f PMSERIES_OPT_DESC || flagTest f PMSERIES_OPT_INSTS
          || flagTest f PMSERIES_OPT_LABELS || flagTest f PMSERIES_OPT_METRIC) := by
  unfold PMSERIES_META_OPTS
  rw [flagTest_or, flagTest_or, flagTest_or]

/-- The error count never decreases in the validation, and the first check
adds one when load meets a metadata or source option. -/
theorem main_validate_errors (st : Nat × Nat) (noargs : Bool) :
    (if flagTest (if flagTest st.1 PMSERIES_OPT_ALL then flagSet st.1 PMSERIES_META_OPTS
          else st.1) PMSERIES_OPT_LOAD
        && flagTest (if flagTest st.1 PMSERIES_OPT_ALL then flagSet st.1 PMSERIES_META_OPTS
          else st.1) (PMSERIES_META_OPTS ||| PMSERIES_OPT_SOURCE)
      then st.2 + 1 else st.2) ≤ (main_validate st noargs).2 := by
  have step : ∀ (c : Bool) (e : Nat), e ≤ (if c then e + 1 else e) := by
    intro c e
    split <;> omega
  unfold main_validate
  simp only
  exact Nat.le_trans (Nat.le_trans (step _ _) (step _ _)) (step _ _)

/-- C18: for every sequence of options that contains load (`-L`) together with
at least one of the metadata options `-d`, `-i`, `-l`, `-m` or `-a`, whatever
other options accompany them, the validation in `main` counts at least one
error, so `main` leaves through the usage message and no request is
dispatched. -/
theorem load_with_metadata_rejected (optchars : List Char) (errors : Nat)
    (noargs exitflag tty : Bool) (hL : 'L' ∈ optchars)
    (hM : 'd' ∈ optchars ∨ 'i' ∈ optchars ∨ 'l' ∈ optchars ∨ 'm' ∈ optchars
      ∨ 'a' ∈ optchars) :
    1 ≤ (main_validate (main_options optchars errors) noargs).2 ∧
    main_dispatch optchars errors noargs exitflag tty = none := by
  have hload : flagTest (main_options optchars errors).1 PMSERIES_OPT_LOAD = true :=
    main_options_mem optchars errors 'L' _ hL main_option_L
  have hmeta : flagTest (if flagTest (main_options optchars errors).1 PMSERIES_OPT_ALL
      then flagSet (main_options optchars errors).1 PMSERIES_META_OPTS
      else (main_options optchars errors).1) PMSERIES_META_OPTS = true := by
    rcases hM with h | h | h | h | h
    · apply flagTest_ite_flagSet_of_true
      rw [flagTest_META_OPTS, main_options_mem optchars errors 'd' _ h main_option_d]
      rfl
    · apply flagTest_ite_flagSet_of_true
      rw [flagTest_META_OPTS, main_options_mem optchars errors 'i' _ h main_option_i]
      simp
    · apply flagTest_ite_flagSet_of_true
      rw [flagTest_META_OPTS, main_options_mem optchars errors 'l' _ h main_option_l]
      simp
    · apply flagTest_ite_flagSet_of_true
      rw [flagTest_META_OPTS, main_options_mem optchars errors 'm' _ h main_option_m]
      simp
    · have hall : flagTest (main_options optchars errors).1 PMSERIES_OPT_ALL = true :=
        main_options_mem optchars errors 'a' _ h main_option_a
      rw [hall, if_pos rfl, flagTest_flagSet]
      have : flagTest PMSERIES_META_OPTS PMSERIES_META_OPTS = true := by decide
      rw [this, Bool.or_true]
  have hload1 : flagTest (if flagTest (main_options optchars errors).1 PMSERIES_OPT_ALL
      then flagSet (main_options optchars errors).1 PMSERIES_META_OPTS
      else (main_options optchars errors).1) PMSERIES_OPT_LOAD = true :=
    flagTest_ite_flagSet_of_true _ _ _ _ hload
  have hge := main_validate_errors (main_options optchars errors) noargs
  rw [hload1, flagTest_or, hmeta] at hge
  simp only [Bool.true_or, Bool.and_self, if_true] at hge
  have hpos : 1 ≤ (main_validate (main_options optchars errors) noargs).2 := by omega
  refine ⟨hpos, ?_⟩
  unfold main_dispatch
  have hne : (main_validate (main_options optchars errors) noargs).2 ≠ 0 := by omega
  simp [hne]

/-- The options `-L -d`: one error, no request. -/
theorem load_with_metadata_rejected_witness :
    main_dispatch ['L', 'd'] 0 false false false = none :=
  (load_with_metadata_rejected ['L', 'd'] 0 false false false (by decide)
    (Or.inl (by decide))).2

theorem main_validate_fst (st : Nat × Nat) (noargs : Bool) :
    (main_validate st noargs).1
      = main_flags_default (main_flags_need (main_flags_all st.1)) := rfl

theorem ite_succ_eq_zero (c : Prop) [Decidable c] (e : Nat)
    (h : (if c then e + 1 else e) = 0) : ¬ c ∧ e = 0 := by
  by_cases hc : c
  · rw [if_pos hc] at h
    omega
  · rw [if_neg hc] at h
    exact ⟨hc, h⟩

/-- A validation without error: none of the three conflicts holds on the flags
after the `-a` normalisation, and no error was counted before. -/
theorem main_validate_no_error (st : Nat × Nat) (noargs : Bool)
    (h : (main_validate st noargs).2 = 0) :
    st.2 = 0 ∧
    ¬ ((flagTest (main_flags_all st.1) PMSERIES_OPT_LOAD
        && flagTest (main_flags_all st.1) (PMSERIES_META_OPTS ||| PMSERIES_OPT_SOURCE)) = true) ∧
    ¬ ((flagTest (main_flags_all st.1) PMSERIES_OPT_LOAD
        && flagTest (main_flags_all st.1) PMSERIES_OPT_QUERY) = true) ∧
    ¬ ((flagTest (main_flags_all st.1) PMSERIES_OPT_QUERY
        && flagTest (main_flags_all st.1) (PMSERIES_META_OPTS ||| PMSERIES_OPT_SOURCE)) = true) ∧
    ¬ ((noargs && flagTest (main_validate st noargs).1 PMSERIES_OPT_QUERY) = true) := by
  have h4 := ite_succ_eq_zero _ _ h
  have h3 := ite_succ_eq_zero _ _ h4.2
  have h2 := ite_succ_eq_zero _ _ h3.2
  have h1 := ite_succ_eq_zero _ _ h2.2
  exact ⟨h1.2, h1.1, h2.1, h3.1, h4.1⟩

theorem flagTest_ite_flagSet_disjoint (c : Prop) [Decidable c] (f m k : Nat)
    (h : flagTest m k = false) :
    flagTest (if c then flagSet f m else f) k = flagTest f k := by
  split
  · rw [flagTest_flagSet, h, Bool.or_false]
  · rfl

/-- The derived lookup bits do not touch a mask disjoint from them. -/
theorem main_flags_need_test (f1 k : Nat) (h1 : flagTest PMSERIES_NEED_DESCS k = false)
    (h2 : flagTest PMSERIES_NEED_INSTS k = false) :
    flagTest (main_flags_need f1) k = flagTest f1 k := by
  unfold main_flags_need
  simp only
  rw [flagTest_ite_flagSet_disjoint _ _ _ _ h2, flagTest_ite_flagSet_disjoint _ _ _ _ h1,
    flagTest_ite_flagSet_disjoint _ _ _ _ h1]

/-- The default adds at most the query bit. -/
theorem main_flags_default_test (f4 k : Nat) (h : flagTest PMSERIES_OPT_QUERY k = false) :
    flagTest (main_flags_default f4) k = flagTest f4 k := by
  unfold main_flags_default
  split
  · exact flagTest_ite_flagSet_disjoint _ _ _ _ h
  · rfl

/-- The query bit is set after the default only if it was set before or no
mode option was given. -/
theorem main_flags_default_query (f4 : Nat)
    (h : flagTest (main_flags_default f4) PMSERIES_OPT_QUERY = true) :
    flagTest f4 PMSERIES_OPT_QUERY = true ∨
      flagTest f4 (PMSERIES_META_OPTS ||| PMSERIES_OPT_LOAD ||| PMSERIES_OPT_SOURCE) = false := by
  unfold main_flags_default at h
  cases hm : flagTest f4 (PMSERIES_META_OPTS ||| PMSERIES_OPT_LOAD ||| PMSERIES_OPT_SOURCE)
  · exact Or.inr rfl
  · left
    rw [hm] at h
    exact h

/-- For a validated flag set the modes exclude one another: load comes with
neither query, source nor metadata options, and query with neither source nor
metadata options. -/
theorem main_validate_exclusive (st : Nat × Nat) (noargs : Bool)
    (h : (main_validate st noargs).2 = 0) :
    (flagTest (main_validate st noargs).1 PMSERIES_OPT_LOAD = true →
      flagTest (main_validate st noargs).1 PMSERIES_OPT_QUERY = false ∧
      flagTest (main_validate st noargs).1 PMSERIES_OPT_SOURCE = false ∧
      flagTest (main_validate st noargs).1 PMSERIES_META_OPTS = false) ∧
    (flagTest (main_validate st noargs).1 PMSERIES_OPT_QUERY = true →
      flagTest (main_validate st noargs).1 PMSERIES_OPT_SOURCE = false ∧
      flagTest (main_validate st noargs).1 PMSERIES_META_OPTS = false) := by
  obtain ⟨_, c1, c2, c3, _⟩ := main_validate_no_error st noargs h
  have hL : flagTest (main_validate st noargs).1 PMSERIES_OPT_LOAD
      = flagTest (main_flags_all st.1) PMSERIES_OPT_LOAD := by
    rw [main_validate_fst, main_flags_default_test _ _ (by decide),
      main_flags_need_test _ _ (by decide) (by decide)]
  have hS : flagTest (main_validate st noargs).1 PMSERIES_OPT_SOURCE
      = flagTest (main_flags_all st.1) PMSERIES_OPT_SOURCE := by
    rw [main_validate_fst, main_flags_default_test _ _ (by decide),
      main_flags_need_test _ _ (by decide) (by decide)]
  have hM : flagTest (main_validate st noargs).1 PMSERIES_META_OPTS
      = flagTest (main_flags_all st.1) PMSERIES_META_OPTS := by
    rw [main_validate_fst, main_flags_default_test _ _ (by decide),
      main_flags_need_test _ _ (by decide) (by decide)]
  have hQ : flagTest (main_validate st noargs).1 PMSERIES_OPT_QUERY = true →
      flagTest (main_flags_all st.1) PMSERIES_OPT_QUERY = true ∨
        (flagTest (main_flags_all st.1) PMSERIES_META_OPTS = false ∧
         flagTest (main_flags_all st.1) PMSERIES_OPT_LOAD = false ∧
         flagTest (main_flags_all st.1) PMSERIES_OPT_SOURCE = false) := by
    intro hq
    rw [main_validate_fst] at hq
    rcases main_flags_default_query _ hq with h1 | h1
    · left
      rw [main_flags_need_test _ _ (by decide) (by decide)] at h1
      exact h1
    · right
      rw [main_flags_need_test _ _ (by decide) (by decide), flagTest_or, flagTest_or] at h1
      simp only [Bool.or_eq_false_iff] at h1
      exact ⟨h1.1.1, h1.1.2, h1.2⟩
  rw [flagTest_or] at c1 c3
  rw [hL, hS, hM]
  constructor
  · intro hl
    rw [hl] at c1 c2
    refine ⟨?_, ?_, ?_⟩
    · cases hq : flagTest (main_validate st noargs).1 PMSERIES_OPT_QUERY
      · rfl
      · rcases hQ hq with h1 | ⟨_, h2, _⟩
        · rw [h1] at c2
          exact absurd rfl c2
        · rw [hl] at h2
          cases h2
    · cases hs : flagTest (main_flags_all st.1) PMSERIES_OPT_SOURCE
      · rfl
      · rw [hs] at c1
        simp at c1
    · cases hm : flagTest (main_flags_all st.1) PMSERIES_META_OPTS
      · rfl
      · rw [hm] at c1
        simp at c1
  · intro hq
    rcases hQ hq with h1 | ⟨h2, _, h3⟩
    · rw [h1] at c3
      constructor
      · cases hs : flagTest (main_flags_all st.1) PMSERIES_OPT_SOURCE
        · rfl
        · rw [hs] at c3
          simp at c3
      · cases hm : flagTest (main_flags_all st.1) PMSERIES_META_OPTS
        · rfl
        · rw [hm] at c3
          simp at c3
    · exact ⟨h3, h2⟩

/-- With mutually exclusive mode bits the request is decided by the bits
alone, whatever the order of the tests. -/
theorem request_of_bits (l q s m : Bool)
    (h1 : l = true → q = false ∧ s = false ∧ m = false)
    (h2 : q = true → s = false ∧ m = false) :
    ((if l then request.load else if q then request.query
        else if s && !m then request.source else request.report) = request.load
      ↔ l = true) ∧
    ((if l then request.load else if q then request.query
        else if s && !m then request.source else request.report) = request.query
      ↔ q = true) ∧
    ((if l then request.load else if q then request.query
        else if s && !m then request.source else request.report) = request.source
      ↔ (s = true ∧ m = false)) ∧
    ((if l then request.load else if q then request.query
        else if s && !m then request.source else request.report) = request.report
      ↔ (l = false ∧ q = false ∧ ¬ (s = true ∧ m = false))) := by
  revert h1 h2
  cases l <;> cases q <;> cases s <;> cases m <;> decide

theorem main_final_flags_test (optchars : List Char) (errors : Nat) (noargs tty : Bool)
    (k : Nat) (h : flagTest PMSERIES_COLOUR k = false) :
    flagTest (main_final_flags optchars errors noargs tty) k
      = flagTest (main_validate (main_options optchars errors) noargs).1 k := by
  unfold main_final_flags
  exact flagTest_ite_flagSet_disjoint _ _ _ _ h

theorem main_dispatch_some (optchars : List Char) (errors : Nat) (noargs exitflag tty : Bool)
    (r : request) (h : main_dispatch optchars errors noargs exitflag tty = some r) :
    (main_validate (main_options optchars errors) noargs).2 = 0 ∧ exitflag = false ∧
    r = pmseries_request (main_final_flags optchars errors noargs tty) := by
  unfold main_dispatch at h
  simp only at h
  by_cases hc : ((main_validate (main_options optchars errors) noargs).2 ≠ 0 || exitflag) = true
  · rw [if_pos hc] at h
    cases h
  · rw [if_neg hc] at h
    have hr : pmseries_request (main_final_flags optchars errors noargs tty) = r :=
      Option.some.inj h
    simp only [Bool.or_eq_true, decide_eq_true_eq, not_or, ne_eq, not_not] at hc
    refine ⟨hc.1, ?_, hr.symm⟩
    cases exitflag
    · rfl
    · exact absurd rfl hc.2

theorem only_bits_flagSet_shift (A : List Nat) (f k : Nat) (h : only_bits A f) (hk : k ∈ A) :
    only_bits A (flagSet f (1 <<< k)) := by
  intro i hi
  rw [testBit_flagSet, testBit_shift, Bool.or_eq_true] at hi
  rcases hi with hi | hi
  · exact h i hi
  · have hki : k = i := of_decide_eq_true hi
    rw [← hki]
    exact hk

theorem flagTest_of_only_bits (A : List Nat) (f k : Nat) (h : only_bits A f) (hk : k ∉ A) :
    flagTest f (1 <<< k) = false := by
  rw [flagTest_shift]
  cases hb : f.testBit k
  · rfl
  · exact absurd (h k hb) hk

theorem main_options_only_bits (A : List Nat) (optchars : List Char) (errors : Nat)
    (hopt : ∀ c ∈ optchars, ∀ st : Nat × Nat, only_bits A st.1 →
      only_bits A (main_option c st).1 ∧ (main_option c st).2 = st.2) :
    only_bits A (main_options optchars errors).1 ∧ (main_options optchars errors).2 = errors := by
  have gen : ∀ (l : List Char) (st : Nat × Nat), (∀ c ∈ l, c ∈ optchars) → only_bits A st.1 →
      only_bits A (l.foldl (fun st c => main_option c st) st).1 ∧
      (l.foldl (fun st c => main_option c st) st).2 = st.2 := by
    intro l
    induction l with
    | nil => intro st _ h; exact ⟨h, rfl⟩
    | cons c rest ih =>
      intro st hsub h
      obtain ⟨h1, h2⟩ := hopt c (hsub c (List.mem_cons_self _ _)) st h
      obtain ⟨h3, h4⟩ := ih (main_option c st)
        (fun d hd => hsub d (List.mem_cons_of_mem _ hd)) h1
      exact ⟨h3, h4.trans h2⟩
  have h0 : only_bits A ((0, errors) : Nat × Nat).1 := by
    intro i hi
    rw [Nat.zero_testBit] at hi
    cases hi
  exact gen optchars (0, errors) (fun c hc => hc) h0

/-- The options that go with the default query mode keep the flags within
the bits of `-F`, `-n` and `-q`. -/
theorem query_option_bits (c : Char)
    (hc : c = 'F' ∨ c = 'n' ∨ c = 'h' ∨ c = 'p' ∨ c = 'q') (st : Nat × Nat)
    (h : only_bits [1, 9, 23] st.1) :
    only_bits [1, 9, 23] (main_option c st).1 ∧ (main_option c st).2 = st.2 := by
  rcases hc with rfl | rfl | rfl | rfl | rfl
  · have e : main_option 'F' st = (flagSet st.1 PMSERIES_FAST, st.2) := by simp [main_option]
    rw [e]
    exact ⟨only_bits_flagSet_shift _ _ 1 h (by decide), rfl⟩
  · have e : main_option 'n' st = (flagSet st.1 PMSERIES_ONLY_NAMES, st.2) := by
      simp [main_option]
    rw [e]
    exact ⟨only_bits_flagSet_shift _ _ 9 h (by decide), rfl⟩
  · have e : main_option 'h' st = st := by simp [main_option]
    rw [e]
    exact ⟨h, rfl⟩
  · have e : main_option 'p' st = st := by simp [main_option]
    rw [e]
    exact ⟨h, rfl⟩
  · have e : main_option 'q' st = (flagSet st.1 PMSERIES_OPT_QUERY, st.2) := by
      simp [main_option]
    rw [e]
    exact ⟨only_bits_flagSet_shift _ _ 23 h (by decide), rfl⟩

/-- Without mode options and without `-M`, `-I`, `-S`, `-s` the validation
adds the query bit and counts an error only for a missing query string. -/
theorem main_validate_default (st : Nat × Nat) (noargs : Bool)
    (h : only_bits [1, 9, 23] st.1) :
    main_validate st noargs
      = (flagSet st.1 PMSERIES_OPT_QUERY, if noargs then st.2 + 1 else st.2) := by
  have tALL : flagTest st.1 PMSERIES_OPT_ALL = false := flagTest_of_only_bits _ _ 16 h (by decide)
  have tLOAD : flagTest st.1 PMSERIES_OPT_LOAD = false :=
    flagTest_of_only_bits _ _ 21 h (by decide)
  have tSRC : flagTest st.1 PMSERIES_OPT_SOURCE = false :=
    flagTest_of_only_bits _ _ 17 h (by decide)
  have tD : flagTest st.1 PMSERIES_OPT_DESC = false := flagTest_of_only_bits _ _ 18 h (by decide)
  have tI : flagTest st.1 PMSERIES_OPT_INSTS = false := flagTest_of_only_bits _ _ 19 h (by decide)
  have tL : flagTest st.1 PMSERIES_OPT_LABELS = false :=
    flagTest_of_only_bits _ _ 20 h (by decide)
  have tM : flagTest st.1 PMSERIES_OPT_METRIC = false :=
    flagTest_of_only_bits _ _ 22 h (by decide)
  have tPM : flagTest st.1 PMSERIES_FULLPMID = false := flagTest_of_only_bits _ _ 3 h (by decide)
  have tIN : flagTest st.1 PMSERIES_FULLINDOM = false := flagTest_of_only_bits _ _ 2 h (by decide)
  have tSI : flagTest st.1 PMSERIES_SOURCEID = false := flagTest_of_only_bits _ _ 5 h (by decide)
  have tSE : flagTest st.1 PMSERIES_SERIESID = false := flagTest_of_only_bits _ _ 4 h (by decide)
  have tND : flagTest st.1 PMSERIES_NEED_DESCS = false :=
    flagTest_of_only_bits _ _ 10 h (by decide)
  have tNI : flagTest st.1 PMSERIES_NEED_INSTS = false :=
    flagTest_of_only_bits _ _ 11 h (by decide)
  have tQQ : flagTest PMSERIES_OPT_QUERY PMSERIES_OPT_QUERY = true := by decide
  unfold main_validate
  simp only [tALL, tLOAD, tSRC, tD, tI, tL, tM, tPM, tIN, tSI, tSE, tND, tNI, tQQ, flagTest_or,
    flagTest_META_OPTS, flagTest_flagSet, Bool.or_self, Bool.or_true, Bool.and_false,
    Bool.false_and, Bool.and_true, Bool.not_false, Bool.false_eq_true, if_false, if_true]

/-- Counterexample to C19 as stated: with the modifier `-M` alone (no mode
option) the lookup bit for descriptors is set, the query bit is not, and
`pmseries_request` dispatches the report by identifier, not the query. -/
theorem default_mode_counterexample :
    flagTest (main_final_flags ['M'] 0 false false) PMSERIES_OPT_QUERY = false ∧
    main_dispatch ['M'] 0 false false false = some request.report ∧
    main_dispatch ['M'] 0 false false false ≠ some request.query := by
  decide

/-- The validation counts no further error when neither load nor query is
set before the default and query is not set after it. -/
theorem main_validate_errors_eq (st : Nat × Nat) (noargs : Bool)
    (hL : flagTest (main_flags_all st.1) PMSERIES_OPT_LOAD = false)
    (hQ : flagTest (main_flags_all st.1) PMSERIES_OPT_QUERY = false)
    (hQF : flagTest (main_validate st noargs).1 PMSERIES_OPT_QUERY = false) :
    (main_validate st noargs).2 = st.2 := by
  have key : ∀ (c : Prop) [Decidable c] (e : Nat), ¬ c → (if c then e + 1 else e) = e := by
    intro c _ e hc
    rw [if_neg hc]
  refine (key _ _ ?_).trans ((key _ _ ?_).trans ((key _ _ ?_).trans (key _ _ ?_)))
  · intro hc
    have hc2 : (noargs && flagTest (main_validate st noargs).1 PMSERIES_OPT_QUERY) = true := hc
    rw [hQF, Bool.and_false] at hc2
    cases hc2
  · intro hc
    have hc2 : (flagTest (main_flags_all st.1) PMSERIES_OPT_QUERY
        && flagTest (main_flags_all st.1) (PMSERIES_META_OPTS ||| PMSERIES_OPT_SOURCE))
        = true := hc
    rw [hQ, Bool.false_and] at hc2
    cases hc2
  · intro hc
    have hc2 : (flagTest (main_flags_all st.1) PMSERIES_OPT_LOAD
        && flagTest (main_flags_all st.1) PMSERIES_OPT_QUERY) = true := hc
    rw [hL, Bool.false_and] at hc2
    cases hc2
  · intro hc
    have hc2 : (flagTest (main_flags_all st.1) PMSERIES_OPT_LOAD
        && flagTest (main_flags_all st.1) (PMSERIES_META_OPTS ||| PMSERIES_OPT_SOURCE))
        = true := hc
    rw [hL, Bool.false_and] at hc2
    cases hc2

/-- One of `-M`, `-I`, `-S`, `-s` makes `main` require the descriptors. -/
theorem main_flags_need_descs (f1 : Nat)
    (hmod : flagTest f1 PMSERIES_FULLPMID = true ∨ flagTest f1 PMSERIES_FULLINDOM = true ∨
      flagTest f1 PMSERIES_SOURCEID = true ∨ flagTest f1 PMSERIES_SERIESID = true) :
    flagTest (main_flags_need f1) PMSERIES_NEED_DESCS = true := by
  have hself : flagTest PMSERIES_NEED_DESCS PMSERIES_NEED_DESCS = true := by decide
  unfold main_flags_need
  simp only
  apply flagTest_ite_flagSet_of_true
  by_cases c2 : flagTest f1 (PMSERIES_FULLPMID ||| PMSERIES_FULLINDOM) = true
  · apply flagTest_ite_flagSet_of_true
    rw [if_pos c2, flagTest_flagSet, hself, Bool.or_true]
  · rw [if_neg c2]
    have c3 : flagTest f1 (PMSERIES_SOURCEID ||| PMSERIES_SERIESID) = true := by
      rw [flagTest_or] at c2 ⊢
      rcases hmod with h | h | h | h
      · rw [h] at c2; exact absurd rfl c2
      · rw [h, Bool.or_true] at c2; exact absurd rfl c2
      · rw [h]; rfl
      · rw [h, Bool.or_true]
    rw [if_pos c3, flagTest_flagSet, hself, Bool.or_true]

theorem main_flags_default_of_need (f4 : Nat)
    (h : flagTest f4 PMSERIES_NEED_DESCS = true) : main_flags_default f4 = f4 := by
  unfold main_flags_default
  have hn : flagTest f4 (PMSERIES_NEED_DESCS ||| PMSERIES_NEED_INSTS) = true := by
    rw [flagTest_or, h, Bool.true_or]
  rw [hn]
  simp

/-- The reporting modifiers keep the flags within their own bits. -/
theorem modifier_option_bits (c : Char)
    (hc : c = 'F' ∨ c = 'n' ∨ c = 'h' ∨ c = 'p' ∨ c = 'M' ∨ c = 'I' ∨ c = 'S' ∨ c = 's')
    (st : Nat × Nat) (h : only_bits [1, 9, 2, 3, 4, 5] st.1) :
    only_bits [1, 9, 2, 3, 4, 5] (main_option c st).1 ∧ (main_option c st).2 = st.2 := by
  rcases hc with rfl | rfl | rfl | rfl | rfl | rfl | rfl | rfl
  · have e : main_option 'F' st = (flagSet st.1 PMSERIES_FAST, st.2) := by simp [main_option]
    rw [e]
    exact ⟨only_bits_flagSet_shift _ _ 1 h (by decide), rfl⟩
  · have e : main_option 'n' st = (flagSet st.1 PMSERIES_ONLY_NAMES, st.2) := by
      simp [main_option]
    rw [e]
    exact ⟨only_bits_flagSet_shift _ _ 9 h (by decide), rfl⟩
  · have e : main_option 'h' st = st := by simp [main_option]
    rw [e]
    exact ⟨h, rfl⟩
  · have e : main_option 'p' st = st := by simp [main_option]
    rw [e]
    exact ⟨h, rfl⟩
  · have e : main_option 'M' st = (flagSet st.1 PMSERIES_FULLPMID, st.2) := by
      simp [main_option]
    rw [e]
    exact ⟨only_bits_flagSet_shift _ _ 3 h (by decide), rfl⟩
  · have e : main_option 'I' st = (flagSet st.1 PMSERIES_FULLINDOM, st.2) := by
      simp [main_option]
    rw [e]
    exact ⟨only_bits_flagSet_shift _ _ 2 h (by decide), rfl⟩
  · have e : main_option 'S' st = (flagSet st.1 PMSERIES_SOURCEID, st.2) := by
      simp [main_option]
    rw [e]
    exact ⟨only_bits_flagSet_shift _ _ 5 h (by decide), rfl⟩
  · have e : main_option 's' st = (flagSet st.1 PMSERIES_SERIESID, st.2) := by
      simp [main_option]
    rw [e]
    exact ⟨only_bits_flagSet_shift _ _ 4 h (by decide), rfl⟩

theorem main_option_sets (c : Char) (m : Nat) (st : Nat × Nat)
    (e : main_option c st = (flagSet st.1 m, st.2)) (hm : flagTest m m = true) :
    flagTest (main_option c st).1 m = true := by
  rw [e, flagTest_flagSet, hm, Bool.or_true]

theorem main_dispatch_ok (optchars : List Char) (errors : Nat) (noargs tty : Bool)
    (h : (main_validate (main_options optchars errors) noargs).2 = 0) :
    main_dispatch optchars errors noargs false tty
      = some (pmseries_request (main_final_flags optchars errors noargs tty)) := by
  unfold main_dispatch main_final_flags
  simp [h]

theorem main_flags_all_of_not_all (f : Nat) (h : flagTest f PMSERIES_OPT_ALL = false) :
    main_flags_all f = f := by
  unfold main_flags_all
  rw [h]
  simp

/-- C19 (amended): when none of the mode options `-L`, `-c`, `-d`, `-i`, `-l`,
`-m`, `-a` and none of the modifiers `-M`, `-I`, `-S`, `-s` is given, the flag
normalisation in `main` selects query mode and `pmseries_request` dispatches
the query, whichever of `-F`, `-n` (and `-h`, `-p`, `-q`) accompany it; when
no mode option and no `-q` is given but one of `-M`, `-I`, `-S`, `-s` is, the
report by identifier is dispatched; and for every flag set that passes
validation the request dispatched is the one and only mode whose flag
condition holds (load, query, source without metadata options, or report by
identifier otherwise). -/
theorem default_mode (optchars : List Char) (errors : Nat) (noargs exitflag tty : Bool)
    (r : request) :
    ((∀ c ∈ optchars, c = 'F' ∨ c = 'n' ∨ c = 'h' ∨ c = 'p' ∨ c = 'q') →
      flagTest (main_final_flags optchars 0 false tty) PMSERIES_OPT_QUERY = true ∧
      main_dispatch optchars 0 false false tty = some request.query) ∧
    ((∀ c ∈ optchars,
        c = 'F' ∨ c = 'n' ∨ c = 'h' ∨ c = 'p' ∨ c = 'M' ∨ c = 'I' ∨ c = 'S' ∨ c = 's') →
      ('M' ∈ optchars ∨ 'I' ∈ optchars ∨ 'S' ∈ optchars ∨ 's' ∈ optchars) →
      main_dispatch optchars 0 noargs false tty = some request.report) ∧
    (main_dispatch optchars errors noargs exitflag tty = some r →
      (r = request.load ↔
        flagTest (main_final_flags optchars errors noargs tty) PMSERIES_OPT_LOAD = true) ∧
      (r = request.query ↔
        flagTest (main_final_flags optchars errors noargs tty) PMSERIES_OPT_QUERY = true) ∧
      (r = request.source ↔
        (flagTest (main_final_flags optchars errors noargs tty) PMSERIES_OPT_SOURCE = true ∧
         flagTest (main_final_flags optchars errors noargs tty) PMSERIES_META_OPTS = false)) ∧
      (r = request.report ↔
        (flagTest (main_final_flags optchars errors noargs tty) PMSERIES_OPT_LOAD = false ∧
         flagTest (main_final_flags optchars errors noargs tty) PMSERIES_OPT_QUERY = false ∧
         ¬ (flagTest (main_final_flags optchars errors noargs tty) PMSERIES_OPT_SOURCE = true ∧
            flagTest (main_final_flags optchars errors noargs tty) PMSERIES_META_OPTS
              = false)))) := by
  refine ⟨?_, ?_, ?_⟩
  · intro hopt
    obtain ⟨hb, he⟩ := main_options_only_bits [1, 9, 23] optchars 0
      (fun c hc st h => query_option_bits c (hopt c hc) st h)
    have hv := main_validate_default (main_options optchars 0) false hb
    have tQQ : flagTest PMSERIES_OPT_QUERY PMSERIES_OPT_QUERY = true := by decide
    have tQL : flagTest PMSERIES_OPT_QUERY PMSERIES_OPT_LOAD = false := by decide
    have hQ : flagTest (main_final_flags optchars 0 false tty) PMSERIES_OPT_QUERY = true := by
      rw [main_final_flags_test _ _ _ _ _ (by decide), hv]
      show flagTest (flagSet _ PMSERIES_OPT_QUERY) PMSERIES_OPT_QUERY = true
      rw [flagTest_flagSet, tQQ, Bool.or_true]
    have hL : flagTest (main_final_flags optchars 0 false tty) PMSERIES_OPT_LOAD = false := by
      rw [main_final_flags_test _ _ _ _ _ (by decide), hv]
      show flagTest (flagSet _ PMSERIES_OPT_QUERY) PMSERIES_OPT_LOAD = false
      rw [flagTest_flagSet, tQL, Bool.or_false]
      exact flagTest_of_only_bits _ _ 21 hb (by decide)
    refine ⟨hQ, ?_⟩
    have herr : (main_validate (main_options optchars 0) false).2 = 0 := by
      rw [hv]
      exact he
    rw [main_dispatch_ok optchars 0 false tty herr]
    unfold pmseries_request
    rw [hL, hQ]
    rfl
  · intro hopt hmod
    obtain ⟨hb, he⟩ := main_options_only_bits [1, 9, 2, 3, 4, 5] optchars 0
      (fun c hc st h => modifier_option_bits c (hopt c hc) st h)
    have tALL : flagTest (main_options optchars 0).1 PMSERIES_OPT_ALL = false :=
      flagTest_of_only_bits _ _ 16 hb (by decide)
    have hall := main_flags_all_of_not_all _ tALL
    have tL : flagTest (main_options optchars 0).1 PMSERIES_OPT_LOAD = false :=
      flagTest_of_only_bits _ _ 21 hb (by decide)
    have tQ : flagTest (main_options optchars 0).1 PMSERIES_OPT_QUERY = false :=
      flagTest_of_only_bits _ _ 23 hb (by decide)
    have tS : flagTest (main_options optchars 0).1 PMSERIES_OPT_SOURCE = false :=
      flagTest_of_only_bits _ _ 17 hb (by decide)
    have hmod2 : flagTest (main_options optchars 0).1 PMSERIES_FULLPMID = true ∨
        flagTest (main_options optchars 0).1 PMSERIES_FULLINDOM = true ∨
        flagTest (main_options optchars 0).1 PMSERIES_SOURCEID = true ∨
        flagTest (main_options optchars 0).1 PMSERIES_SERIESID = true := by
      rcases hmod with h | h | h | h
      · exact Or.inl (main_options_mem optchars 0 'M' _ h
          (fun st0 => main_option_sets 'M' _ st0 (by simp [main_option]) (by decide)))
      · exact Or.inr (Or.inl (main_options_mem optchars 0 'I' _ h
          (fun st0 => main_option_sets 'I' _ st0 (by simp [main_option]) (by decide))))
      · exact Or.inr (Or.inr (Or.inl (main_options_mem optchars 0 'S' _ h
          (fun st0 => main_option_sets 'S' _ st0 (by simp [main_option]) (by decide)))))
      · exact Or.inr (Or.inr (Or.inr (main_options_mem optchars 0 's' _ h
          (fun st0 => main_option_sets 's' _ st0 (by simp [main_option]) (by decide)))))
    have hneed := main_flags_need_descs (main_options optchars 0).1 hmod2
    have hF : (main_validate (main_options optchars 0) noargs).1
        = main_flags_need (main_options optchars 0).1 := by
      rw [main_validate_fst, hall, main_flags_default_of_need _ hneed]
    have hFL : flagTest (main_validate (main_options optchars 0) noargs).1 PMSERIES_OPT_LOAD
        = false := by
      rw [hF, main_flags_need_test _ _ (by decide) (by decide)]
      exact tL
    have hFQ : flagTest (main_validate (main_options optchars 0) noargs).1 PMSERIES_OPT_QUERY
        = false := by
      rw [hF, main_flags_need_test _ _ (by decide) (by decide)]
      exact tQ
    have hFS : flagTest (main_validate (main_options optchars 0) noargs).1 PMSERIES_OPT_SOURCE
        = false := by
      rw [hF, main_flags_need_test _ _ (by decide) (by decide)]
      exact tS
    have herr : (main_validate (main_options optchars 0) noargs).2 = 0 := by
      rw [main_validate_errors_eq _ _ (by rw [hall]; exact tL) (by rw [hall]; exact tQ) hFQ]
      exact he
    rw [main_dispatch_ok optchars 0 noargs tty herr]
    unfold pmseries_request
    rw [main_final_flags_test _ _ _ _ _ (by decide), main_final_flags_test _ _ _ _ _ (by decide),
      main_final_flags_test _ _ _ _ _ (by decide), hFL, hFQ, hFS]
    rfl
  · intro hsome
    obtain ⟨herr, _, hr⟩ := main_dispatch_some optchars errors noargs exitflag tty r hsome
    obtain ⟨x1, x2⟩ := main_validate_exclusive (main_options optchars errors) noargs herr
    rw [← main_final_flags_test optchars errors noargs tty PMSERIES_OPT_LOAD (by decide),
      ← main_final_flags_test optchars errors noargs tty PMSERIES_OPT_QUERY (by decide),
      ← main_final_flags_test optchars errors noargs tty PMSERIES_OPT_SOURCE (by decide),
      ← main_final_flags_test optchars errors noargs tty PMSERIES_META_OPTS (by decide)] at x1
    rw [← main_final_flags_test optchars errors noargs tty PMSERIES_OPT_QUERY (by decide),
      ← main_final_flags_test optchars errors noargs tty PMSERIES_OPT_SOURCE (by decide),
      ← main_final_flags_test optchars errors noargs tty PMSERIES_META_OPTS (by decide)] at x2
    rw [hr]
    exact request_of_bits _ _ _ _ x1 x2

/-- The options `-F -n` dispatch the query; `-F -M` dispatches the report. -/
theorem default_mode_witness :
    main_dispatch ['F', 'n'] 0 false false false = some request.query ∧
    main_dispatch ['F', 'M'] 0 false false false = some request.report ∧
    (request.source = request.source ↔
      (flagTest (main_final_flags ['c'] 0 false false) PMSERIES_OPT_SOURCE = true ∧
       flagTest (main_final_flags ['c'] 0 false false) PMSERIES_META_OPTS = false)) :=
  ⟨((default_mode ['F', 'n'] 0 false false false request.query).1 (by decide)).2,
   (default_mode ['F', 'M'] 0 false false false request.report).2.1 (by decide) (by decide),
   ((default_mode ['c'] 0 false false false request.source).2.2 (by decide)).2.2.1⟩

/-! ## Label accumulation -/

/-- C21 (the code): on a label array of n readable labels `series_add_labels`
gives an array of n+1 entries whose entry 0 is the new label and whose other
n entries lie beyond the reallocated block (the pointer stored back has been
advanced by n), so only the first label of a collection is appended as
documented.  In metric-level mode one label-value event a=1 for "S1" is
rendered by `series_metric_labels`; after the second event b=2 the array is
the new label followed by an entry beyond the block, a=1 is no longer in it,
and `series_metric_labels` cannot read it. -/
theorem series_add_labels_slip (name value : sds) (ls : List series_label) :
    series_add_labels name value (ls.map some)
      = some (some ⟨name, value⟩ :: List.replicate ls.length none) ∧
    series_add_labels "b" "2" [some ⟨"a", "1"⟩] = some [some ⟨"b", "2"⟩, none] ∧
    ((deliver_labelmaps "S1" [⟨"a", "1"⟩] (World.start (series_data_init 0))).bind
        series_metric_labels).map (fun w => w.stdout)
      = some "\nS1\n    labels \x7b\"a\":1\x7d\n" ∧
    (deliver_labelmaps "S1" [⟨"a", "1"⟩, ⟨"b", "2"⟩]
        (World.start (series_data_init 0))).map (fun w => w.dp.labels)
      = some [some ⟨"b", "2"⟩, none] ∧
    (deliver_labelmaps "S1" [⟨"a", "1"⟩, ⟨"b", "2"⟩]
        (World.start (series_data_init 0))).bind series_metric_labels = none ∧
    deliver_labelmaps "S1" [⟨"a", "1"⟩, ⟨"b", "2"⟩, ⟨"c", "3"⟩]
        (World.start (series_data_init 0)) = none := by
  refine ⟨?_, by decide, by decide, by decide, by decide, by decide⟩
  unfold series_add_labels
  have h : (ls.map some).all Option.isSome = true := by
    simp [List.all_eq_true]
  rw [if_pos h, List.length_map]

/-! ## Unresolved descriptor fields -/

theorem strcmp_eq_zero_iff (a b : String) : strcmp a b = 0 ↔ a = b :=
  sdscmp_eq_zero_iff a b

/-- Counterexample to C22 as stated: with `-d`, the type "WEIRD" is none of
the twelve type words and is rendered as "???" with no raw value in
parentheses after it. -/
theorem on_series_desc_unknown_type_counterexample :
    (type_phrase_table.all (fun kp => strcasecmp "WEIRD" kp.1 != 0)) = true ∧
    (on_series_desc libpcp "S1" ⟨"none", "60.0.1", "instant", "src", "WEIRD", "count"⟩
      (World.start (series_data_init PMSERIES_OPT_DESC))).stdout
      = "\nS1 PMID: 60.0.1\n    Data Type: ???  InDom: PM_INDOM_NULL 0xffffffff\n"
        ++ "    Semantics: instant  Units: count\n" ∧
    occurs_in "(WEIRD)"
      (on_series_desc libpcp "S1" ⟨"none", "60.0.1", "instant", "src", "WEIRD", "count"⟩
        (World.start (series_data_init PMSERIES_OPT_DESC))).stdout = false := by
  set_option maxRecDepth 100000 in decide

/-- A word that is none of the twelve type words has the phrase "???". -/
theorem series_type_phrase_unknown (t : String)
    (h : ∀ kp ∈ type_phrase_table, strcasecmp t kp.1 ≠ 0) :
    series_type_phrase t = "???" := by
  have h1 := h ("32", "32-bit int") (by decide)
  have h2 := h ("64", "64-bit int") (by decide)
  have h3 := h ("U32", "32-bit unsigned int") (by decide)
  have h4 := h ("U64", "64-bit unsigned int") (by decide)
  have h5 := h ("FLOAT", "float") (by decide)
  have h6 := h ("DOUBLE", "double") (by decide)
  have h7 := h ("STRING", "string") (by decide)
  have h8 := h ("AGGREGATE", "aggregate") (by decide)
  have h9 := h ("AGGREGATE_STATIC", "aggregate static") (by decide)
  have h10 := h ("EVENT", "event record array") (by decide)
  have h11 := h ("HIGHRES_EVENT", "highres event record array") (by decide)
  have h12 := h ("NO_SUPPORT", "Not Supported") (by decide)
  unfold series_type_phrase
  rw [if_neg h1, if_neg h2, if_neg h3, if_neg h4, if_neg h5, if_neg h6, if_neg h7, if_neg h8,
    if_neg h9, if_neg h10, if_neg h11, if_neg h12]

/-- C22 (amended): with `-d` active, for every Report State, every other flag
and every descriptor, with or without a boundary transition, the output of
`on_series_desc` is the header (or three blanks), the metric id segment,
the data type segment, the instance domain segment, the semantics and units
segment and, with `-S`, the source line; the data type is rendered as the
phrase of `series_type_phrase`, which is the sentinel "???" for every type
that is not one of the known type words, and the raw type value follows in
parentheses exactly when the type text is itself the sentinel "???";
likewise the semantics text is followed by itself in parentheses exactly
when it is the sentinel "???". -/
theorem on_series_desc_unknown (api : Pmapi) (w : World) (series : sds) (desc : pmSeriesDesc)
    (hd : flagTest w.dp.flags PMSERIES_OPT_DESC = true) :
    (on_series_desc api series desc w).stdout
      = w.stdout
        ++ (if (series_next w series).1 = true
            then (if flagTest w.dp.flags PMSERIES_NEED_EOL then "\n" else "")
              ++ ("\n" ++ series)
            else "   ")
        ++ (" PMID: "
          ++ (if (sscanf_u3 desc.pmid).isNone && strcmp desc.pmid "none" = 0
              then "PM_ID_NULL" else desc.pmid))
        ++ (if flagTest w.dp.flags PMSERIES_FULLPMID = true
            then " = " ++ fmt_u (match sscanf_u3 desc.pmid with
                | some (domain, cluster, item) => api.pmID_build domain cluster item
                | none => api.PM_ID_NULL)
              ++ " = 0x" ++ fmt_x (match sscanf_u3 desc.pmid with
                | some (domain, cluster, item) => api.pmID_build domain cluster item
                | none => api.PM_ID_NULL)
            else "")
        ++ "\n"
        ++ ("    Data Type: " ++ series_type_phrase desc.type
          ++ (if desc.type = "???" then " (" ++ "???" ++ ")" else ""))
        ++ ("  InDom: "
          ++ (if (sscanf_u2 desc.indom).isNone && strcmp desc.indom "none" = 0
              then "PM_INDOM_NULL" else desc.indom))
        ++ (if flagTest w.dp.flags PMSERIES_FULLINDOM = true
            then " = " ++ fmt_u (match sscanf_u2 desc.indom with
                | some (domain, serial) => api.pmInDom_build domain serial
                | none => api.PM_IN_NULL) ++ " ="
            else "")
        ++ (" 0x" ++ fmt_x (match sscanf_u2 desc.indom with
              | some (domain, serial) => api.pmInDom_build domain serial
              | none => api.PM_IN_NULL) ++ "\n")
        ++ ("    Semantics: " ++ desc.semantics
          ++ (if desc.semantics = "???" then " (" ++ "???" ++ ")" else "")
          ++ "  Units: " ++ (if desc.units = "" then "none" else desc.units) ++ "\n")
        ++ (if flagTest w.dp.flags PMSERIES_SOURCEID = true
            then "    Source: " ++ desc.source ++ "\n" else "") ∧
    ((∀ kp ∈ type_phrase_table, strcasecmp desc.type kp.1 ≠ 0) →
      series_type_phrase desc.type = "???") := by
  refine ⟨?_, series_type_phrase_unknown desc.type⟩
  have ht : (if strcmp desc.type "???" = 0 then " (" ++ desc.type ++ ")" else "")
      = (if desc.type = "???" then " (" ++ "???" ++ ")" else "") := by
    by_cases h : desc.type = "???"
    · rw [if_pos ((strcmp_eq_zero_iff _ _).2 h), if_pos h, h]
    · rw [if_neg (fun h2 => h ((strcmp_eq_zero_iff _ _).1 h2)), if_neg h]
  have hs : (if strcmp desc.semantics "???" = 0 then " (" ++ desc.semantics ++ ")" else "")
      = (if desc.semantics = "???" then " (" ++ "???" ++ ")" else "") := by
    by_cases h : desc.semantics = "???"
    · rw [if_pos ((strcmp_eq_zero_iff _ _).2 h), if_pos h, h]
    · rw [if_neg (fun h2 => h ((strcmp_eq_zero_iff _ _).1 h2)), if_neg h]
  by_cases hne : strncmp w.dp.series series (sdslen series) ≠ 0
  · have fD := flagTest_after_transition w.dp.flags PMSERIES_OPT_DESC (by decide) (by decide)
    have fM := flagTest_after_transition w.dp.flags PMSERIES_FULLPMID (by decide) (by decide)
    have fI := flagTest_after_transition w.dp.flags PMSERIES_FULLINDOM (by decide) (by decide)
    have fS := flagTest_after_transition w.dp.flags PMSERIES_SOURCEID (by decide) (by decide)
    rw [hd] at fD
    unfold on_series_desc
    cases hM : flagTest w.dp.flags PMSERIES_FULLPMID <;>
    cases hI : flagTest w.dp.flags PMSERIES_FULLINDOM <;>
    cases hS : flagTest w.dp.flags PMSERIES_SOURCEID <;>
    · rw [hM] at fM
      rw [hI] at fI
      rw [hS] at fS
      simp only [series_next_true w series hne, World.print, World.printIf, flagTest_or, fD, fM,
        fI, fS, ht, hs, Bool.or_true, Bool.false_or, Bool.true_or, if_true, if_false,
        Bool.false_eq_true]
      try simp only [String.append_assoc, String.append_empty, String.empty_append]
  · have h0 : strncmp w.dp.series series (sdslen series) = 0 := not_not.1 hne
    unfold on_series_desc
    cases hM : flagTest w.dp.flags PMSERIES_FULLPMID <;>
    cases hI : flagTest w.dp.flags PMSERIES_FULLINDOM <;>
    cases hS : flagTest w.dp.flags PMSERIES_SOURCEID <;>
    · simp only [series_next_false w series h0, World.print, World.printIf, flagTest_or, hd, hM,
        hI, hS, ht, hs, Bool.or_true, Bool.false_or, Bool.true_or, if_true, if_false,
        Bool.false_eq_true]
      try simp only [String.append_assoc, String.append_empty, String.empty_append]

/-- With `-d`: on a fresh state the type "WEIRD" of "S1" is shown as "???"
alone and the semantics "???" as "??? (???)"; a second descriptor for "S1"
(no transition), type "???", is shown as "??? (???)"; with `-d -M -I -S` the
numeric forms and the source line are added. -/
theorem on_series_desc_unknown_witness :
    (on_series_desc libpcp "S1" ⟨"none", "60.0.1", "???", "src", "WEIRD", ""⟩
      (World.start (series_data_init PMSERIES_OPT_DESC))).stdout
      = "\nS1 PMID: 60.0.1\n    Data Type: ???  InDom: PM_INDOM_NULL 0xffffffff\n"
        ++ "    Semantics: ??? (???)  Units: none\n" ∧
    (on_series_desc libpcp "S1" ⟨"none", "60.0.1", "instant", "src", "???", ""⟩
      (on_series_match "S1" (World.start (series_data_init PMSERIES_OPT_DESC)))).stdout
      = "S1\n    PMID: 60.0.1\n    Data Type: ??? (???)  InDom: PM_INDOM_NULL 0xffffffff\n"
        ++ "    Semantics: instant  Units: none\n" ∧
    (on_series_desc libpcp "S1" ⟨"60.2", "60.0.1", "instant", "src", "WEIRD", "count"⟩
      (World.start (series_data_init (PMSERIES_OPT_DESC ||| PMSERIES_FULLPMID |||
        PMSERIES_FULLINDOM ||| PMSERIES_SOURCEID)))).stdout
      = "\nS1 PMID: 60.0.1 = 251658241 = 0xf000001\n"
        ++ "    Data Type: ???  InDom: 60.2 = 251658242 = 0xf000002\n"
        ++ "    Semantics: instant  Units: count\n    Source: src\n" ∧
    series_type_phrase "WEIRD" = "???" :=
  ⟨(on_series_desc_unknown libpcp (World.start (series_data_init PMSERIES_OPT_DESC))
      "S1" ⟨"none", "60.0.1", "???", "src", "WEIRD", ""⟩ (by decide)).1.trans
      (by set_option maxRecDepth 100000 in decide),
   (on_series_desc_unknown libpcp
      (on_series_match "S1" (World.start (series_data_init PMSERIES_OPT_DESC)))
      "S1" ⟨"none", "60.0.1", "instant", "src", "???", ""⟩ (by decide)).1.trans
      (by set_option maxRecDepth 100000 in decide),
   (on_series_desc_unknown libpcp
      (World.start (series_data_init (PMSERIES_OPT_DESC ||| PMSERIES_FULLPMID |||
        PMSERIES_FULLINDOM ||| PMSERIES_SOURCEID)))
      "S1" ⟨"60.2", "60.0.1", "instant", "src", "WEIRD", "count"⟩ (by decide)).1.trans
      (by set_option maxRecDepth 100000 in decide),
   (on_series_desc_unknown libpcp (World.start (series_data_init PMSERIES_OPT_DESC))
      "S1" ⟨"none", "60.0.1", "???", "src", "WEIRD", ""⟩ (by decide)).2
      (by set_option maxRecDepth 100000 in decide)⟩

/-! ## Type phrases -/

theorem strcasecmp_eq_zero_iff (a b : String) :
    strcasecmp a b = 0 ↔ a.data.map Char.toLower = b.data.map Char.toLower := by
  unfold strcasecmp
  exact strcmpList_eq_zero_iff _ _

/-- The phrase depends on the word only through its lower-case form. -/
theorem series_type_phrase_congr (a b : String)
    (h : a.data.map Char.toLower = b.data.map Char.toLower) :
    series_type_phrase a = series_type_phrase b := by
  unfold series_type_phrase strcasecmp
  rw [h]

theorem series_type_phrase_of_table :
    ∀ kp ∈ type_phrase_table, series_type_phrase kp.1 = kp.2 := by
  set_option maxRecDepth 100000 in decide

/-- C23: `series_type_phrase` maps every word that equals one of the twelve
type words without regard to letter case to the phrase of that word, and
every other word to "???"; the twelve words are 32, 64, U32, U64, FLOAT,
DOUBLE, STRING, AGGREGATE, AGGREGATE_STATIC, EVENT, HIGHRES_EVENT and
NO_SUPPORT; the phrase of NO_SUPPORT is "Not Supported"; the twelve phrases
and the sentinel "???" are pairwise distinct. -/
theorem series_type_phrase_table :
    (∀ w k p, (k, p) ∈ type_phrase_table → strcasecmp w k = 0 → series_type_phrase w = p) ∧
    (∀ w, (∀ kp ∈ type_phrase_table, strcasecmp w kp.1 ≠ 0) → series_type_phrase w = "???") ∧
    type_phrase_table.map Prod.fst
      = ["32", "64", "U32", "U64", "FLOAT", "DOUBLE", "STRING", "AGGREGATE",
         "AGGREGATE_STATIC", "EVENT", "HIGHRES_EVENT", "NO_SUPPORT"] ∧
    series_type_phrase "NO_SUPPORT" = "Not Supported" ∧
    (type_phrase_table.map (fun kp => series_type_phrase kp.1) ++ ["???"]).Nodup := by
  refine ⟨?_, ?_, by decide, by decide, by set_option maxRecDepth 100000 in decide⟩
  · intro w k p hmem hc
    rw [series_type_phrase_congr w k ((strcasecmp_eq_zero_iff w k).1 hc)]
    exact series_type_phrase_of_table (k, p) hmem
  · intro w h
    have h1 := h ("32", "32-bit int") (by decide)
    have h2 := h ("64", "64-bit int") (by decide)
    have h3 := h ("U32", "32-bit unsigned int") (by decide)
    have h4 := h ("U64", "64-bit unsigned int") (by decide)
    have h5 := h ("FLOAT", "float") (by decide)
    have h6 := h ("DOUBLE", "double") (by decide)
    have h7 := h ("STRING", "string") (by decide)
    have h8 := h ("AGGREGATE", "aggregate") (by decide)
    have h9 := h ("AGGREGATE_STATIC", "aggregate static") (by decide)
    have h10 := h ("EVENT", "event record array") (by decide)
    have h11 := h ("HIGHRES_EVENT", "highres event record array") (by decide)
    have h12 := h ("NO_SUPPORT", "Not Supported") (by decide)
    unfold series_type_phrase
    rw [if_neg h1, if_neg h2, if_neg h3, if_neg h4, if_neg h5, if_neg h6, if_neg h7, if_neg h8,
      if_neg h9, if_neg h10, if_neg h11, if_neg h12]

/-- The word "Float" has the phrase of FLOAT, "u64" that of U64, and "WEIRD"
is no type word. -/
theorem series_type_phrase_table_witness :
    series_type_phrase "Float" = "float" ∧ series_type_phrase "u64" = "64-bit unsigned int" ∧
    series_type_phrase "WEIRD" = "???" :=
  ⟨series_type_phrase_table.1 "Float" "FLOAT" "float" (by decide) (by decide),
   series_type_phrase_table.1 "u64" "U64" "64-bit unsigned int" (by decide) (by decide),
   series_type_phrase_table.2.1 "WEIRD" (by set_option maxRecDepth 100000 in decide)⟩

/-! ## Enumeration events -/

/-- Counterexample to C24 as stated: without `-i` in the flags the
instance-name event that carries no series id prints nothing. -/
theorem on_series_instance_enumeration_counterexample :
    (on_series_instance none "cpu0" (World.start (series_data_init 0))).stdout = "" ∧
    (on_series_instance none "cpu0" (World.start (series_data_init 0))).stdout ≠ "cpu0\n" := by
  decide

/-- C24 (amended): for every flag set and every Report State, a metric-name,
label-definition or context-name event that carries no series id makes its
handler print exactly the name followed by a newline; the instance-name
handler does the same when `-i` is in the flags and prints nothing when it is
not; in every case the Report State (flags, current series, source, type,
labels, instances) and the error output are unchanged. -/
theorem enumeration_events (name : sds) (w : World) :
    on_series_metric none name w = { w with stdout := w.stdout ++ (name ++ "\n") } ∧
    on_series_label none name w = { w with stdout := w.stdout ++ (name ++ "\n") } ∧
    on_series_context none name w = { w with stdout := w.stdout ++ (name ++ "\n") } ∧
    on_series_instance none name w
      = (if flagTest w.dp.flags PMSERIES_OPT_INSTS
         then { w with stdout := w.stdout ++ (name ++ "\n") } else w) := by
  refine ⟨rfl, rfl, rfl, ?_⟩
  unfold on_series_instance
  cases h : flagTest w.dp.flags PMSERIES_OPT_INSTS <;> rfl

/-! ## Fresh prefix after a series change -/

theorem flagTest_transition_COMMA (f : Nat) :
    flagTest (flagClear (flagClear f PMSERIES_NEED_COMMA) PMSERIES_NEED_EOL) PMSERIES_NEED_COMMA
      = false := by
  rw [flagTest_flagClear_disjoint _ _ _ (by decide)]
  exact flagTest_flagClear_self _ _

/-- Ids of unequal length, which the store does not deliver: with the line
"    Metric: m1" of series "S12" open, the metric name of "S1" is printed
as a continuation. -/
theorem fresh_prefix_unequal_length :
    (on_series_metric (some "S1") "m2"
      (on_series_metric (some "S12") "m1" (World.start (series_data_init 0)))).stdout
      = "\nS12    Metric: m1, m2" := by
  decide

/-- Counterexample to C26 as stated: with both punctuation bits set,
`series_data_endtopic` leaves the line-open bit set. -/
theorem series_data_endtopic_counterexample :
    flagTest (series_data_endtopic
      (series_data_init (PMSERIES_NEED_EOL ||| PMSERIES_NEED_COMMA))).flags
      PMSERIES_NEED_EOL = true ∧
    flagTest (series_data_endtopic
      (series_data_init (PMSERIES_NEED_EOL ||| PMSERIES_NEED_COMMA))).flags
      PMSERIES_NEED_COMMA = false := by
  decide

/-- C26 (amended): `series_data_endtopic` clears the continuation-pending bit
(bit 7) and changes nothing else: the line-open bit (bit 6) and every other
flag bit keep their value, and so does every other part of the Report State;
the line-open bit is the one `series_data_endline` clears, which changes
nothing else either, so that both bits are clear once both operations have
been applied. -/
theorem series_data_endtopic_frame (dp : series_data) :
    flagTest (series_data_endtopic dp).flags PMSERIES_NEED_COMMA = false ∧
    flagTest (series_data_endtopic dp).flags PMSERIES_NEED_EOL
      = flagTest dp.flags PMSERIES_NEED_EOL ∧
    (∀ i, (series_data_endtopic dp).flags.testBit i = (dp.flags.testBit i && i != 7)) ∧
    series_data_endtopic dp = { dp with flags := (series_data_endtopic dp).flags } ∧
    flagTest (series_data_endline dp).flags PMSERIES_NEED_EOL = false ∧
    (∀ i, (series_data_endline dp).flags.testBit i = (dp.flags.testBit i && i != 6)) ∧
    series_data_endline dp = { dp with flags := (series_data_endline dp).flags } ∧
    flagTest (series_data_endline (series_data_endtopic dp)).flags PMSERIES_NEED_COMMA
      = false ∧
    flagTest (series_data_endline (series_data_endtopic dp)).flags PMSERIES_NEED_EOL
      = false := by
  refine ⟨flagTest_flagClear_self _ _, flagTest_clear_COMMA_EOL _, ?_, rfl,
    flagTest_flagClear_self _ _, ?_, rfl, ?_, flagTest_flagClear_self _ _⟩
  · intro i
    show (flagClear dp.flags PMSERIES_NEED_COMMA).testBit i = (dp.flags.testBit i && i != 7)
    rw [testBit_flagClear, testBit_NEED_COMMA]
    by_cases h : i = 7
    · subst h
      simp
    · have h2 : ¬ 7 = i := fun e => h e.symm
      simp [h, h2]
  · intro i
    show (flagClear dp.flags PMSERIES_NEED_EOL).testBit i = (dp.flags.testBit i && i != 6)
    rw [testBit_flagClear, testBit_NEED_EOL]
    by_cases h : i = 6
    · subst h
      simp
    · have h2 : ¬ 6 = i := fun e => h e.symm
      simp [h, h2]
  · show flagTest (flagClear (flagClear dp.flags PMSERIES_NEED_COMMA) PMSERIES_NEED_EOL)
      PMSERIES_NEED_COMMA = false
    exact flagTest_transition_COMMA _

/-! ## The instance comparator under C arithmetic -/

theorem strcmpList_swap (a b : List Char) : strcmpList b a = - strcmpList a b := by
  induction a generalizing b with
  | nil => cases b <;> simp [strcmpList]
  | cons x xs ih =>
    cases b with
    | nil => simp [strcmpList]
    | cons y ys =>
      by_cases hxy : x = y
      · subst hxy
        simp [strcmpList, ih]
      · have hyx : ¬ y = x := fun e => hxy e.symm
        rcases lt_or_gt_of_ne hxy with hlt | hgt
        · have hn : ¬ y < x := not_lt.2 (le_of_lt hlt)
          simp [strcmpList, hxy, hyx, hlt, hn]
        · have hn : ¬ x < y := not_lt.2 (le_of_lt hgt)
          simp [strcmpList, hxy, hyx, hgt, hn]

/-- When the difference of the parsed ids and its negation fit an `int`, the
comparator is consistent: swapping the arguments swaps the sign, and a
smaller parsed id gives a negative result. -/
theorem series_instance_compare_of_fits (a b : series_inst)
    (hlo : -2 ^ 31 < atoll a.instid - atoll b.instid)
    (hhi : atoll a.instid - atoll b.instid < 2 ^ 31) :
    series_instance_compare b a = - series_instance_compare a b ∧
    (atoll a.instid < atoll b.instid → series_instance_compare a b < 0) := by
  unfold series_instance_compare
  by_cases hid : a.instid = b.instid
  · have h1 : sdscmp a.instid b.instid = 0 := (sdscmp_eq_zero_iff _ _).2 hid
    have h2 : sdscmp b.instid a.instid = 0 := (sdscmp_eq_zero_iff _ _).2 hid.symm
    rw [if_neg (not_not.2 h1), if_neg (not_not.2 h2)]
    refine ⟨strcmpList_swap _ _, ?_⟩
    intro hlt
    rw [hid] at hlt
    exact absurd hlt (lt_irrefl _)
  · have h1 : sdscmp a.instid b.instid ≠ 0 := fun h => hid ((sdscmp_eq_zero_iff _ _).1 h)
    have h2 : sdscmp b.instid a.instid ≠ 0 := fun h => hid ((sdscmp_eq_zero_iff _ _).1 h).symm
    rw [if_pos h1, if_pos h2, wrapInt_of_fits _ (le_of_lt hlo) hhi,
      wrapInt_of_fits _ (by omega) (by omega)]
    constructor
    · omega
    · intro hlt
      omega

/-- C27 (the code at the failing inputs): for the ids "2147483648" and "0"
the 64-bit difference cast to `int` is -2147483648 in both argument orders,
so the comparator is negative both ways and never positive, and negative
although the first parsed id is the larger; for the ids "0" and "4294967296"
it is 0 in both orders although the first parsed id is smaller; for "0" and
"3000000000" it is positive although the first parsed id is smaller. -/
theorem series_instance_compare_truncation :
    atoll "2147483648" = 2147483648 ∧ atoll "0" = 0 ∧
    series_instance_compare ⟨"2147483648", "a", "I1", []⟩ ⟨"0", "b", "I2", []⟩
      = -2147483648 ∧
    series_instance_compare ⟨"0", "b", "I2", []⟩ ⟨"2147483648", "a", "I1", []⟩
      = -2147483648 ∧
    atoll "4294967296" = 4294967296 ∧
    series_instance_compare ⟨"0", "b", "I2", []⟩ ⟨"4294967296", "c", "I3", []⟩ = 0 ∧
    series_instance_compare ⟨"4294967296", "c", "I3", []⟩ ⟨"0", "b", "I2", []⟩ = 0 ∧
    atoll "3000000000" = 3000000000 ∧
    series_instance_compare ⟨"0", "b", "I2", []⟩ ⟨"3000000000", "d", "I4", []⟩
      = 1294967296 := by
  set_option maxRecDepth 100000 in decide
/-! ## Idempotence of the boundary tracker -/

/-- After `series_next`, the current series begins with the incoming id. -/
theorem series_next_settled (w : World) (sid : sds) :
    strncmp (series_next w sid).2.dp.series sid (sdslen sid) = 0 := by
  by_cases h : strncmp w.dp.series sid (sdslen sid) ≠ 0
  · rw [series_next_true w sid h]
    exact strncmp_self sid
  · rw [series_next_false w sid (not_not.1 h)]
    exact not_not.1 h

/-- C28: for every Report State and every series id, a second application of
`series_next` with the same id returns false and leaves the state and the
output exactly as the first application left them; and whenever `series_next`
returns false, the state and the output are exactly what they were before
the call. -/
theorem series_next_idempotent (w : World) (sid : sds) :
    series_next (series_next w sid).2 sid = (false, (series_next w sid).2) ∧
    (series_next (series_next w sid).2 sid).2.stdout = (series_next w sid).2.stdout ∧
    (series_next (series_next w sid).2 sid).2.dp = (series_next w sid).2.dp ∧
    ((series_next w sid).1 = false →
      series_next w sid = (false, w) ∧ (series_next w sid).2.stdout = w.stdout ∧
        (series_next w sid).2.dp = w.dp) := by
  have h := series_next_false (series_next w sid).2 sid (series_next_settled w sid)
  refine ⟨h, by rw [h], by rw [h], ?_⟩
  intro hf
  have h2 := series_next_eq_of_false w sid hf
  exact ⟨h2, by rw [h2], by rw [h2]⟩

/-- From a fresh state with a line open, the id "S1" causes a transition that
prints one newline; the second application with "S1" returns false and
prints nothing more. -/
theorem series_next_idempotent_witness :
    (series_next (World.start (series_data_init PMSERIES_NEED_EOL)) "S1").1 = true ∧
    (series_next (series_next (World.start (series_data_init PMSERIES_NEED_EOL)) "S1").2
      "S1").1 = false ∧
    (series_next (series_next (World.start (series_data_init PMSERIES_NEED_EOL)) "S1").2
      "S1").2.stdout = "\n" ∧
    (series_next (series_next (series_next
        (World.start (series_data_init PMSERIES_NEED_EOL)) "S1").2 "S1").2 "S1").2.stdout
      = "\n" :=
  ⟨by decide,
   congrArg Prod.fst
     (series_next_idempotent (World.start (series_data_init PMSERIES_NEED_EOL)) "S1").1,
   ((series_next_idempotent (World.start (series_data_init PMSERIES_NEED_EOL)) "S1").2.1).trans
     (by decide),
   (((series_next_idempotent
      (series_next (World.start (series_data_init PMSERIES_NEED_EOL)) "S1").2 "S1").2.2.2
      (by decide)).2.1).trans (by decide)⟩

/-! ## Host matching in `QmcSource::getSource` -/

/-- The search loop in host-matching mode: it stops at the first archive
source of the requested host; when there is none it runs to the end of the
list and `src` is left on the last source visited. -/
theorem getSource_loop_host (api : Pmcontext) (source : String) (l : List QmcSource)
    (i : Nat) (src : Option Nat) :
    getSource_loop api api.PM_CONTEXT_HOST source true l i src
      = (match first_archive_of_host api source l i with
         | some j => (j, some j)
         | none => (i + l.length, if l = [] then src else some (i + l.length - 1))) := by
  induction l generalizing i src with
  | nil => simp [getSource_loop, first_archive_of_host]
  | cons s rest ih =>
    unfold getSource_loop first_archive_of_host
    by_cases h : s.type = api.PM_CONTEXT_ARCHIVE ∧ s.host = source
    · simp [h]
    · have hb : (s.type == api.PM_CONTEXT_ARCHIVE && s.host == source) = false := by
        rw [Bool.eq_false_iff]
        intro hh
        apply h
        simpa using hh
      simp only [beq_self_eq_true, Bool.and_self, if_true, hb, Bool.false_eq_true, if_false,
        if_neg h, ih]
      cases hf : first_archive_of_host api source rest (i + 1) with
      | some j => rfl
      | none =>
        simp only [List.length_cons, reduceCtorEq, if_false]
        by_cases hr : rest = []
        · subst hr
          simp
        · rw [if_neg hr]
          have e1 : i + 1 + rest.length = i + (rest.length + 1) := by omega
          have e2 : i + 1 + rest.length - 1 = i + (rest.length + 1) - 1 := by omega
          simp only [e1, e2]

/-- C29 (the code): in host-matching mode `getSource` never creates a source
and leaves the source list as it is; it returns the first archive source
whose host is the requested name when there is one; when there is none it
returns NULL only for the empty list, and for a non-empty list the last
source of the list, whatever its type and host.  With the single host source
"hostA" in the list, the request for "hostB" returns that source. -/
theorem getSource_host_mode (api : Pmcontext) (l : List QmcSource) (source : String) :
    (getSource api l api.PM_CONTEXT_HOST source true).2 = l ∧
    (getSource api l api.PM_CONTEXT_HOST source true).1
      = (match first_archive_of_host api source l 0 with
         | some j => some j
         | none => if l = [] then none else some (l.length - 1)) ∧
    first_archive_of_host libpcp_context "hostB" [⟨0, 1, "hostA", "hostA"⟩] 0 = none ∧
    getSource libpcp_context [⟨0, 1, "hostA", "hostA"⟩] 1 "hostB" true
      = (some 0, [⟨0, 1, "hostA", "hostA"⟩]) ∧
    getSource libpcp_context [] 1 "hostB" true = (none, []) ∧
    getSource libpcp_context [⟨0, 1, "hostA", "hostA"⟩, ⟨0, 2, "/logs/b", "hostB"⟩,
        ⟨0, 2, "/logs/b2", "hostB"⟩, ⟨0, 3, "localhost", "localhost"⟩] 1 "hostB" true
      = (some 1, [⟨0, 1, "hostA", "hostA"⟩, ⟨0, 2, "/logs/b", "hostB"⟩,
        ⟨0, 2, "/logs/b2", "hostB"⟩, ⟨0, 3, "localhost", "localhost"⟩]) := by
  refine ⟨?_, ?_, by decide, by decide, by decide, by decide⟩
  · unfold getSource
    simp
  · unfold getSource
    simp only [beq_self_eq_true, Bool.and_self, Bool.true_eq_false, and_false, if_false,
      getSource_loop_host]
    cases hf : first_archive_of_host api source l 0 with
    | some j => rfl
    | none => simp

/-! ## Conversions of the C library -/

/-- The `%u` directive at the ends of its range: digits beyond `unsigned
long` give 4294967295 with or without a minus sign, a minus sign negates a
value within the range, and a value beyond 32 bits is cut. -/
theorem scanUnsigned_range :
    scanUnsigned "-99999999999999999999".data = some (4294967295, []) ∧
    scanUnsigned "99999999999999999999".data = some (4294967295, []) ∧
    scanUnsigned "-18446744073709551615".data = some (1, []) ∧
    scanUnsigned "-5".data = some (4294967291, []) ∧
    scanUnsigned "4294967296".data = some (0, []) ∧
    scanUnsigned " 60.0.1".data = some (60, ".0.1".data) ∧
    scanUnsigned "-".data = none ∧
    sscanf_u3 "-99999999999999999999.0.1" = some (4294967295, 0, 1) := by
  set_option maxRecDepth 100000 in decide

/-- The escaped form is made byte by byte: the two bytes of U+00E9 are
written as two hexadecimal escapes, a tab as its C escape, a double quote
with a backslash. -/
theorem sds_repr_bytes :
    sds_repr (String.mk [Char.ofNat 233])
      = String.mk ['"', Char.ofNat 92, 'x', 'c', '3', Char.ofNat 92, 'x', 'a', '9', '"'] ∧
    sds_repr "a\tb" = String.mk ['"', 'a', Char.ofNat 92, 't', 'b', '"'] ∧
    sds_repr "q\"" = String.mk ['"', 'q', Char.ofNat 92, '"', '"'] ∧
    sds_repr "abc" = "\"abc\"" := by
  set_option maxRecDepth 100000 in decide

end Pmseries
